import Mathlib

/-!
The RF scanner's signal registry, sweeps and classifier

A shallow embedding of `src/src/rf_scanner.cpp` and `src/include/config.h`.

Modelling conventions.

* `float` values (frequencies in MHz, RSSI in dBm) are rationals: no NaN, no
  infinities. The two `float` subtractions whose result the code compares with a
  constant (`signals[i].frequency - freq` and `rssi1 - rssi2`) are rounded to
  single precision by `floatSub`; `fabs` and the comparisons are exact; the
  additions `freq += step` of the sweeps are exact on the values they meet.
* `uint32_t` timestamps are naturals; a reading of `millis()` is reduced modulo
  `2^32` and the unsigned subtraction of `cleanupSignals` wraps modulo `2^32`.
* `int` counters are integers (no overflow: they stay far below `2^31`).
* `uint8_t band` is a natural number.
* The outside world (the Arduino millisecond counter and the two RadioLib
  radios) is an oracle `Env`: the answer of the `k`-th call of each external
  function. `World` counts the calls made so far, so that a function that
  leaves the `World` unchanged has called nothing external.
* `delay`, `startReceive`, `standby` and the serial log have no effect on the
  modelled state.
-/

namespace Spur

/-! ## config.h -/

/-- The constant `MAX_DETECTED_SIGNALS`. -/
abbrev MAX_DETECTED_SIGNALS : Nat := 10

/-- The constant `RSSI_THRESHOLD` (dBm). -/
def RSSI_THRESHOLD : ℚ := -100

/-- The constant `SIGNAL_HOLD_TIME_MS`. -/
def SIGNAL_HOLD_TIME_MS : Nat := 3000

/-- The constant `FREQ_900_START` (MHz). -/
def FREQ_900_START : ℚ := 860

/-- The constant `FREQ_900_END` (MHz). -/
def FREQ_900_END : ℚ := 930

/-- The constant `FREQ_900_STEP` (MHz). -/
def FREQ_900_STEP : ℚ := 1 / 2

/-- The constant `FREQ_2400_START` (MHz). -/
def FREQ_2400_START : ℚ := 2400

/-- The constant `FREQ_2400_END` (MHz). -/
def FREQ_2400_END : ℚ := 2500

/-- The constant `FREQ_2400_STEP` (MHz). -/
def FREQ_2400_STEP : ℚ := 1

/-- The enumeration `ModulationType`. -/
inductive ModulationType where
  | MOD_UNKNOWN
  | MOD_FSK
  | MOD_GFSK
  | MOD_LORA
  | MOD_FHSS
  | MOD_DSSS
  | MOD_OFDM
  deriving DecidableEq, Repr

open ModulationType

/-- The record `DetectedSignal`, one slot of the registry. -/
structure DetectedSignal where
  frequency : ℚ
  rssi : ℚ
  modType : ModulationType
  timestamp : Nat
  active : Bool
  band : Nat
  deriving DecidableEq

/-! ## The outside world -/

/-- Answers of the external functions: `millis k` is the number of milliseconds
since boot at the `k`-th call of `millis()`; `setFrequency900 k f` tells whether
the `k`-th call `radio900->setFrequency(f)` returned `RADIOLIB_ERR_NONE`;
`getRSSI900 k` is the value of the `k`-th call `radio900->getRSSI()`; likewise
for the 2.4 GHz radio. -/
structure Env where
  millis : Nat → Nat
  setFrequency900 : Nat → ℚ → Bool
  getRSSI900 : Nat → ℚ
  setFrequency2400 : Nat → ℚ → Bool
  getRSSI2400 : Nat → ℚ

/-- Number of calls made so far to each external function. -/
structure World where
  millisCalls : Nat
  setFrequency900Calls : Nat
  getRSSI900Calls : Nat
  setFrequency2400Calls : Nat
  getRSSI2400Calls : Nat
  deriving DecidableEq

/-- Value returned by the next call of `millis()`: a 32-bit unsigned counter. -/
def millis (env : Env) (w : World) : Nat :=
  env.millis w.millisCalls % 4294967296

/-- The world after one call of `millis()`. -/
def tick (w : World) : World :=
  { w with millisCalls := w.millisCalls + 1 }

/-- Subtraction of `uint32_t` values. -/
def u32sub (a b : Nat) : Nat :=
  (a + (4294967296 - b % 4294967296)) % 4294967296

/-! ## Single-precision arithmetic -/

/-- Rounding of a rational to the nearest integer, ties to the even one. -/
def roundHalfEven (q : ℚ) : ℤ :=
  if q - ⌊q⌋ < 1 / 2 then ⌊q⌋
  else if 1 / 2 < q - ⌊q⌋ then ⌊q⌋ + 1
  else if ⌊q⌋ % 2 = 0 then ⌊q⌋ else ⌊q⌋ + 1

/-- Exponent of the unit in the last place of a binary32 value of magnitude `a`:
24 significant bits, subnormals from `2^-149`. -/
def ulpExp (a : ℚ) : ℤ :=
  max (Int.log 2 a - 23) (-149)

/-- Rounding of a magnitude `a >= 0` to binary32, to nearest, ties to even. The
exponent is not bounded above: a result of `2^128` or more stands for infinity,
and compares with the constants of the code as infinity does. -/
def roundMag (a : ℚ) : ℚ :=
  (roundHalfEven (a / 2 ^ ulpExp a) : ℚ) * 2 ^ ulpExp a

/-- Rounding of a rational to binary32 (`float`). -/
def roundF32 (x : ℚ) : ℚ :=
  if 0 ≤ x then roundMag x else -roundMag (-x)

/-- The subtraction `a - b` of two `float` values. -/
def floatSub (a b : ℚ) : ℚ :=
  roundF32 (a - b)

/-! ## rf_scanner.h: the scanner object -/

/-- The data members of `RFScanner` (the two radio handles are in `Env`). -/
structure RFScanner where
  signals : Fin MAX_DETECTED_SIGNALS → DetectedSignal
  signalCount : Int
  currentFreq : ℚ
  sx1262Available : Bool
  sx1280Available : Bool

/-- The constructor `RFScanner::RFScanner`. -/
def RFScanner.new : RFScanner where
  signals := fun _ =>
    { frequency := 0, rssi := -120, modType := MOD_UNKNOWN, timestamp := 0,
      active := false, band := 0 }
  signalCount := 0
  currentFreq := 0
  sx1262Available := false
  sx1280Available := false

/-! ## rf_scanner.cpp: the registry -/

/-- A loop `for (int i = 0; i < MAX_DETECTED_SIGNALS; i++) if (p i) return i;`
started at index `i` with `n` iterations left: the first index at which the
test succeeds, if any. -/
def scanFrom (p : Fin MAX_DETECTED_SIGNALS → Bool) :
    Nat → Nat → Option (Fin MAX_DETECTED_SIGNALS)
  | 0, _ => none
  | n + 1, i =>
    if h : i < MAX_DETECTED_SIGNALS then
      if p ⟨i, h⟩ then some ⟨i, h⟩ else scanFrom p n (i + 1)
    else none

/-- The whole loop, from index 0. -/
def firstSlot (p : Fin MAX_DETECTED_SIGNALS → Bool) : Option (Fin MAX_DETECTED_SIGNALS) :=
  scanFrom p MAX_DETECTED_SIGNALS 0

/-- The test of the first loop of `addSignal`:
`signals[i].active && fabs(signals[i].frequency - freq) < 1.0 && signals[i].band == band`. -/
def sameSignal (freq : ℚ) (band : Nat) (d : DetectedSignal) : Bool :=
  d.active && decide (|floatSub d.frequency freq| < 1) && decide (d.band = band)

/-- The third loop of `addSignal`, started at index `i` with `n` iterations
left, with the current values of `oldestTime` and `oldestIdx`. -/
def oldestLoop (signals : Fin MAX_DETECTED_SIGNALS → DetectedSignal) :
    Nat → Nat → Nat → Fin MAX_DETECTED_SIGNALS → Fin MAX_DETECTED_SIGNALS
  | 0, _, _, oldestIdx => oldestIdx
  | n + 1, i, oldestTime, oldestIdx =>
    if h : i < MAX_DETECTED_SIGNALS then
      if (signals ⟨i, h⟩).timestamp < oldestTime then
        oldestLoop signals n (i + 1) (signals ⟨i, h⟩).timestamp ⟨i, h⟩
      else oldestLoop signals n (i + 1) oldestTime oldestIdx
    else oldestIdx

/-- The method `RFScanner::addSignal`. -/
def addSignal (env : Env) (freq rssi : ℚ) (mod : ModulationType) (band : Nat)
    (s : RFScanner) (w : World) : RFScanner × World :=
  match firstSlot (fun i => sameSignal freq band (s.signals i)) with
  | some i =>
    ({ s with
        signals := Function.update s.signals i
          { s.signals i with rssi := rssi, modType := mod, timestamp := millis env w } },
     tick w)
  | none =>
    match firstSlot (fun i => !(s.signals i).active) with
    | some i =>
      ({ s with
          signals := Function.update s.signals i
            { frequency := freq, rssi := rssi, modType := mod, band := band,
              timestamp := millis env w, active := true }
          signalCount := s.signalCount + 1 },
       tick w)
    | none =>
      let oldestIdx := oldestLoop s.signals MAX_DETECTED_SIGNALS 0 (millis env w) 0
      ({ s with
          signals := Function.update s.signals oldestIdx
            { frequency := freq, rssi := rssi, modType := mod, band := band,
              timestamp := millis env (tick w), active := true } },
       tick (tick w))

/-- The loop of `cleanupSignals`, started at index `i` with `n` iterations left. -/
def cleanupLoop (now : Nat) :
    Nat → Nat → (Fin MAX_DETECTED_SIGNALS → DetectedSignal) → Int →
      (Fin MAX_DETECTED_SIGNALS → DetectedSignal) × Int
  | 0, _, signals, signalCount => (signals, signalCount)
  | n + 1, i, signals, signalCount =>
    if h : i < MAX_DETECTED_SIGNALS then
      if (signals ⟨i, h⟩).active then
        if u32sub now (signals ⟨i, h⟩).timestamp > SIGNAL_HOLD_TIME_MS then
          cleanupLoop now n (i + 1)
            (Function.update signals ⟨i, h⟩ { signals ⟨i, h⟩ with active := false })
            signalCount
        else cleanupLoop now n (i + 1) signals (signalCount + 1)
      else cleanupLoop now n (i + 1) signals signalCount
    else (signals, signalCount)

/-- The method `RFScanner::cleanupSignals`. -/
def cleanupSignals (env : Env) (s : RFScanner) (w : World) : RFScanner × World :=
  let r := cleanupLoop (millis env w) MAX_DETECTED_SIGNALS 0 s.signals 0
  ({ s with signals := r.1, signalCount := r.2 }, tick w)

/-- The loop of `clearSignals`, started at index `i` with `n` iterations left. -/
def clearLoop :
    Nat → Nat → (Fin MAX_DETECTED_SIGNALS → DetectedSignal) →
      (Fin MAX_DETECTED_SIGNALS → DetectedSignal)
  | 0, _, signals => signals
  | n + 1, i, signals =>
    if h : i < MAX_DETECTED_SIGNALS then
      clearLoop n (i + 1)
        (Function.update signals ⟨i, h⟩ { signals ⟨i, h⟩ with active := false })
    else signals

/-- The method `RFScanner::clearSignals`. -/
def clearSignals (s : RFScanner) : RFScanner :=
  { s with signals := clearLoop MAX_DETECTED_SIGNALS 0 s.signals, signalCount := 0 }

/-- The method `RFScanner::getSignalCount`. -/
def getSignalCount (s : RFScanner) : Int := s.signalCount

/-! ## rf_scanner.cpp: measuring, classifying, sweeping -/

/-- The method `RFScanner::measureRSSI`: the measured value and the world after
the calls made to the radio. -/
def measureRSSI (env : Env) (freq : ℚ) (band : Nat) (s : RFScanner) (w : World) :
    ℚ × World :=
  if band = 0 ∧ s.sx1262Available = true then
    if env.setFrequency900 w.setFrequency900Calls freq = true then
      (env.getRSSI900 w.getRSSI900Calls,
       { w with
          setFrequency900Calls := w.setFrequency900Calls + 1
          getRSSI900Calls := w.getRSSI900Calls + 1 })
    else (-120, { w with setFrequency900Calls := w.setFrequency900Calls + 1 })
  else if band = 1 ∧ s.sx1280Available = true then
    if env.setFrequency2400 w.setFrequency2400Calls freq = true then
      (env.getRSSI2400 w.getRSSI2400Calls,
       { w with
          setFrequency2400Calls := w.setFrequency2400Calls + 1
          getRSSI2400Calls := w.getRSSI2400Calls + 1 })
    else (-120, { w with setFrequency2400Calls := w.setFrequency2400Calls + 1 })
  else (-120, w)

/-- The method `RFScanner::analyzeModulation`: the modulation type and the world
after the measurements made. -/
def analyzeModulation (env : Env) (freq : ℚ) (band : Nat) (s : RFScanner) (w : World) :
    ModulationType × World :=
  if band = 0 then
    if 902 ≤ freq ∧ freq ≤ 928 then
      if s.sx1262Available = true then
        let rssi1 := measureRSSI env freq 0 s w
        let rssi2 := measureRSSI env freq 0 s rssi1.2
        if |floatSub rssi1.1 rssi2.1| > 20 then (MOD_FHSS, rssi2.2)
        else if rssi1.1 > -60 then (MOD_LORA, rssi2.2)
        else (MOD_GFSK, rssi2.2)
      else (MOD_UNKNOWN, w)
    else if 868 ≤ freq ∧ freq ≤ 870 then (MOD_LORA, w)
    else (MOD_FSK, w)
  else
    if 2400 ≤ freq ∧ freq ≤ 2483 then
      let rssi1 := measureRSSI env freq 1 s w
      let rssi2 := measureRSSI env freq 1 s rssi1.2
      if |floatSub rssi1.1 rssi2.1| > 15 then (MOD_FHSS, rssi2.2)
      else if rssi1.1 > -50 then (MOD_DSSS, rssi2.2)
      else (MOD_GFSK, rssi2.2)
    else (MOD_UNKNOWN, w)

/-- The state of a sweep: the scanner, the world, the local `detected`, and a
ghost list `observed` of the pairs (frequency, rssi) measured by the sweep
itself, in the order measured. -/
structure Sweep where
  scanner : RFScanner
  world : World
  detected : Int
  observed : List (ℚ × ℚ)

/-- The state in which a sweep starts. -/
def Sweep.start (s : RFScanner) (w : World) : Sweep :=
  { scanner := s, world := w, detected := 0, observed := [] }

/-- The body of the `for` loop of `scan900MHz` (`band = 0`) and of
`scan2400MHz` (`band = 1`) at frequency `freq`. -/
def scanStep (env : Env) (band : Nat) (freq : ℚ) (st : Sweep) : Sweep :=
  let s1 : RFScanner := { st.scanner with currentFreq := freq }
  let rssi := measureRSSI env freq band s1 st.world
  if rssi.1 > RSSI_THRESHOLD then
    let mod := analyzeModulation env freq band s1 rssi.2
    let r := addSignal env freq rssi.1 mod.1 band s1 mod.2
    { scanner := r.1, world := r.2, detected := st.detected + 1,
      observed := st.observed ++ [(freq, rssi.1)] }
  else
    { scanner := s1, world := rssi.2, detected := st.detected,
      observed := st.observed ++ [(freq, rssi.1)] }

/-- The loop `for (float freq = ...; freq <= stop; freq += step)` with `fuel`
evaluations of its condition left; `none` when the fuel runs out. -/
def scanLoop (env : Env) (band : Nat) (stop step : ℚ) : Nat → ℚ → Sweep → Option Sweep
  | 0, _, _ => none
  | fuel + 1, freq, st =>
    if freq ≤ stop then scanLoop env band stop step fuel (freq + step) (scanStep env band freq st)
    else some st

/-- What follows the loop: `cleanupSignals(); return detected;`. -/
def scanFinish (env : Env) (st : Sweep) : Sweep :=
  let c := cleanupSignals env st.scanner st.world
  { st with scanner := c.1, world := c.2 }

/-- The method `RFScanner::scan900MHz`; the returned value is the field
`detected` of the result. -/
def scan900MHz (env : Env) (fuel : Nat) (s : RFScanner) (w : World) : Option Sweep :=
  if s.sx1262Available = false then some (Sweep.start s w)
  else
    (scanLoop env 0 FREQ_900_END FREQ_900_STEP fuel FREQ_900_START (Sweep.start s w)).map
      (scanFinish env)

/-- The method `RFScanner::scan2400MHz`; the returned value is the field
`detected` of the result. -/
def scan2400MHz (env : Env) (fuel : Nat) (s : RFScanner) (w : World) : Option Sweep :=
  if s.sx1280Available = false then some (Sweep.start s w)
  else
    (scanLoop env 1 FREQ_2400_END FREQ_2400_STEP fuel FREQ_2400_START (Sweep.start s w)).map
      (scanFinish env)

/-! ## Vocabulary of the specification -/

/-- A slot matches a new detection, as the specification words it: it is active,
in the same band, and its frequency is less than 1.0 MHz away (exact
difference). -/
def Matches (freq : ℚ) (band : Nat) (d : DetectedSignal) : Prop :=
  d.active = true ∧ d.band = band ∧ |d.frequency - freq| < 1

/-- A slot matches a new detection, as the code tests it: it is active, in the
same band, and the single-precision difference of the frequencies is less than
1.0 in absolute value. -/
def MatchesRounded (freq : ℚ) (band : Nat) (d : DetectedSignal) : Prop :=
  d.active = true ∧ d.band = band ∧ |floatSub d.frequency freq| < 1

/-- Number of slots whose `active` flag is set. -/
def activeCount (s : RFScanner) : Nat :=
  (Finset.univ.filter (fun i => (s.signals i).active = true)).card

/-- No two distinct active slots are in the same band with a single-precision
difference of their frequencies less than 1.0 in absolute value. -/
def DedupRounded (s : RFScanner) : Prop :=
  ∀ i j : Fin MAX_DETECTED_SIGNALS, i ≠ j →
    (s.signals i).active = true → (s.signals j).active = true →
      ¬ ((s.signals i).band = (s.signals j).band ∧
          |floatSub (s.signals i).frequency (s.signals j).frequency| < 1)

/-- No two distinct active slots are in the same band less than 1.0 MHz apart
(exact difference), as the specification words it. -/
def Dedup (s : RFScanner) : Prop :=
  ∀ i j : Fin MAX_DETECTED_SIGNALS, i ≠ j →
    (s.signals i).active = true → (s.signals j).active = true →
      ¬ ((s.signals i).band = (s.signals j).band ∧
          |(s.signals i).frequency - (s.signals j).frequency| < 1)

/-- Scanner states reachable from the constructor by calls of `addSignal`,
`cleanupSignals` and `clearSignals`, whatever the clock answers. -/
inductive Reachable : RFScanner → Prop
  | init : Reachable RFScanner.new
  | add (env : Env) (w : World) (freq rssi : ℚ) (mod : ModulationType) (band : Nat)
      {s : RFScanner} : Reachable s → Reachable (addSignal env freq rssi mod band s w).1
  | cleanup (env : Env) (w : World) {s : RFScanner} :
      Reachable s → Reachable (cleanupSignals env s w).1
  | clear {s : RFScanner} : Reachable s → Reachable (clearSignals s)

/-- Two worlds in which the same calls have been made to the two radios (the
number of clock readings may differ). -/
def World.SameRadio (a b : World) : Prop :=
  a.setFrequency900Calls = b.setFrequency900Calls ∧
  a.getRSSI900Calls = b.getRSSI900Calls ∧
  a.setFrequency2400Calls = b.setFrequency2400Calls ∧
  a.getRSSI2400Calls = b.getRSSI2400Calls

/-- Two sweep states that agree on everything except the contents of the
registry, the cursor and the number of clock readings. -/
def Sweep.Agree (a b : Sweep) : Prop :=
  a.detected = b.detected ∧ a.observed = b.observed ∧
  a.scanner.sx1262Available = b.scanner.sx1262Available ∧
  a.scanner.sx1280Available = b.scanner.sx1280Available ∧
  World.SameRadio a.world b.world

/-- The frequencies `start + step * k` for `k = 0, ..., n - 1`. -/
def sweepFreqs (start step : ℚ) (n : Nat) : List ℚ :=
  (List.range n).map (fun k : Nat => start + step * (k : ℚ))

/-- An environment for examples: the clock advances by one millisecond per call,
the radios accept every frequency and report -50 dBm. -/
def Env.sample : Env where
  millis := fun k => k
  setFrequency900 := fun _ _ => true
  getRSSI900 := fun _ => -50
  setFrequency2400 := fun _ _ => true
  getRSSI2400 := fun _ => -50

/-- The world before any external call. -/
def World.zero : World :=
  { millisCalls := 0, setFrequency900Calls := 0, getRSSI900Calls := 0,
    setFrequency2400Calls := 0, getRSSI2400Calls := 0 }

/-- The method `RFScanner::begin`: `ok900` (resp. `ok2400`) tells whether
`radio900->begin(...)` (resp. `radio2400->begin(...)`) returned
`RADIOLIB_ERR_NONE`; the returned value and the scanner afterwards. -/
def begin (ok900 ok2400 : Bool) (s : RFScanner) : Bool × RFScanner :=
  let s1 : RFScanner := { s with sx1262Available := if ok900 = true then true else false }
  let s2 : RFScanner := { s1 with sx1280Available := if ok2400 = true then true else false }
  (s2.sx1262Available || s2.sx1280Available, s2)

/-- `signalCount` is the number of slots whose `active` flag is set. -/
def CountExact (s : RFScanner) : Prop :=
  s.signalCount = (activeCount s : Int)

/-- Scanner states reachable from the constructor by calls of `begin`,
`addSignal`, `cleanupSignals`, `clearSignals`, `scan900MHz` and `scan2400MHz`,
whatever the clock and the radios answer. -/
inductive ReachableBySweeps : RFScanner → Prop
  | init : ReachableBySweeps RFScanner.new
  | begin (ok900 ok2400 : Bool) {s : RFScanner} :
      ReachableBySweeps s → ReachableBySweeps (begin ok900 ok2400 s).2
  | add (env : Env) (w : World) (freq rssi : ℚ) (mod : ModulationType) (band : Nat)
      {s : RFScanner} :
      ReachableBySweeps s → ReachableBySweeps (addSignal env freq rssi mod band s w).1
  | cleanup (env : Env) (w : World) {s : RFScanner} :
      ReachableBySweeps s → ReachableBySweeps (cleanupSignals env s w).1
  | clear {s : RFScanner} : ReachableBySweeps s → ReachableBySweeps (clearSignals s)
  | sweep900 (env : Env) (fuel : Nat) (w : World) {s : RFScanner} (r : Sweep) :
      ReachableBySweeps s → scan900MHz env fuel s w = some r → ReachableBySweeps r.scanner
  | sweep2400 (env : Env) (fuel : Nat) (w : World) {s : RFScanner} (r : Sweep) :
      ReachableBySweeps s → scan2400MHz env fuel s w = some r → ReachableBySweeps r.scanner

/-- The sweep as the specification orders it, first part: the list, in the order
of the frequencies `fs`, of the above-threshold observations of a sweep, each
with the frequency, the rssi measured by the sweep itself and the modulation
given by `analyzeModulation` right after that measurement. -/
def sweepHits (env : Env) (band : Nat) (s : RFScanner) : World → List ℚ →
    List (ℚ × ℚ × ModulationType)
  | _, [] => []
  | w, freq :: fs =>
    let rssi := measureRSSI env freq band s w
    if rssi.1 > RSSI_THRESHOLD then
      let mod := analyzeModulation env freq band s rssi.2
      (freq, rssi.1, mod.1) :: sweepHits env band s mod.2 fs
    else sweepHits env band s rssi.2 fs

/-- The sweep as the specification orders it, second part: `addSignal` called on
each classified observation in turn. -/
def upsertAll (env : Env) (band : Nat) :
    List (ℚ × ℚ × ModulationType) → RFScanner → World → RFScanner × World
  | [], s, w => (s, w)
  | hit :: hits, s, w =>
    let r := addSignal env hit.1 hit.2.1 hit.2.2 band s w
    upsertAll env band hits r.1 r.2

/-- The sweep as the specification orders it: the observations are classified
and upserted in the order of the frequencies, then the expiry pass runs once. -/
def sweepSpec (env : Env) (band : Nat) (fs : List ℚ) (s : RFScanner) (w : World) :
    RFScanner × World :=
  let r := upsertAll env band (sweepHits env band s w fs) s w
  cleanupSignals env r.1 r.2

/-! ## States used in the examples -/

/-- A registry holding one signal, 905.0 MHz in band 0, in slot 0. -/
def RFScanner.one : RFScanner where
  signals := Function.update RFScanner.new.signals 0
    { frequency := 905, rssi := -70, modType := MOD_FSK, timestamp := 0,
      active := true, band := 0 }
  signalCount := 1
  currentFreq := 0
  sx1262Available := true
  sx1280Available := false

/-- A full registry: slot `i` holds the frequency `900 + 2 i` MHz of band 0. -/
def RFScanner.full : RFScanner where
  signals := fun i =>
    { frequency := 900 + 2 * (i.val : ℚ), rssi := -70, modType := MOD_FSK, timestamp := 0,
      active := true, band := 0 }
  signalCount := 10
  currentFreq := 0
  sx1262Available := true
  sx1280Available := false

/-- The state left by the constructor and a `begin()` in which both radios
initialised. -/
def RFScanner.ready : RFScanner :=
  { RFScanner.new with sx1262Available := true, sx1280Available := true }

/-- A registry whose slot 0 was last seen 1000 ms before the millisecond counter
wraps around. -/
def RFScanner.late : RFScanner where
  signals := Function.update RFScanner.new.signals 0
    { frequency := 905, rssi := -70, modType := MOD_FSK, timestamp := 4294966296,
      active := true, band := 0 }
  signalCount := 1
  currentFreq := 0
  sx1262Available := true
  sx1280Available := false

/-- An environment in which the SX1262 reports `-(20 + 2^-19)` dBm then
`-3 * 2^-21` dBm: two `float` values whose exact difference exceeds 20 and whose
`float` difference is 20. -/
def Env.nearTwenty : Env where
  millis := fun k => k
  setFrequency900 := fun _ _ => true
  getRSSI900 := fun k => if k = 0 then -(20 + 1 / 524288) else -(3 / 2097152)
  setFrequency2400 := fun _ _ => true
  getRSSI2400 := fun _ => -50

/-- An environment in which the SX1280 reports `-(15 + 2^-20)` dBm then
`-3 * 2^-22` dBm: two `float` values whose exact difference exceeds 15 and whose
`float` difference is 15. -/
def Env.nearFifteen : Env where
  millis := fun k => k
  setFrequency900 := fun _ _ => true
  getRSSI900 := fun _ => -50
  setFrequency2400 := fun _ _ => true
  getRSSI2400 := fun k => if k = 0 then -(15 + 1 / 1048576) else -(3 / 4194304)

/-- An environment in which the SX1262 rejects every frequency. -/
def Env.rejecting : Env where
  millis := fun k => k
  setFrequency900 := fun _ _ => false
  getRSSI900 := fun _ => -50
  setFrequency2400 := fun _ _ => false
  getRSSI2400 := fun _ => -50

/-! ## Lemmas on single-precision rounding -/

theorem roundHalfEven_le (q : ℚ) : (roundHalfEven q : ℚ) ≤ q + 1 / 2 := by
  have h1 := Int.floor_le q
  have h2 := Int.lt_floor_add_one q
  unfold roundHalfEven
  split_ifs <;> push_cast <;> linarith

theorem roundHalfEven_ge (q : ℚ) : q - 1 / 2 ≤ (roundHalfEven q : ℚ) := by
  have h1 := Int.floor_le q
  have h2 := Int.lt_floor_add_one q
  unfold roundHalfEven
  split_ifs <;> push_cast <;> linarith

theorem floor_le_roundHalfEven (q : ℚ) : ⌊q⌋ ≤ roundHalfEven q := by
  unfold roundHalfEven
  split_ifs <;> omega

theorem roundHalfEven_le_of_lt (q : ℚ) (M : ℤ) (h : q < (M : ℚ) + 1 / 2) :
    roundHalfEven q ≤ M := by
  have h1 := Int.floor_le q
  have hr := roundHalfEven_le q
  have hfl : ⌊q⌋ ≤ M := by
    have : ((⌊q⌋ : ℤ) : ℚ) < ((M + 1 : ℤ) : ℚ) := by push_cast; linarith
    have := Int.cast_lt.mp this
    omega
  unfold roundHalfEven
  split_ifs with ha hb hc
  · exact hfl
  · have : ((⌊q⌋ : ℤ) : ℚ) < ((M : ℤ) : ℚ) := by linarith
    have := Int.cast_lt.mp this
    omega
  · exact hfl
  · have hge : (1 : ℚ) / 2 ≤ q - ⌊q⌋ := not_lt.mp ha
    have : ((⌊q⌋ : ℤ) : ℚ) < ((M : ℤ) : ℚ) := by linarith
    have := Int.cast_lt.mp this
    omega

theorem roundHalfEven_ge_of_gt (q : ℚ) (M : ℤ) (h : (M : ℚ) - 1 / 2 < q) :
    M ≤ roundHalfEven q := by
  have h2 := Int.lt_floor_add_one q
  have hfl : M ≤ ⌊q⌋ + 1 := by
    have : ((M : ℤ) : ℚ) < ((⌊q⌋ + 2 : ℤ) : ℚ) := by push_cast; linarith
    have := Int.cast_lt.mp this
    omega
  unfold roundHalfEven
  split_ifs with ha hb hc
  · have : ((M : ℤ) : ℚ) < ((⌊q⌋ + 1 : ℤ) : ℚ) := by push_cast; linarith
    have := Int.cast_lt.mp this
    omega
  · exact hfl
  · have hle : q - ⌊q⌋ ≤ (1 : ℚ) / 2 := not_lt.mp hb
    have hge : (1 : ℚ) / 2 ≤ q - ⌊q⌋ := not_lt.mp ha
    have : ((M : ℤ) : ℚ) < ((⌊q⌋ + 1 : ℤ) : ℚ) := by push_cast; linarith
    have := Int.cast_lt.mp this
    omega
  · exact hfl

theorem floor_of_tie (q : ℚ) (M : ℤ) (h : q = (M : ℚ) + 1 / 2) : ⌊q⌋ = M := by
  rw [Int.floor_eq_iff]
  constructor <;> linarith

theorem roundHalfEven_tie_even (q : ℚ) (M : ℤ) (h : q = (M : ℚ) + 1 / 2) (hM : M % 2 = 0) :
    roundHalfEven q = M := by
  have hf := floor_of_tie q M h
  unfold roundHalfEven
  rw [hf]
  have h1 : ¬ q - (M : ℚ) < 1 / 2 := by rw [h]; norm_num
  have h2 : ¬ (1 : ℚ) / 2 < q - (M : ℚ) := by rw [h]; norm_num
  rw [if_neg h1, if_neg h2, if_pos hM]

theorem roundHalfEven_tie_odd (q : ℚ) (M : ℤ) (h : q = (M : ℚ) + 1 / 2) (hM : M % 2 = 1) :
    roundHalfEven q = M + 1 := by
  have hf := floor_of_tie q M h
  unfold roundHalfEven
  rw [hf]
  have h1 : ¬ q - (M : ℚ) < 1 / 2 := by rw [h]; norm_num
  have h2 : ¬ (1 : ℚ) / 2 < q - (M : ℚ) := by rw [h]; norm_num
  rw [if_neg h1, if_neg h2, if_neg (by omega)]

theorem roundHalfEven_zero : roundHalfEven 0 = 0 := by
  unfold roundHalfEven
  simp

theorem roundHalfEven_nonneg (q : ℚ) (h : 0 ≤ q) : 0 ≤ roundHalfEven q :=
  le_trans (Int.floor_nonneg.mpr h) (floor_le_roundHalfEven q)

theorem two_zpow_pos (u : ℤ) : (0 : ℚ) < 2 ^ u := by positivity

theorem roundMag_nonneg (a : ℚ) (h : 0 ≤ a) : 0 ≤ roundMag a := by
  unfold roundMag
  apply mul_nonneg
  · exact_mod_cast roundHalfEven_nonneg _ (div_nonneg h (two_zpow_pos _).le)
  · exact (two_zpow_pos _).le

theorem roundMag_zero : roundMag 0 = 0 := by
  unfold roundMag
  simp [roundHalfEven_zero]

theorem abs_roundF32 (x : ℚ) : |roundF32 x| = roundMag |x| := by
  unfold roundF32
  by_cases h : 0 ≤ x
  · rw [if_pos h, abs_of_nonneg h, abs_of_nonneg (roundMag_nonneg x h)]
  · have hx : x < 0 := not_le.mp h
    rw [if_neg h, abs_of_neg hx, abs_neg, abs_of_nonneg (roundMag_nonneg _ (by linarith))]

theorem roundF32_neg (x : ℚ) : roundF32 (-x) = -roundF32 x := by
  unfold roundF32
  rcases lt_trichotomy x 0 with h | h | h
  · rw [if_pos (by linarith), if_neg (by linarith)]
    simp
  · subst h
    simp [roundMag_zero]
  · rw [if_neg (by linarith), if_pos (by linarith)]
    simp

theorem two_zpow_le_iff_le_log (a : ℚ) (ha : 0 < a) (x : ℤ) :
    (2 : ℚ) ^ x ≤ a ↔ x ≤ Int.log 2 a := by
  have h := Int.zpow_le_iff_le_log (R := ℚ) (b := 2) (by norm_num) (x := x) ha
  simpa using h

theorem lt_two_zpow_iff_log_lt (a : ℚ) (ha : 0 < a) (x : ℤ) :
    a < (2 : ℚ) ^ x ↔ Int.log 2 a < x := by
  have h := Int.lt_zpow_iff_log_lt (R := ℚ) (b := 2) (by norm_num) (x := x) ha
  simpa using h

theorem log_two_eq (a : ℚ) (e : ℤ) (h1 : (2 : ℚ) ^ e ≤ a) (h2 : a < (2 : ℚ) ^ (e + 1)) :
    Int.log 2 a = e := by
  have ha : 0 < a := lt_of_lt_of_le (two_zpow_pos e) h1
  have := (two_zpow_le_iff_le_log a ha e).mp h1
  have := (lt_two_zpow_iff_log_lt a ha (e + 1)).mp h2
  omega

theorem roundMag_scale (a : ℚ) : a / 2 ^ ulpExp a * 2 ^ ulpExp a = a :=
  div_mul_cancel₀ a (two_zpow_pos _).ne'

theorem roundMag_le_add (a : ℚ) : roundMag a ≤ a + 2 ^ ulpExp a / 2 := by
  have h := roundHalfEven_le (a / 2 ^ ulpExp a)
  have hp := two_zpow_pos (ulpExp a)
  have hs := roundMag_scale a
  unfold roundMag
  nlinarith

theorem roundMag_ge_sub (a : ℚ) : a - 2 ^ ulpExp a / 2 ≤ roundMag a := by
  have h := roundHalfEven_ge (a / 2 ^ ulpExp a)
  have hp := two_zpow_pos (ulpExp a)
  have hs := roundMag_scale a
  unfold roundMag
  nlinarith

theorem two_zpow_mono {u v : ℤ} (h : u ≤ v) : (2 : ℚ) ^ u ≤ 2 ^ v :=
  zpow_le_zpow_right₀ (by norm_num) h

theorem two_zpow_log_le_roundMag (a : ℚ) (ha : 0 < a) (he : -126 ≤ Int.log 2 a) :
    (2 : ℚ) ^ Int.log 2 a ≤ roundMag a := by
  have hu : ulpExp a = Int.log 2 a - 23 := by
    unfold ulpExp
    exact max_eq_left (by omega)
  have hlog : (2 : ℚ) ^ Int.log 2 a ≤ a := (two_zpow_le_iff_le_log a ha _).mpr (le_refl _)
  have hsplit : (2 : ℚ) ^ Int.log 2 a = 2 ^ (Int.log 2 a - 23) * 2 ^ (23 : ℤ) := by
    rw [← zpow_add₀ (by norm_num : (2 : ℚ) ≠ 0)]
    congr 1
    omega
  have hp := two_zpow_pos (Int.log 2 a - 23)
  have hq : ((8388608 : ℤ) : ℚ) ≤ a / 2 ^ (Int.log 2 a - 23) := by
    rw [le_div_iff₀ hp]
    have : ((8388608 : ℤ) : ℚ) = 2 ^ (23 : ℤ) := by norm_num
    rw [this, mul_comm, ← hsplit]
    exact hlog
  have hfl : (8388608 : ℤ) ≤ roundHalfEven (a / 2 ^ (Int.log 2 a - 23)) :=
    le_trans (Int.le_floor.mpr hq) (floor_le_roundHalfEven _)
  have hfl' : ((8388608 : ℤ) : ℚ) ≤ (roundHalfEven (a / 2 ^ (Int.log 2 a - 23)) : ℚ) :=
    Int.cast_le.mpr hfl
  unfold roundMag
  rw [hu, hsplit]
  have : ((8388608 : ℤ) : ℚ) = 2 ^ (23 : ℤ) := by norm_num
  rw [← this]
  nlinarith

/-- The rounded magnitude is below 1 exactly when the magnitude is below
`1 - 2^-25`. -/
theorem roundMag_lt_one_iff (a : ℚ) (ha : 0 ≤ a) :
    roundMag a < 1 ↔ a < 1 - 1 / 33554432 := by
  constructor
  · intro h
    by_contra hge
    have hge : 1 - 1 / 33554432 ≤ a := not_lt.mp hge
    have hpos : 0 < a := by linarith
    by_cases h1 : 1 ≤ a
    · have hlog : 0 ≤ Int.log 2 a := (two_zpow_le_iff_le_log a hpos 0).mp (by simpa using h1)
      have := two_zpow_log_le_roundMag a hpos (by omega)
      have h2 : (2 : ℚ) ^ (0 : ℤ) ≤ 2 ^ Int.log 2 a := two_zpow_mono hlog
      simp only [zpow_zero] at h2
      linarith
    · have h1 : a < 1 := not_le.mp h1
      have hlog : Int.log 2 a = -1 := by
        apply log_two_eq
        · norm_num
          linarith
        · norm_num
          exact h1
      have hu : ulpExp a = -24 := by
        unfold ulpExp
        rw [hlog]
        rfl
      have hz : (2 : ℚ) ^ (-24 : ℤ) = 1 / 16777216 := by norm_num
      have hq : a / (1 / 16777216) = a * 16777216 := by field_simp
      have hr : (16777216 : ℤ) ≤ roundHalfEven (a * 16777216) := by
        by_cases htie : a * 16777216 = ((16777215 : ℤ) : ℚ) + 1 / 2
        · rw [roundHalfEven_tie_odd _ 16777215 htie (by norm_num)]
          norm_num
        · apply roundHalfEven_ge_of_gt
          have : ((16777215 : ℤ) : ℚ) + 1 / 2 ≤ a * 16777216 := by
            push_cast
            linarith
          have hne := lt_of_le_of_ne this (Ne.symm htie)
          push_cast at hne ⊢
          linarith
      have hr' : ((16777216 : ℤ) : ℚ) ≤ (roundHalfEven (a * 16777216) : ℚ) := Int.cast_le.mpr hr
      unfold roundMag at h
      rw [hu, hz, hq] at h
      push_cast at hr'
      linarith
  · intro h
    rcases eq_or_lt_of_le ha with h0 | hpos
    · rw [← h0, roundMag_zero]
      norm_num
    · have hlog : Int.log 2 a < 0 :=
        (lt_two_zpow_iff_log_lt a hpos 0).mp (by simp only [zpow_zero]; linarith)
      have hu : ulpExp a ≤ -24 := by
        unfold ulpExp
        exact max_le (by omega) (by norm_num)
      have hz : (2 : ℚ) ^ ulpExp a ≤ 1 / 16777216 := by
        have := two_zpow_mono (u := ulpExp a) (v := -24) hu
        norm_num at this ⊢
        exact this
      have := roundMag_le_add a
      linarith

/-- Rounding within the binade `[2^e, 2^(e+1))` of a normal exponent, at a float
`M * 2^(e-23)` of even significand. -/
theorem roundMag_gt_iff (e M : ℤ) (he : -126 ≤ e) (hM : M % 2 = 0) (hlo : 8388608 < M)
    (hhi : M < 16777216) (a : ℚ) (ha : 0 ≤ a) :
    (M : ℚ) * 2 ^ (e - 23) < roundMag a ↔ ((M : ℚ) + 1 / 2) * 2 ^ (e - 23) < a := by
  have hp := two_zpow_pos (e - 23)
  have hsplit : ∀ k : ℤ, (2 : ℚ) ^ k = 2 ^ (k - 23) * 8388608 := by
    intro k
    have : (8388608 : ℚ) = 2 ^ (23 : ℤ) := by norm_num
    rw [this, ← zpow_add₀ (by norm_num : (2 : ℚ) ≠ 0)]
    congr 1
    omega
  have hsucc : (2 : ℚ) ^ (e + 1) = 2 ^ (e - 23) * 16777216 := by
    have : (16777216 : ℚ) = 2 ^ (24 : ℤ) := by norm_num
    rw [this, ← zpow_add₀ (by norm_num : (2 : ℚ) ≠ 0)]
    congr 1
    omega
  have hloQ : (8388608 : ℚ) < (M : ℚ) := by exact_mod_cast hlo
  have hhiQ : (M : ℚ) + 1 ≤ 16777216 := by exact_mod_cast hhi
  constructor
  · intro h
    by_contra hle
    have hle : a ≤ ((M : ℚ) + 1 / 2) * 2 ^ (e - 23) := not_lt.mp hle
    rcases eq_or_lt_of_le ha with h0 | hpos
    · rw [← h0, roundMag_zero] at h
      nlinarith
    · have hlt : a < 2 ^ (e + 1) := by
        rw [hsucc]
        nlinarith
      have hlog1 : Int.log 2 a < e + 1 := (lt_two_zpow_iff_log_lt a hpos _).mp hlt
      by_cases hlog : Int.log 2 a = e
      · have hu : ulpExp a = e - 23 := by
          unfold ulpExp
          rw [hlog]
          exact max_eq_left (by omega)
        have hq : a / 2 ^ (e - 23) ≤ (M : ℚ) + 1 / 2 := by
          rw [div_le_iff₀ hp]
          exact hle
        have hr : roundHalfEven (a / 2 ^ (e - 23)) ≤ M := by
          rcases eq_or_lt_of_le hq with heq | hlt'
          · rw [roundHalfEven_tie_even _ M heq hM]
          · exact roundHalfEven_le_of_lt _ M hlt'
        have hr' : (roundHalfEven (a / 2 ^ (e - 23)) : ℚ) ≤ (M : ℚ) := Int.cast_le.mpr hr
        unfold roundMag at h
        rw [hu] at h
        nlinarith
      · have hlog2 : Int.log 2 a ≤ e - 1 := by omega
        have hu : ulpExp a ≤ e - 23 := by
          unfold ulpExp
          exact max_le (by omega) (by omega)
        have ha2 : a < 2 ^ e := (lt_two_zpow_iff_log_lt a hpos _).mpr (by omega)
        have hz : (2 : ℚ) ^ ulpExp a ≤ 2 ^ (e - 23) := two_zpow_mono hu
        have hb := roundMag_le_add a
        have he2 := hsplit e
        have hlo' : (8388609 : ℚ) ≤ (M : ℚ) := by exact_mod_cast hlo
        have hmul := mul_le_mul_of_nonneg_right hlo' hp.le
        linarith
  · intro h
    have hpos : 0 < a := by
      have : (0 : ℚ) < ((M : ℚ) + 1 / 2) * 2 ^ (e - 23) := by
        apply mul_pos _ hp
        linarith
      linarith
    have hge : (2 : ℚ) ^ e ≤ a := by
      rw [hsplit e]
      nlinarith
    have hlog0 : e ≤ Int.log 2 a := (two_zpow_le_iff_le_log a hpos e).mp hge
    by_cases hlog : Int.log 2 a = e
    · have hu : ulpExp a = e - 23 := by
        unfold ulpExp
        rw [hlog]
        exact max_eq_left (by omega)
      have hq : ((M + 1 : ℤ) : ℚ) - 1 / 2 < a / 2 ^ (e - 23) := by
        rw [lt_div_iff₀ hp]
        push_cast
        linarith
      have hr := roundHalfEven_ge_of_gt _ (M + 1) hq
      have hr' : ((M + 1 : ℤ) : ℚ) ≤ (roundHalfEven (a / 2 ^ (e - 23)) : ℚ) :=
        Int.cast_le.mpr hr
      push_cast at hr'
      unfold roundMag
      rw [hu]
      nlinarith
    · have hlog2 : e + 1 ≤ Int.log 2 a := by omega
      have h1 := two_zpow_log_le_roundMag a hpos (by omega)
      have h2 : (2 : ℚ) ^ (e + 1) ≤ 2 ^ Int.log 2 a := two_zpow_mono hlog2
      rw [hsucc] at h2
      nlinarith

theorem roundMag_gt_twenty_iff (a : ℚ) (ha : 0 ≤ a) :
    20 < roundMag a ↔ 20 + 1 / 1048576 < a := by
  have h := roundMag_gt_iff 4 10485760 (by norm_num) (by norm_num) (by norm_num) (by norm_num)
    a ha
  norm_num at h
  rw [h]
  constructor <;> intro h' <;> linarith

theorem roundMag_gt_fifteen_iff (a : ℚ) (ha : 0 ≤ a) :
    15 < roundMag a ↔ 15 + 1 / 2097152 < a := by
  have h := roundMag_gt_iff 3 15728640 (by norm_num) (by norm_num) (by norm_num) (by norm_num)
    a ha
  norm_num at h
  rw [h]
  constructor <;> intro h' <;> linarith

theorem abs_floatSub (a b : ℚ) : |floatSub a b| = roundMag |a - b| :=
  abs_roundF32 (a - b)

theorem abs_floatSub_comm (a b : ℚ) : |floatSub a b| = |floatSub b a| := by
  rw [abs_floatSub, abs_floatSub, abs_sub_comm]

theorem abs_floatSub_lt_one_iff (a b : ℚ) :
    |floatSub a b| < 1 ↔ |a - b| < 1 - 1 / 33554432 := by
  rw [abs_floatSub]
  exact roundMag_lt_one_iff _ (abs_nonneg _)

theorem abs_floatSub_gt_twenty_iff (a b : ℚ) :
    |floatSub a b| > 20 ↔ |a - b| > 20 + 1 / 1048576 := by
  rw [abs_floatSub]
  exact roundMag_gt_twenty_iff _ (abs_nonneg _)

theorem abs_floatSub_gt_fifteen_iff (a b : ℚ) :
    |floatSub a b| > 15 ↔ |a - b| > 15 + 1 / 2097152 := by
  rw [abs_floatSub]
  exact roundMag_gt_fifteen_iff _ (abs_nonneg _)

theorem roundMag_of_float (a : ℚ) (e n : ℤ) (he : -126 ≤ e) (h1 : (2 : ℚ) ^ e ≤ a)
    (h2 : a < (2 : ℚ) ^ (e + 1)) (hn : a = (n : ℚ) * 2 ^ (e - 23)) : roundMag a = a := by
  have hlog := log_two_eq a e h1 h2
  have hu : ulpExp a = e - 23 := by
    unfold ulpExp
    rw [hlog]
    exact max_eq_left (by omega)
  have hq : a / 2 ^ (e - 23) = (n : ℚ) := by
    rw [hn]
    exact mul_div_cancel_right₀ _ (two_zpow_pos _).ne'
  have hr : roundHalfEven (n : ℚ) = n := by
    unfold roundHalfEven
    simp
  unfold roundMag
  rw [hu, hq, hr, ← hn]

/-! ## Lemmas on the loops of the registry -/

theorem scanFrom_some (p : Fin MAX_DETECTED_SIGNALS → Bool) :
    ∀ (n i : Nat) (k : Fin MAX_DETECTED_SIGNALS), scanFrom p n i = some k →
      i ≤ k.val ∧ p k = true ∧
        ∀ j : Fin MAX_DETECTED_SIGNALS, i ≤ j.val → j < k → p j = false := by
  intro n
  induction n with
  | zero => intro i k h; simp [scanFrom] at h
  | succ n ih =>
    intro i k h
    unfold scanFrom at h
    by_cases hi : i < MAX_DETECTED_SIGNALS
    · rw [dif_pos hi] at h
      by_cases hp : p ⟨i, hi⟩ = true
      · rw [if_pos hp] at h
        have hk : k = ⟨i, hi⟩ := (Option.some.inj h).symm
        subst hk
        refine ⟨le_refl _, hp, ?_⟩
        intro j hij hjk
        exact absurd (Fin.lt_def.mp hjk) (by simpa using hij)
      · rw [if_neg hp] at h
        obtain ⟨h1, h2, h3⟩ := ih (i + 1) k h
        refine ⟨by omega, h2, ?_⟩
        intro j hij hjk
        by_cases hji : j.val = i
        · have : j = ⟨i, hi⟩ := Fin.ext hji
          subst this
          simpa using hp
        · exact h3 j (by omega) hjk
    · rw [dif_neg hi] at h
      exact absurd h (by simp)

theorem scanFrom_none (p : Fin MAX_DETECTED_SIGNALS → Bool) :
    ∀ (n i : Nat), MAX_DETECTED_SIGNALS ≤ n + i → scanFrom p n i = none →
      ∀ j : Fin MAX_DETECTED_SIGNALS, i ≤ j.val → p j = false := by
  intro n
  induction n with
  | zero =>
    intro i hn _ j hij
    have := j.isLt
    omega
  | succ n ih =>
    intro i hn h j hij
    unfold scanFrom at h
    by_cases hi : i < MAX_DETECTED_SIGNALS
    · rw [dif_pos hi] at h
      by_cases hp : p ⟨i, hi⟩ = true
      · rw [if_pos hp] at h
        exact absurd h (by simp)
      · rw [if_neg hp] at h
        by_cases hji : j.val = i
        · have : j = ⟨i, hi⟩ := Fin.ext hji
          subst this
          simpa using hp
        · exact ih (i + 1) (by omega) h j (by omega)
    · have := j.isLt
      omega

theorem firstSlot_eq_none_iff (p : Fin MAX_DETECTED_SIGNALS → Bool) :
    firstSlot p = none ↔ ∀ j, p j = false := by
  constructor
  · intro h j
    exact scanFrom_none p MAX_DETECTED_SIGNALS 0 (by omega) h j (Nat.zero_le _)
  · intro h
    cases hf : firstSlot p with
    | none => rfl
    | some k =>
      have := (scanFrom_some p _ _ k hf).2.1
      rw [h k] at this
      exact absurd this (by simp)

theorem firstSlot_eq_some_iff (p : Fin MAX_DETECTED_SIGNALS → Bool)
    (k : Fin MAX_DETECTED_SIGNALS) :
    firstSlot p = some k ↔ p k = true ∧ ∀ j, j < k → p j = false := by
  constructor
  · intro h
    obtain ⟨_, h2, h3⟩ := scanFrom_some p _ _ k h
    exact ⟨h2, fun j hj => h3 j (Nat.zero_le _) hj⟩
  · rintro ⟨hk, hmin⟩
    cases hf : firstSlot p with
    | none =>
      have := (firstSlot_eq_none_iff p).mp hf k
      rw [hk] at this
      exact absurd this (by simp)
    | some k' =>
      obtain ⟨_, h2, h3⟩ := scanFrom_some p _ _ k' hf
      rcases lt_trichotomy k' k with hlt | heq | hgt
      · have := hmin k' hlt
        rw [h2] at this
        exact absurd this (by simp)
      · rw [heq]
      · have := h3 k (Nat.zero_le _) hgt
        rw [hk] at this
        exact absurd this (by simp)

theorem sameSignal_iff (freq : ℚ) (band : Nat) (d : DetectedSignal) :
    sameSignal freq band d = true ↔ MatchesRounded freq band d := by
  unfold sameSignal MatchesRounded
  simp only [Bool.and_eq_true, decide_eq_true_eq]
  tauto

theorem sameSignal_eq_false_iff (freq : ℚ) (band : Nat) (d : DetectedSignal) :
    sameSignal freq band d = false ↔ ¬ MatchesRounded freq band d := by
  rw [← sameSignal_iff, Bool.not_eq_true]

theorem matchesRounded_iff (freq : ℚ) (band : Nat) (d : DetectedSignal) :
    MatchesRounded freq band d ↔
      (d.active = true ∧ d.band = band ∧ |d.frequency - freq| < 1 - 1 / 33554432) := by
  unfold MatchesRounded
  rw [abs_floatSub_lt_one_iff]

theorem MatchesRounded.matches {freq : ℚ} {band : Nat} {d : DetectedSignal}
    (h : MatchesRounded freq band d) : Matches freq band d := by
  obtain ⟨h1, h2, h3⟩ := (matchesRounded_iff freq band d).mp h
  exact ⟨h1, h2, by linarith⟩

theorem oldestLoop_spec (signals : Fin MAX_DETECTED_SIGNALS → DetectedSignal) :
    ∀ (n i t : Nat) (idx : Fin MAX_DETECTED_SIGNALS), MAX_DETECTED_SIGNALS ≤ n + i →
      (∀ j : Fin MAX_DETECTED_SIGNALS, j.val < i → t ≤ (signals j).timestamp) →
      ((idx.val < i ∧ (signals idx).timestamp = t ∧
          ∀ j, j < idx → t < (signals j).timestamp) ∨
        (i = 0 ∧ idx = 0 ∧ ∀ j, (signals j).timestamp ≤ t)) →
      (∀ j, (signals (oldestLoop signals n i t idx)).timestamp ≤ (signals j).timestamp) ∧
        ∀ j, j < oldestLoop signals n i t idx →
          (signals (oldestLoop signals n i t idx)).timestamp < (signals j).timestamp := by
  intro n
  induction n with
  | zero =>
    intro i t idx hn hA hB
    simp only [oldestLoop]
    rcases hB with ⟨_, h2, h3⟩ | ⟨h1, _, _⟩
    · subst h2
      exact ⟨fun j => hA j (by have := j.isLt; omega), h3⟩
    · omega
  | succ n ih =>
    intro i t idx hn hA hB
    unfold oldestLoop
    by_cases hi : i < MAX_DETECTED_SIGNALS
    · rw [dif_pos hi]
      by_cases hlt : (signals ⟨i, hi⟩).timestamp < t
      · rw [if_pos hlt]
        apply ih (i + 1) _ ⟨i, hi⟩ (by omega)
        · intro j hj
          by_cases hji : j.val = i
          · have : j = ⟨i, hi⟩ := Fin.ext hji
            subst this
            exact le_refl _
          · have := hA j (by omega)
            omega
        · left
          refine ⟨by simp, rfl, ?_⟩
          intro j hj
          have := hA j (by simpa using Fin.lt_def.mp hj)
          omega
      · rw [if_neg hlt]
        apply ih (i + 1) t idx (by omega)
        · intro j hj
          by_cases hji : j.val = i
          · have : j = ⟨i, hi⟩ := Fin.ext hji
            subst this
            omega
          · exact hA j (by omega)
        · left
          rcases hB with ⟨h1, h2, h3⟩ | ⟨h1, h2, h3⟩
          · exact ⟨by omega, h2, h3⟩
          · subst h1
            subst h2
            have h0 := h3 ⟨0, hi⟩
            refine ⟨by simp, ?_, ?_⟩
            · have : (signals (0 : Fin MAX_DETECTED_SIGNALS)).timestamp
                  = (signals ⟨0, hi⟩).timestamp := rfl
              omega
            · intro j hj
              exact absurd (Fin.lt_def.mp hj) (by simp)
    · rw [dif_neg hi]
      rcases hB with ⟨_, h2, h3⟩ | ⟨h1, _, _⟩
      · subst h2
        exact ⟨fun j => hA j (by have := j.isLt; omega), h3⟩
      · omega

theorem activeCount_congr (s t : RFScanner)
    (h : ∀ i, (t.signals i).active = (s.signals i).active) :
    activeCount t = activeCount s := by
  unfold activeCount
  congr 1
  ext i
  simp [h i]

theorem activeCount_eq_max (s : RFScanner) (h : ∀ i, (s.signals i).active = true) :
    activeCount s = MAX_DETECTED_SIGNALS := by
  unfold activeCount
  rw [Finset.filter_true_of_mem (fun i _ => h i)]
  simp

theorem activeCount_activate (s t : RFScanner) (i : Fin MAX_DETECTED_SIGNALS)
    (hi : (s.signals i).active = false) (hi' : (t.signals i).active = true)
    (h : ∀ j, j ≠ i → (t.signals j).active = (s.signals j).active) :
    activeCount t = activeCount s + 1 := by
  unfold activeCount
  have hset : Finset.univ.filter (fun j => (t.signals j).active = true)
      = insert i (Finset.univ.filter (fun j => (s.signals j).active = true)) := by
    ext j
    by_cases hj : j = i
    · subst hj
      simp [hi']
    · simp [h j hj, hj]
  rw [hset, Finset.card_insert_of_not_mem]
  simp [hi]

theorem addSignal_of_match (env : Env) (freq rssi : ℚ) (mod : ModulationType) (band : Nat)
    (s : RFScanner) (w : World) (i : Fin MAX_DETECTED_SIGNALS)
    (hi : firstSlot (fun i => sameSignal freq band (s.signals i)) = some i) :
    addSignal env freq rssi mod band s w =
      ({ s with
          signals := Function.update s.signals i
            { s.signals i with rssi := rssi, modType := mod, timestamp := millis env w } },
       tick w) := by
  unfold addSignal
  rw [hi]

theorem addSignal_of_free (env : Env) (freq rssi : ℚ) (mod : ModulationType) (band : Nat)
    (s : RFScanner) (w : World) (i : Fin MAX_DETECTED_SIGNALS)
    (hno : firstSlot (fun i => sameSignal freq band (s.signals i)) = none)
    (hi : firstSlot (fun i => !(s.signals i).active) = some i) :
    addSignal env freq rssi mod band s w =
      ({ s with
          signals := Function.update s.signals i
            { frequency := freq, rssi := rssi, modType := mod, band := band,
              timestamp := millis env w, active := true }
          signalCount := s.signalCount + 1 },
       tick w) := by
  unfold addSignal
  rw [hno, hi]

theorem addSignal_of_full (env : Env) (freq rssi : ℚ) (mod : ModulationType) (band : Nat)
    (s : RFScanner) (w : World)
    (hno : firstSlot (fun i => sameSignal freq band (s.signals i)) = none)
    (hfull : firstSlot (fun i => !(s.signals i).active) = none) :
    addSignal env freq rssi mod band s w =
      ({ s with
          signals := Function.update s.signals
            (oldestLoop s.signals MAX_DETECTED_SIGNALS 0 (millis env w) 0)
            { frequency := freq, rssi := rssi, modType := mod, band := band,
              timestamp := millis env (tick w), active := true } },
       tick (tick w)) := by
  unfold addSignal
  rw [hno, hfull]

theorem firstSlot_match_none_iff (freq : ℚ) (band : Nat) (s : RFScanner) :
    firstSlot (fun i => sameSignal freq band (s.signals i)) = none ↔
      ∀ k, ¬ MatchesRounded freq band (s.signals k) := by
  rw [firstSlot_eq_none_iff]
  exact forall_congr' (fun k => sameSignal_eq_false_iff freq band (s.signals k))

theorem firstSlot_match_none_of_exact (freq : ℚ) (band : Nat) (s : RFScanner)
    (h : ∀ k, ¬ Matches freq band (s.signals k)) :
    firstSlot (fun i => sameSignal freq band (s.signals i)) = none :=
  (firstSlot_match_none_iff freq band s).mpr (fun k hk => h k hk.matches)

theorem firstSlot_free_none_iff (s : RFScanner) :
    firstSlot (fun i => !(s.signals i).active) = none ↔
      ∀ k, (s.signals k).active = true := by
  rw [firstSlot_eq_none_iff]
  simp

theorem cleanupLoop_signals (now : Nat) (j : Fin MAX_DETECTED_SIGNALS) :
    ∀ (n i : Nat) (signals : Fin MAX_DETECTED_SIGNALS → DetectedSignal) (c : Int),
      (cleanupLoop now n i signals c).1 j =
        if i ≤ j.val ∧ j.val < i + n ∧ (signals j).active = true ∧
            u32sub now (signals j).timestamp > SIGNAL_HOLD_TIME_MS
        then { signals j with active := false } else signals j := by
  intro n
  induction n with
  | zero =>
    intro i signals c
    have : ¬ (i ≤ j.val ∧ j.val < i + 0 ∧ (signals j).active = true ∧
        u32sub now (signals j).timestamp > SIGNAL_HOLD_TIME_MS) := by omega
    rw [if_neg this]
    rfl
  | succ n ih =>
    intro i signals c
    unfold cleanupLoop
    by_cases hi : i < MAX_DETECTED_SIGNALS
    · rw [dif_pos hi]
      by_cases hji : j.val = i
      · have hj : j = ⟨i, hi⟩ := Fin.ext hji
        subst hj
        by_cases ha : (signals ⟨i, hi⟩).active = true
        · rw [if_pos ha]
          by_cases hx : u32sub now (signals ⟨i, hi⟩).timestamp > SIGNAL_HOLD_TIME_MS
          · rw [if_pos hx, ih]
            simp [ha, hx]
          · rw [if_neg hx, ih]
            simp [hx]
        · rw [if_neg ha, ih]
          simp [ha]
      · have hne : j ≠ ⟨i, hi⟩ := fun h => hji (congrArg Fin.val h)
        have hiff : (i + 1 ≤ j.val ∧ j.val < i + 1 + n) ↔ (i ≤ j.val ∧ j.val < i + (n + 1)) := by
          omega
        by_cases ha : (signals ⟨i, hi⟩).active = true
        · rw [if_pos ha]
          by_cases hx : u32sub now (signals ⟨i, hi⟩).timestamp > SIGNAL_HOLD_TIME_MS
          · rw [if_pos hx, ih, Function.update_noteq hne]
            simp only [← and_assoc, hiff]
          · rw [if_neg hx, ih]
            simp only [← and_assoc, hiff]
        · rw [if_neg ha, ih]
          simp only [← and_assoc, hiff]
    · rw [dif_neg hi]
      have : ¬ (i ≤ j.val ∧ j.val < i + (n + 1) ∧ (signals j).active = true ∧
          u32sub now (signals j).timestamp > SIGNAL_HOLD_TIME_MS) := by
        have := j.isLt
        omega
      rw [if_neg this]

theorem cleanupSignals_signals (env : Env) (s : RFScanner) (w : World)
    (j : Fin MAX_DETECTED_SIGNALS) :
    (cleanupSignals env s w).1.signals j =
      if (s.signals j).active = true ∧
          u32sub (millis env w) (s.signals j).timestamp > SIGNAL_HOLD_TIME_MS
      then { s.signals j with active := false } else s.signals j := by
  unfold cleanupSignals
  simp only [cleanupLoop_signals]
  have := j.isLt
  by_cases h : (s.signals j).active = true ∧
      u32sub (millis env w) (s.signals j).timestamp > SIGNAL_HOLD_TIME_MS
  · rw [if_pos h, if_pos ⟨Nat.zero_le _, by omega, h⟩]
  · rw [if_neg h, if_neg (fun hh => h hh.2.2)]

theorem clearLoop_signals (j : Fin MAX_DETECTED_SIGNALS) :
    ∀ (n i : Nat) (signals : Fin MAX_DETECTED_SIGNALS → DetectedSignal),
      clearLoop n i signals j =
        if i ≤ j.val ∧ j.val < i + n then { signals j with active := false } else signals j := by
  intro n
  induction n with
  | zero =>
    intro i signals
    have : ¬ (i ≤ j.val ∧ j.val < i + 0) := by omega
    rw [if_neg this]
    rfl
  | succ n ih =>
    intro i signals
    unfold clearLoop
    by_cases hi : i < MAX_DETECTED_SIGNALS
    · rw [dif_pos hi, ih]
      by_cases hji : j.val = i
      · have hj : j = ⟨i, hi⟩ := Fin.ext hji
        subst hj
        have h1 : ¬ (i + 1 ≤ i ∧ i < i + 1 + n) := by omega
        have h2 : i ≤ i ∧ i < i + (n + 1) := by omega
        simp [h1, h2]
      · have hne : j ≠ ⟨i, hi⟩ := fun h => hji (congrArg Fin.val h)
        have hiff : (i + 1 ≤ j.val ∧ j.val < i + 1 + n) ↔ (i ≤ j.val ∧ j.val < i + (n + 1)) := by
          omega
        rw [Function.update_noteq hne]
        simp only [hiff]
    · rw [dif_neg hi]
      have : ¬ (i ≤ j.val ∧ j.val < i + (n + 1)) := by
        have := j.isLt
        omega
      rw [if_neg this]

theorem clearSignals_signals (s : RFScanner) (j : Fin MAX_DETECTED_SIGNALS) :
    (clearSignals s).signals j = { s.signals j with active := false } := by
  unfold clearSignals
  simp only [clearLoop_signals]
  have := j.isLt
  rw [if_pos ⟨Nat.zero_le _, by omega⟩]

theorem DedupRounded.of_same_keys (s t : RFScanner)
    (h : ∀ j, (t.signals j).active = true →
      (s.signals j).active = true ∧ (t.signals j).band = (s.signals j).band ∧
        (t.signals j).frequency = (s.signals j).frequency)
    (hs : DedupRounded s) : DedupRounded t := by
  intro i j hij hi hj
  obtain ⟨ai, bi, fi⟩ := h i hi
  obtain ⟨aj, bj, fj⟩ := h j hj
  rw [bi, bj, fi, fj]
  exact hs i j hij ai aj

theorem DedupRounded.update_new (s : RFScanner) (i : Fin MAX_DETECTED_SIGNALS)
    (d : DetectedSignal)
    (hno : ∀ k, k ≠ i → ¬ MatchesRounded d.frequency d.band (s.signals k))
    (hs : DedupRounded s) :
    DedupRounded { s with signals := Function.update s.signals i d } := by
  intro a b hab ha hb
  simp only at ha hb ⊢
  by_cases hai : a = i
  · subst hai
    have hba : b ≠ a := fun h => hab h.symm
    rw [Function.update_noteq hba] at hb ⊢
    rw [Function.update_same]
    rintro ⟨h1, h2⟩
    exact hno b hba ⟨hb, h1.symm, by rwa [abs_floatSub_comm]⟩
  · rw [Function.update_noteq hai] at ha ⊢
    by_cases hbi : b = i
    · subst hbi
      rw [Function.update_same]
      rintro ⟨h1, h2⟩
      exact hno a hai ⟨ha, h1, h2⟩
    · rw [Function.update_noteq hbi] at hb ⊢
      exact hs a b hab ha hb

theorem DedupRounded.addSignal_step (env : Env) (freq rssi : ℚ) (mod : ModulationType)
    (band : Nat) (s : RFScanner) (w : World) (hs : DedupRounded s) :
    DedupRounded (addSignal env freq rssi mod band s w).1 := by
  cases hf : firstSlot (fun i => sameSignal freq band (s.signals i)) with
  | some i =>
    rw [addSignal_of_match env freq rssi mod band s w i hf]
    apply DedupRounded.of_same_keys s _ _ hs
    intro j hj
    by_cases hji : j = i
    · subst hji
      simpa using hj
    · simpa [Function.update_noteq hji] using hj
  | none =>
    have hno := (firstSlot_match_none_iff freq band s).mp hf
    cases hg : firstSlot (fun i => !(s.signals i).active) with
    | some i =>
      rw [addSignal_of_free env freq rssi mod band s w i hf hg]
      exact DedupRounded.update_new { s with signalCount := s.signalCount + 1 } i _
        (fun k _ => hno k) hs
    | none =>
      rw [addSignal_of_full env freq rssi mod band s w hf hg]
      exact DedupRounded.update_new s _ _ (fun k _ => hno k) hs

theorem activeCount_eq_zero (s : RFScanner) (h : ∀ i, (s.signals i).active = false) :
    activeCount s = 0 := by
  unfold activeCount
  rw [Finset.card_eq_zero, Finset.filter_eq_empty_iff]
  intro i _
  simp [h i]

theorem addSignal_of_empty (env : Env) (freq rssi : ℚ) (mod : ModulationType) (band : Nat)
    (s : RFScanner) (w : World) (h : ∀ k, (s.signals k).active = false) :
    addSignal env freq rssi mod band s w =
      ({ s with
          signals := Function.update s.signals 0
            { frequency := freq, rssi := rssi, modType := mod, band := band,
              timestamp := millis env w, active := true }
          signalCount := s.signalCount + 1 },
       tick w) := by
  apply addSignal_of_free
  · rw [firstSlot_match_none_iff]
    intro k hk
    have := hk.1
    rw [h k] at this
    exact absurd this (by simp)
  · rw [firstSlot_eq_some_iff]
    refine ⟨by simp [h 0], ?_⟩
    intro j hj
    exact absurd (Fin.lt_def.mp hj) (by simp)

/-! ## Lemmas on measuring and sweeping -/

theorem addSignal_frame (env : Env) (freq rssi : ℚ) (mod : ModulationType) (band : Nat)
    (s : RFScanner) (w : World) :
    (addSignal env freq rssi mod band s w).1.currentFreq = s.currentFreq ∧
    (addSignal env freq rssi mod band s w).1.sx1262Available = s.sx1262Available ∧
    (addSignal env freq rssi mod band s w).1.sx1280Available = s.sx1280Available ∧
    ∃ m, (addSignal env freq rssi mod band s w).2 = { w with millisCalls := m } := by
  cases hf : firstSlot (fun i => sameSignal freq band (s.signals i)) with
  | some i =>
    rw [addSignal_of_match env freq rssi mod band s w i hf]
    exact ⟨rfl, rfl, rfl, _, rfl⟩
  | none =>
    cases hg : firstSlot (fun i => !(s.signals i).active) with
    | some i =>
      rw [addSignal_of_free env freq rssi mod band s w i hf hg]
      exact ⟨rfl, rfl, rfl, _, rfl⟩
    | none =>
      rw [addSignal_of_full env freq rssi mod band s w hf hg]
      exact ⟨rfl, rfl, rfl, _, rfl⟩

theorem sweepFreqs_zero (start step : ℚ) : sweepFreqs start step 0 = [] := rfl

theorem sweepFreqs_succ (start step : ℚ) (n : Nat) :
    sweepFreqs start step (n + 1) = start :: sweepFreqs (start + step) step n := by
  unfold sweepFreqs
  rw [List.range_succ_eq_map, List.map_cons, List.map_map]
  congr 1
  · simp
  · apply List.map_congr_left
    intro k _
    simp only [Function.comp_apply, Nat.cast_succ]
    ring

theorem sweepFreqs_length (start step : ℚ) (n : Nat) :
    (sweepFreqs start step n).length = n := by
  simp [sweepFreqs]

theorem mem_sweepFreqs (start step : ℚ) (n : Nat) (f : ℚ) :
    f ∈ sweepFreqs start step n ↔ ∃ k : Nat, k < n ∧ f = start + step * (k : ℚ) := by
  unfold sweepFreqs
  simp only [List.mem_map, List.mem_range]
  constructor
  · rintro ⟨k, hk, rfl⟩
    exact ⟨k, hk, rfl⟩
  · rintro ⟨k, hk, rfl⟩
    exact ⟨k, hk, rfl⟩

theorem sweepFreqs_increasing (start step : ℚ) (hstep : 0 < step) (n : Nat) :
    (sweepFreqs start step n).Pairwise (fun a b => a < b) := by
  induction n generalizing start with
  | zero => simp [sweepFreqs_zero]
  | succ n ih =>
    rw [sweepFreqs_succ, List.pairwise_cons]
    refine ⟨?_, ih (start + step)⟩
    intro f hf
    obtain ⟨k, _, rfl⟩ := (mem_sweepFreqs _ _ _ _).mp hf
    have : 0 ≤ step * (k : ℚ) := mul_nonneg hstep.le (Nat.cast_nonneg k)
    linarith

theorem scanLoop_run (env : Env) (band : Nat) (stop step : ℚ) :
    ∀ (n fuel : Nat) (start : ℚ) (st : Sweep), n < fuel →
      (∀ k : Nat, k < n → start + step * (k : ℚ) ≤ stop) →
      ¬ (start + step * (n : ℚ) ≤ stop) →
      scanLoop env band stop step fuel start st =
        some ((sweepFreqs start step n).foldl (fun acc f => scanStep env band f acc) st) := by
  intro n
  induction n with
  | zero =>
    intro fuel start st hfuel _ hend
    obtain ⟨fuel, rfl⟩ : ∃ m, fuel = m + 1 := ⟨fuel - 1, by omega⟩
    have hend' : ¬ start ≤ stop := by simpa using hend
    simp [scanLoop, hend', sweepFreqs_zero]
  | succ n ih =>
    intro fuel start st hfuel hin hend
    obtain ⟨fuel, rfl⟩ : ∃ m, fuel = m + 1 := ⟨fuel - 1, by omega⟩
    have h0 : start ≤ stop := by simpa using hin 0 (Nat.succ_pos n)
    rw [sweepFreqs_succ, List.foldl_cons]
    unfold scanLoop
    rw [if_pos h0]
    apply ih fuel (start + step) _ (by omega)
    · intro k hk
      have := hin (k + 1) (by omega)
      push_cast at this
      linarith
    · intro h
      apply hend
      push_cast
      linarith

theorem scanStep_observed (env : Env) (band : Nat) (freq : ℚ) (st : Sweep) :
    (scanStep env band freq st).observed =
      st.observed ++ [(freq, (measureRSSI env freq band
        { st.scanner with currentFreq := freq } st.world).1)] := by
  unfold scanStep
  simp only
  split_ifs <;> rfl

theorem scanStep_detected (env : Env) (band : Nat) (freq : ℚ) (st : Sweep) :
    (scanStep env band freq st).detected =
      if (measureRSSI env freq band { st.scanner with currentFreq := freq } st.world).1
          > RSSI_THRESHOLD
      then st.detected + 1 else st.detected := by
  unfold scanStep
  simp only
  split_ifs <;> rfl

theorem scanStep_currentFreq (env : Env) (band : Nat) (freq : ℚ) (st : Sweep) :
    (scanStep env band freq st).scanner.currentFreq = freq := by
  unfold scanStep
  simp only
  split_ifs
  · rw [(addSignal_frame _ _ _ _ _ _ _).1]
  · rfl

theorem foldl_scanStep_observed (env : Env) (band : Nat) (fs : List ℚ) :
    ∀ st : Sweep,
      ((fs.foldl (fun acc f => scanStep env band f acc) st).observed.map Prod.fst)
        = st.observed.map Prod.fst ++ fs := by
  induction fs with
  | nil => intro st; simp
  | cons f fs ih =>
    intro st
    rw [List.foldl_cons, ih, scanStep_observed]
    simp

theorem foldl_scanStep_detected (env : Env) (band : Nat) (fs : List ℚ) :
    ∀ st : Sweep,
      st.detected = ((st.observed.filter (fun o => decide (o.2 > RSSI_THRESHOLD))).length : Int) →
      (fs.foldl (fun acc f => scanStep env band f acc) st).detected =
        (((fs.foldl (fun acc f => scanStep env band f acc) st).observed.filter
          (fun o => decide (o.2 > RSSI_THRESHOLD))).length : Int) := by
  induction fs with
  | nil => intro st h; simpa using h
  | cons f fs ih =>
    intro st h
    rw [List.foldl_cons]
    apply ih
    rw [scanStep_detected, scanStep_observed, List.filter_append, List.length_append]
    by_cases hr : (measureRSSI env f band { st.scanner with currentFreq := f } st.world).1
        > RSSI_THRESHOLD
    · simp [hr, h]
    · simp [hr, h]

theorem foldl_scanStep_currentFreq (env : Env) (band : Nat) (fs : List ℚ) (last : ℚ) :
    ∀ st : Sweep,
      ((fs ++ [last]).foldl (fun acc f => scanStep env band f acc) st).scanner.currentFreq
        = last := by
  intro st
  rw [List.foldl_append]
  simp [scanStep_currentFreq]

theorem World.SameRadio.refl (a : World) : World.SameRadio a a :=
  ⟨rfl, rfl, rfl, rfl⟩

theorem World.SameRadio.symm {a b : World} (h : World.SameRadio a b) : World.SameRadio b a :=
  ⟨h.1.symm, h.2.1.symm, h.2.2.1.symm, h.2.2.2.symm⟩

theorem World.SameRadio.trans {a b c : World} (h : World.SameRadio a b)
    (h' : World.SameRadio b c) : World.SameRadio a c :=
  ⟨h.1.trans h'.1, h.2.1.trans h'.2.1, h.2.2.1.trans h'.2.2.1, h.2.2.2.trans h'.2.2.2⟩

theorem addSignal_sameRadio (env : Env) (freq rssi : ℚ) (mod : ModulationType) (band : Nat)
    (s : RFScanner) (w : World) :
    World.SameRadio w (addSignal env freq rssi mod band s w).2 := by
  obtain ⟨m, hm⟩ := (addSignal_frame env freq rssi mod band s w).2.2.2
  rw [hm]
  exact ⟨rfl, rfl, rfl, rfl⟩

theorem measureRSSI_sameRadio (env : Env) (freq : ℚ) (band : Nat) (s s' : RFScanner)
    (w w' : World) (h62 : s.sx1262Available = s'.sx1262Available)
    (h80 : s.sx1280Available = s'.sx1280Available) (hw : World.SameRadio w w') :
    (measureRSSI env freq band s w).1 = (measureRSSI env freq band s' w').1 ∧
      World.SameRadio (measureRSSI env freq band s w).2 (measureRSSI env freq band s' w').2 := by
  obtain ⟨h1, h2, h3, h4⟩ := hw
  unfold measureRSSI
  rw [h62, h80, h1, h2, h3, h4]
  split_ifs <;> exact ⟨rfl, by simp [World.SameRadio, h1, h2, h3, h4]⟩

theorem analyzeModulation_sameRadio (env : Env) (freq : ℚ) (band : Nat) (s s' : RFScanner)
    (w w' : World) (h62 : s.sx1262Available = s'.sx1262Available)
    (h80 : s.sx1280Available = s'.sx1280Available) (hw : World.SameRadio w w') :
    (analyzeModulation env freq band s w).1 = (analyzeModulation env freq band s' w').1 ∧
      World.SameRadio (analyzeModulation env freq band s w).2
        (analyzeModulation env freq band s' w').2 := by
  have a0 := measureRSSI_sameRadio env freq 0 s s' w w' h62 h80 hw
  have b0 := measureRSSI_sameRadio env freq 0 s s' _ _ h62 h80 a0.2
  have a1 := measureRSSI_sameRadio env freq 1 s s' w w' h62 h80 hw
  have b1 := measureRSSI_sameRadio env freq 1 s s' _ _ h62 h80 a1.2
  unfold analyzeModulation
  simp only [← h62, ← a0.1, ← b0.1, ← a1.1, ← b1.1]
  split_ifs <;> first | exact ⟨rfl, hw⟩ | exact ⟨rfl, b0.2⟩ | exact ⟨rfl, b1.2⟩

theorem scanStep_agree (env : Env) (band : Nat) (freq : ℚ) (a b : Sweep)
    (h : Sweep.Agree a b) :
    Sweep.Agree (scanStep env band freq a) (scanStep env band freq b) := by
  obtain ⟨hd, ho, h62, h80, hw⟩ := h
  have hm := measureRSSI_sameRadio env freq band
    { a.scanner with currentFreq := freq } { b.scanner with currentFreq := freq }
    a.world b.world h62 h80 hw
  have ha := analyzeModulation_sameRadio env freq band
    { a.scanner with currentFreq := freq } { b.scanner with currentFreq := freq }
    _ _ h62 h80 hm.2
  unfold scanStep
  simp only [← hm.1, ← ha.1]
  split_ifs
  · refine ⟨by simp [hd], by simp [ho], ?_, ?_, ?_⟩
    · simp only [(addSignal_frame _ _ _ _ _ _ _).2.1]
      exact h62
    · simp only [(addSignal_frame _ _ _ _ _ _ _).2.2.1]
      exact h80
    · exact ((addSignal_sameRadio _ _ _ _ _ _ _).symm.trans ha.2).trans
        (addSignal_sameRadio _ _ _ _ _ _ _)
  · exact ⟨hd, by simp [ho], h62, h80, hm.2⟩

theorem foldl_scanStep_agree (env : Env) (band : Nat) (fs : List ℚ) :
    ∀ a b : Sweep, Sweep.Agree a b →
      Sweep.Agree (fs.foldl (fun acc f => scanStep env band f acc) a)
        (fs.foldl (fun acc f => scanStep env band f acc) b) := by
  induction fs with
  | nil => intro a b h; exact h
  | cons f fs ih =>
    intro a b h
    exact ih _ _ (scanStep_agree env band f a b h)

theorem scanFinish_agree (env : Env) (a b : Sweep) (h : Sweep.Agree a b) :
    Sweep.Agree (scanFinish env a) (scanFinish env b) := by
  obtain ⟨hd, ho, h62, h80, h1, h2, h3, h4⟩ := h
  exact ⟨hd, ho, h62, h80, h1, h2, h3, h4⟩

theorem scan900_steps (k : Nat) (hk : k < 141) :
    FREQ_900_START + FREQ_900_STEP * (k : ℚ) ≤ FREQ_900_END := by
  have : (k : ℚ) ≤ 140 := by exact_mod_cast Nat.le_of_lt_succ hk
  unfold FREQ_900_START FREQ_900_STEP FREQ_900_END
  linarith

theorem scan900_stop :
    ¬ (FREQ_900_START + FREQ_900_STEP * ((141 : Nat) : ℚ) ≤ FREQ_900_END) := by
  unfold FREQ_900_START FREQ_900_STEP FREQ_900_END
  norm_num

theorem scan2400_steps (k : Nat) (hk : k < 101) :
    FREQ_2400_START + FREQ_2400_STEP * (k : ℚ) ≤ FREQ_2400_END := by
  have : (k : ℚ) ≤ 100 := by exact_mod_cast Nat.le_of_lt_succ hk
  unfold FREQ_2400_START FREQ_2400_STEP FREQ_2400_END
  linarith

theorem scan2400_stop :
    ¬ (FREQ_2400_START + FREQ_2400_STEP * ((101 : Nat) : ℚ) ≤ FREQ_2400_END) := by
  unfold FREQ_2400_START FREQ_2400_STEP FREQ_2400_END
  norm_num

theorem scan900MHz_eq (env : Env) (fuel : Nat) (s : RFScanner) (w : World)
    (ha : s.sx1262Available = true) (hfuel : 142 ≤ fuel) :
    scan900MHz env fuel s w =
      some (scanFinish env
        ((sweepFreqs FREQ_900_START FREQ_900_STEP 141).foldl
          (fun acc f => scanStep env 0 f acc) (Sweep.start s w))) := by
  unfold scan900MHz
  rw [if_neg (by simp [ha]),
    scanLoop_run env 0 FREQ_900_END FREQ_900_STEP 141 fuel FREQ_900_START _ (by omega)
      scan900_steps scan900_stop]
  rfl

theorem scan2400MHz_eq (env : Env) (fuel : Nat) (s : RFScanner) (w : World)
    (ha : s.sx1280Available = true) (hfuel : 102 ≤ fuel) :
    scan2400MHz env fuel s w =
      some (scanFinish env
        ((sweepFreqs FREQ_2400_START FREQ_2400_STEP 101).foldl
          (fun acc f => scanStep env 1 f acc) (Sweep.start s w))) := by
  unfold scan2400MHz
  rw [if_neg (by simp [ha]),
    scanLoop_run env 1 FREQ_2400_END FREQ_2400_STEP 101 fuel FREQ_2400_START _ (by omega)
      scan2400_steps scan2400_stop]
  rfl

theorem sweepFreqs_succ_last (start step : ℚ) (n : Nat) :
    sweepFreqs start step (n + 1) = sweepFreqs start step n ++ [start + step * (n : ℚ)] := by
  unfold sweepFreqs
  rw [List.range_succ, List.map_append]
  rfl

theorem addSignal_set1280 (env : Env) (freq rssi : ℚ) (mod : ModulationType) (band : Nat)
    (s : RFScanner) (w : World) (b : Bool) :
    addSignal env freq rssi mod band { s with sx1280Available := b } w =
      ({ (addSignal env freq rssi mod band s w).1 with sx1280Available := b },
       (addSignal env freq rssi mod band s w).2) := by
  cases hf : firstSlot (fun i => sameSignal freq band (s.signals i)) with
  | some i =>
    rw [addSignal_of_match env freq rssi mod band s w i hf,
      addSignal_of_match env freq rssi mod band { s with sx1280Available := b } w i hf]
  | none =>
    cases hg : firstSlot (fun i => !(s.signals i).active) with
    | some i =>
      rw [addSignal_of_free env freq rssi mod band s w i hf hg,
        addSignal_of_free env freq rssi mod band { s with sx1280Available := b } w i hf hg]
    | none =>
      rw [addSignal_of_full env freq rssi mod band s w hf hg,
        addSignal_of_full env freq rssi mod band { s with sx1280Available := b } w hf hg]

theorem addSignal_set1262 (env : Env) (freq rssi : ℚ) (mod : ModulationType) (band : Nat)
    (s : RFScanner) (w : World) (b : Bool) :
    addSignal env freq rssi mod band { s with sx1262Available := b } w =
      ({ (addSignal env freq rssi mod band s w).1 with sx1262Available := b },
       (addSignal env freq rssi mod band s w).2) := by
  cases hf : firstSlot (fun i => sameSignal freq band (s.signals i)) with
  | some i =>
    rw [addSignal_of_match env freq rssi mod band s w i hf,
      addSignal_of_match env freq rssi mod band { s with sx1262Available := b } w i hf]
  | none =>
    cases hg : firstSlot (fun i => !(s.signals i).active) with
    | some i =>
      rw [addSignal_of_free env freq rssi mod band s w i hf hg,
        addSignal_of_free env freq rssi mod band { s with sx1262Available := b } w i hf hg]
    | none =>
      rw [addSignal_of_full env freq rssi mod band s w hf hg,
        addSignal_of_full env freq rssi mod band { s with sx1262Available := b } w hf hg]

theorem measureRSSI_band0_set1280 (env : Env) (freq : ℚ) (s : RFScanner) (w : World)
    (b : Bool) :
    measureRSSI env freq 0 { s with sx1280Available := b } w = measureRSSI env freq 0 s w := by
  unfold measureRSSI
  simp

theorem measureRSSI_band1_set1262 (env : Env) (freq : ℚ) (s : RFScanner) (w : World)
    (b : Bool) :
    measureRSSI env freq 1 { s with sx1262Available := b } w = measureRSSI env freq 1 s w := by
  unfold measureRSSI
  simp

theorem analyzeModulation_band0_set1280 (env : Env) (freq : ℚ) (s : RFScanner) (w : World)
    (b : Bool) :
    analyzeModulation env freq 0 { s with sx1280Available := b } w
      = analyzeModulation env freq 0 s w := by
  unfold analyzeModulation
  simp only [measureRSSI_band0_set1280]
  simp

theorem analyzeModulation_band1_set1262 (env : Env) (freq : ℚ) (s : RFScanner) (w : World)
    (b : Bool) :
    analyzeModulation env freq 1 { s with sx1262Available := b } w
      = analyzeModulation env freq 1 s w := by
  unfold analyzeModulation
  simp only [measureRSSI_band1_set1262]
  simp

theorem scanStep_band0_set1280 (env : Env) (freq : ℚ) (st : Sweep) (b : Bool) :
    scanStep env 0 freq { st with scanner := { st.scanner with sx1280Available := b } } =
      { scanStep env 0 freq st with
        scanner := { (scanStep env 0 freq st).scanner with sx1280Available := b } } := by
  have hm := measureRSSI_band0_set1280 env freq { st.scanner with currentFreq := freq }
    st.world b
  have ha := fun w => analyzeModulation_band0_set1280 env freq
    { st.scanner with currentFreq := freq } w b
  have hadd := fun r m w => addSignal_set1280 env freq r m 0
    { st.scanner with currentFreq := freq } w b
  unfold scanStep
  simp only at hm ha hadd ⊢
  rw [hm]
  split_ifs
  · rw [ha, hadd]
  · rfl

theorem scanStep_band1_set1262 (env : Env) (freq : ℚ) (st : Sweep) (b : Bool) :
    scanStep env 1 freq { st with scanner := { st.scanner with sx1262Available := b } } =
      { scanStep env 1 freq st with
        scanner := { (scanStep env 1 freq st).scanner with sx1262Available := b } } := by
  have hm := measureRSSI_band1_set1262 env freq { st.scanner with currentFreq := freq }
    st.world b
  have ha := fun w => analyzeModulation_band1_set1262 env freq
    { st.scanner with currentFreq := freq } w b
  have hadd := fun r m w => addSignal_set1262 env freq r m 1
    { st.scanner with currentFreq := freq } w b
  unfold scanStep
  simp only at hm ha hadd ⊢
  rw [hm]
  split_ifs
  · rw [ha, hadd]
  · rfl

theorem scanLoop_band0_set1280 (env : Env) (stop step : ℚ) (b : Bool) :
    ∀ (fuel : Nat) (freq : ℚ) (st : Sweep),
      scanLoop env 0 stop step fuel freq
          { st with scanner := { st.scanner with sx1280Available := b } } =
        (scanLoop env 0 stop step fuel freq st).map
          (fun r => { r with scanner := { r.scanner with sx1280Available := b } }) := by
  intro fuel
  induction fuel with
  | zero => intro freq st; rfl
  | succ fuel ih =>
    intro freq st
    unfold scanLoop
    split_ifs
    · rw [scanStep_band0_set1280, ih]
    · rfl

theorem scanLoop_band1_set1262 (env : Env) (stop step : ℚ) (b : Bool) :
    ∀ (fuel : Nat) (freq : ℚ) (st : Sweep),
      scanLoop env 1 stop step fuel freq
          { st with scanner := { st.scanner with sx1262Available := b } } =
        (scanLoop env 1 stop step fuel freq st).map
          (fun r => { r with scanner := { r.scanner with sx1262Available := b } }) := by
  intro fuel
  induction fuel with
  | zero => intro freq st; rfl
  | succ fuel ih =>
    intro freq st
    unfold scanLoop
    split_ifs
    · rw [scanStep_band1_set1262, ih]
    · rfl

/-! ## Lemmas on two detections in a row -/

theorem addSignal_second_same (env : Env) (f1 r1 : ℚ) (m1 : ModulationType) (b1 : Nat)
    (f2 r2 : ℚ) (m2 : ModulationType) (b2 : Nat) (s : RFScanner) (w : World)
    (hempty : ∀ k, (s.signals k).active = false)
    (hc : b1 = b2 ∧ |floatSub f1 f2| < 1) :
    addSignal env f2 r2 m2 b2 (addSignal env f1 r1 m1 b1 s w).1
        (addSignal env f1 r1 m1 b1 s w).2 =
      ({ s with
          signals := Function.update s.signals 0
            { frequency := f1, rssi := r2, modType := m2, band := b1,
              timestamp := millis env (tick w), active := true }
          signalCount := s.signalCount + 1 },
       tick (tick w)) := by
  rw [addSignal_of_empty env f1 r1 m1 b1 s w hempty]
  have hm : firstSlot (fun i => sameSignal f2 b2
      (Function.update s.signals 0
        { frequency := f1, rssi := r1, modType := m1, band := b1,
          timestamp := millis env w, active := true } i)) = some 0 := by
    rw [firstSlot_eq_some_iff]
    refine ⟨?_, fun j hj => absurd (Fin.lt_def.mp hj) (by simp)⟩
    rw [sameSignal_iff, Function.update_same]
    exact ⟨rfl, hc.1, hc.2⟩
  rw [addSignal_of_match env f2 r2 m2 b2 _ (tick w) 0 hm]
  simp

theorem addSignal_second_distinct (env : Env) (f1 r1 : ℚ) (m1 : ModulationType) (b1 : Nat)
    (f2 r2 : ℚ) (m2 : ModulationType) (b2 : Nat) (s : RFScanner) (w : World)
    (hempty : ∀ k, (s.signals k).active = false)
    (hc : ¬ (b1 = b2 ∧ |floatSub f1 f2| < 1)) :
    addSignal env f2 r2 m2 b2 (addSignal env f1 r1 m1 b1 s w).1
        (addSignal env f1 r1 m1 b1 s w).2 =
      ({ s with
          signals := Function.update
            (Function.update s.signals 0
              { frequency := f1, rssi := r1, modType := m1, band := b1,
                timestamp := millis env w, active := true }) 1
            { frequency := f2, rssi := r2, modType := m2, band := b2,
              timestamp := millis env (tick w), active := true }
          signalCount := s.signalCount + 1 + 1 },
       tick (tick w)) := by
  have h01 : (1 : Fin MAX_DETECTED_SIGNALS) ≠ 0 := by decide
  rw [addSignal_of_empty env f1 r1 m1 b1 s w hempty]
  have hm : firstSlot (fun i => sameSignal f2 b2
      (Function.update s.signals 0
        { frequency := f1, rssi := r1, modType := m1, band := b1,
          timestamp := millis env w, active := true } i)) = none := by
    rw [firstSlot_eq_none_iff]
    intro j
    rw [sameSignal_eq_false_iff]
    rintro ⟨ha, hb, hf⟩
    by_cases hj : j = 0
    · subst hj
      rw [Function.update_same] at hb hf
      exact hc ⟨hb, hf⟩
    · rw [Function.update_noteq hj, hempty j] at ha
      exact absurd ha (by simp)
  have hg : firstSlot (fun i => !(Function.update s.signals 0
        { frequency := f1, rssi := r1, modType := m1, band := b1,
          timestamp := millis env w, active := true } i).active) = some 1 := by
    rw [firstSlot_eq_some_iff]
    constructor
    · simp [Function.update_noteq h01, hempty 1]
    · intro j hj
      have hj0 : j = 0 := by
        apply Fin.ext
        have := Fin.lt_def.mp hj
        simp at this ⊢
        omega
      subst hj0
      simp
  rw [addSignal_of_free env f2 r2 m2 b2 _ (tick w) 1 hm hg]

theorem activeCount_first (s : RFScanner) (d : DetectedSignal) (c : Int)
    (hempty : ∀ k, (s.signals k).active = false) (hd : d.active = true) :
    activeCount { s with signals := Function.update s.signals 0 d, signalCount := c } = 1 := by
  rw [← Nat.zero_add 1, ← activeCount_eq_zero s hempty]
  apply activeCount_activate s _ 0 (hempty 0) (by simpa using hd)
  intro j hj
  simp [Function.update_noteq hj]

theorem activeCount_first_two (s : RFScanner) (d d' : DetectedSignal) (c : Int)
    (hempty : ∀ k, (s.signals k).active = false) (hd : d.active = true)
    (hd' : d'.active = true) :
    activeCount
      { s with
        signals := Function.update (Function.update s.signals 0 d) 1 d'
        signalCount := c } = 2 := by
  have h01 : (1 : Fin MAX_DETECTED_SIGNALS) ≠ 0 := by decide
  refine (activeCount_activate
    { s with signals := Function.update s.signals 0 d, signalCount := c } _ 1 ?_ ?_ ?_).trans ?_
  · simp [Function.update_noteq h01, hempty 1]
  · simpa using hd'
  · intro j hj
    simp [Function.update_noteq hj]
  · rw [activeCount_first s d c hempty hd]

/-! ## Lemmas on the classifier -/

theorem roundF32_of_float (a : ℚ) (e n : ℤ) (ha : 0 ≤ a) (he : -126 ≤ e)
    (h1 : (2 : ℚ) ^ e ≤ a) (h2 : a < (2 : ℚ) ^ (e + 1)) (hn : a = (n : ℚ) * 2 ^ (e - 23)) :
    roundF32 a = a := by
  unfold roundF32
  rw [if_pos ha]
  exact roundMag_of_float a e n he h1 h2 hn

theorem analyzeModulation_900_eq (env : Env) (freq : ℚ) (s : RFScanner) (w : World)
    (hlo : 902 ≤ freq) (hhi : freq ≤ 928) (ha : s.sx1262Available = true) :
    analyzeModulation env freq 0 s w =
      (if |floatSub (measureRSSI env freq 0 s w).1
            (measureRSSI env freq 0 s (measureRSSI env freq 0 s w).2).1| > 20
        then MOD_FHSS
        else if (measureRSSI env freq 0 s w).1 > -60 then MOD_LORA else MOD_GFSK,
       (measureRSSI env freq 0 s (measureRSSI env freq 0 s w).2).2) := by
  unfold analyzeModulation
  simp only [if_true, hlo, hhi, and_self, ha]
  split_ifs <;> rfl

theorem analyzeModulation_2400_eq (env : Env) (freq : ℚ) (s : RFScanner) (w : World)
    (hlo : 2400 ≤ freq) (hhi : freq ≤ 2483) :
    analyzeModulation env freq 1 s w =
      (if |floatSub (measureRSSI env freq 1 s w).1
            (measureRSSI env freq 1 s (measureRSSI env freq 1 s w).2).1| > 15
        then MOD_FHSS
        else if (measureRSSI env freq 1 s w).1 > -50 then MOD_DSSS else MOD_GFSK,
       (measureRSSI env freq 1 s (measureRSSI env freq 1 s w).2).2) := by
  unfold analyzeModulation
  simp only [if_neg (show ¬ (1 : Nat) = 0 by decide), hlo, hhi, and_self, if_true]
  split_ifs <;> rfl

/-! ## The registry: `addSignal` -/

/-- C1 as stated fails: after `addSignal(1.0, .., 0)` on the fresh registry,
slot 0 is active in band 0 at an exact distance `1 - 2^-30 < 1.0` of the
frequency `2^-30`, yet `addSignal(2^-30, .., 0)` does not update it: the `float`
difference is 1.0, slot 1 is filled and `signalCount` grows by 1. Both
frequencies are `float` values. -/
theorem addSignal_update_on_match_counterexample :
    roundF32 1 = 1 ∧ roundF32 (1 / 1073741824) = 1 / 1073741824 ∧
    (∃ k, Matches (1 / 1073741824) 0
      ((addSignal Env.sample 1 (-70) MOD_FSK 0 RFScanner.new World.zero).1.signals k)) ∧
    (addSignal Env.sample (1 / 1073741824) (-60) MOD_LORA 0
        (addSignal Env.sample 1 (-70) MOD_FSK 0 RFScanner.new World.zero).1
        (addSignal Env.sample 1 (-70) MOD_FSK 0 RFScanner.new World.zero).2).1.signalCount
      = (addSignal Env.sample 1 (-70) MOD_FSK 0 RFScanner.new World.zero).1.signalCount + 1 ∧
    ((addSignal Env.sample 1 (-70) MOD_FSK 0 RFScanner.new World.zero).1.signals 1).active
      = false ∧
    ((addSignal Env.sample (1 / 1073741824) (-60) MOD_LORA 0
        (addSignal Env.sample 1 (-70) MOD_FSK 0 RFScanner.new World.zero).1
        (addSignal Env.sample 1 (-70) MOD_FSK 0 RFScanner.new World.zero).2).1.signals 1).active
      = true := by
  have hempty : ∀ k, (RFScanner.new.signals k).active = false := fun _ => rfl
  have h01 : (1 : Fin MAX_DETECTED_SIGNALS) ≠ 0 := by decide
  have hc : ¬ ((0 : Nat) = 0 ∧ |floatSub 1 (1 / 1073741824)| < 1) := by
    rw [abs_floatSub_lt_one_iff]
    norm_num [abs_lt]
  have h2 := addSignal_second_distinct Env.sample 1 (-70) MOD_FSK 0 (1 / 1073741824) (-60)
    MOD_LORA 0 RFScanner.new World.zero hempty hc
  have h1 := addSignal_of_empty Env.sample 1 (-70) MOD_FSK 0 RFScanner.new World.zero hempty
  refine ⟨?_, ?_, ?_, ?_, ?_, ?_⟩
  · unfold roundF32
    rw [if_pos (by norm_num)]
    exact roundMag_of_float 1 0 8388608 (by norm_num) (by norm_num) (by norm_num)
      (by norm_num)
  · unfold roundF32
    rw [if_pos (by norm_num)]
    exact roundMag_of_float _ (-30) 8388608 (by norm_num) (by norm_num) (by norm_num)
      (by norm_num)
  · refine ⟨0, ?_⟩
    rw [h1]
    simp only [Function.update_same]
    refine ⟨rfl, rfl, ?_⟩
    norm_num [abs_lt]
  · rw [h2, h1]
  · rw [h1]
    simp only [Function.update_noteq h01]
    rfl
  · rw [h2]
    simp only [Function.update_same]

/-- C1, amended. Update on match: when some active slot has the same band and a
frequency whose single-precision difference with the new one is less than 1.0 in
absolute value (that is, an exact difference less than `1 - 2^-25`), `addSignal`
overwrites `rssi`, `modType` and `timestamp` (the value read from the clock) of
the lowest-index such slot; the frequency, band and active flag of that slot,
every other slot, `signalCount` and the other members are unchanged, the clock
is read once, and the number of active entries does not increase. -/
theorem addSignal_update_on_match (env : Env) (freq rssi : ℚ) (mod : ModulationType)
    (band : Nat) (s : RFScanner) (w : World)
    (h : ∃ k, MatchesRounded freq band (s.signals k)) :
    (∀ d : DetectedSignal, MatchesRounded freq band d ↔
      (d.active = true ∧ d.band = band ∧ |d.frequency - freq| < 1 - 1 / 33554432)) ∧
    ∃ i : Fin MAX_DETECTED_SIGNALS,
      MatchesRounded freq band (s.signals i) ∧
      (∀ j, j < i → ¬ MatchesRounded freq band (s.signals j)) ∧
      ((addSignal env freq rssi mod band s w).1.signals i).rssi = rssi ∧
      ((addSignal env freq rssi mod band s w).1.signals i).modType = mod ∧
      ((addSignal env freq rssi mod band s w).1.signals i).timestamp = millis env w ∧
      ((addSignal env freq rssi mod band s w).1.signals i).frequency
        = (s.signals i).frequency ∧
      ((addSignal env freq rssi mod band s w).1.signals i).band = (s.signals i).band ∧
      ((addSignal env freq rssi mod band s w).1.signals i).active = (s.signals i).active ∧
      (∀ j, j ≠ i → (addSignal env freq rssi mod band s w).1.signals j = s.signals j) ∧
      (addSignal env freq rssi mod band s w).1.signalCount = s.signalCount ∧
      (addSignal env freq rssi mod band s w).1.currentFreq = s.currentFreq ∧
      (addSignal env freq rssi mod band s w).1.sx1262Available = s.sx1262Available ∧
      (addSignal env freq rssi mod band s w).1.sx1280Available = s.sx1280Available ∧
      (addSignal env freq rssi mod band s w).2 = tick w ∧
      activeCount (addSignal env freq rssi mod band s w).1 ≤ activeCount s := by
  refine ⟨matchesRounded_iff freq band, ?_⟩
  obtain ⟨k, hk⟩ := h
  cases hf : firstSlot (fun i => sameSignal freq band (s.signals i)) with
  | none => exact absurd hk ((firstSlot_match_none_iff freq band s).mp hf k)
  | some i =>
    obtain ⟨h1, h2⟩ := (firstSlot_eq_some_iff _ i).mp hf
    rw [addSignal_of_match env freq rssi mod band s w i hf]
    refine ⟨i, (sameSignal_iff _ _ _).mp h1,
      fun j hj => (sameSignal_eq_false_iff _ _ _).mp (h2 j hj), ?_⟩
    refine ⟨by simp, by simp, by simp, by simp, by simp, by simp, ?_, rfl, rfl, rfl, rfl,
      rfl, ?_⟩
    · intro j hj
      simp [Function.update_noteq hj]
    · apply le_of_eq
      apply activeCount_congr
      intro j
      by_cases hj : j = i
      · subst hj
        simp
      · simp [Function.update_noteq hj]

/-- C1, amended, at an instance: a second detection at 905.0 MHz in band 0 on
the registry that holds 905.0 MHz in slot 0. -/
theorem addSignal_update_on_match_witness :
    ∃ i : Fin MAX_DETECTED_SIGNALS,
      MatchesRounded 905 0 (RFScanner.one.signals i) ∧
      (∀ j, j < i → ¬ MatchesRounded 905 0 (RFScanner.one.signals j)) ∧
      ((addSignal Env.sample 905 (-60) MOD_LORA 0 RFScanner.one World.zero).1.signals i).rssi
        = -60 ∧
      ((addSignal Env.sample 905 (-60) MOD_LORA 0 RFScanner.one World.zero).1.signals i).modType
        = MOD_LORA ∧
      ((addSignal Env.sample 905 (-60) MOD_LORA 0 RFScanner.one World.zero).1.signals i).timestamp
        = millis Env.sample World.zero ∧
      ((addSignal Env.sample 905 (-60) MOD_LORA 0 RFScanner.one World.zero).1.signals i).frequency
        = (RFScanner.one.signals i).frequency ∧
      ((addSignal Env.sample 905 (-60) MOD_LORA 0 RFScanner.one World.zero).1.signals i).band
        = (RFScanner.one.signals i).band ∧
      ((addSignal Env.sample 905 (-60) MOD_LORA 0 RFScanner.one World.zero).1.signals i).active
        = (RFScanner.one.signals i).active ∧
      (∀ j, j ≠ i →
        (addSignal Env.sample 905 (-60) MOD_LORA 0 RFScanner.one World.zero).1.signals j
          = RFScanner.one.signals j) ∧
      (addSignal Env.sample 905 (-60) MOD_LORA 0 RFScanner.one World.zero).1.signalCount
        = RFScanner.one.signalCount ∧
      (addSignal Env.sample 905 (-60) MOD_LORA 0 RFScanner.one World.zero).1.currentFreq
        = RFScanner.one.currentFreq ∧
      (addSignal Env.sample 905 (-60) MOD_LORA 0 RFScanner.one World.zero).1.sx1262Available
        = RFScanner.one.sx1262Available ∧
      (addSignal Env.sample 905 (-60) MOD_LORA 0 RFScanner.one World.zero).1.sx1280Available
        = RFScanner.one.sx1280Available ∧
      (addSignal Env.sample 905 (-60) MOD_LORA 0 RFScanner.one World.zero).2 = tick World.zero ∧
      activeCount (addSignal Env.sample 905 (-60) MOD_LORA 0 RFScanner.one World.zero).1
        ≤ activeCount RFScanner.one :=
  (addSignal_update_on_match Env.sample 905 (-60) MOD_LORA 0 RFScanner.one World.zero
    ⟨0, by
      rw [matchesRounded_iff]
      simp only [RFScanner.one, Function.update_same]
      norm_num⟩).2

/-- C2. Insert into a free slot: when no active slot matches and some slot is
inactive, `addSignal` writes the new frequency, rssi, modulation, band and the
clock value into the lowest-index inactive slot, marks it active, adds exactly 1
to `signalCount`, and leaves every other slot and the other members unchanged;
the clock is read once. -/
theorem addSignal_insert_free (env : Env) (freq rssi : ℚ) (mod : ModulationType)
    (band : Nat) (s : RFScanner) (w : World)
    (hno : ∀ k, ¬ Matches freq band (s.signals k))
    (hfree : ∃ k, (s.signals k).active = false) :
    ∃ i : Fin MAX_DETECTED_SIGNALS,
      (s.signals i).active = false ∧
      (∀ j, j < i → (s.signals j).active = true) ∧
      (addSignal env freq rssi mod band s w).1.signals i =
        { frequency := freq, rssi := rssi, modType := mod, band := band,
          timestamp := millis env w, active := true } ∧
      (∀ j, j ≠ i → (addSignal env freq rssi mod band s w).1.signals j = s.signals j) ∧
      (addSignal env freq rssi mod band s w).1.signalCount = s.signalCount + 1 ∧
      (addSignal env freq rssi mod band s w).1.currentFreq = s.currentFreq ∧
      (addSignal env freq rssi mod band s w).1.sx1262Available = s.sx1262Available ∧
      (addSignal env freq rssi mod band s w).1.sx1280Available = s.sx1280Available ∧
      (addSignal env freq rssi mod band s w).2 = tick w ∧
      activeCount (addSignal env freq rssi mod band s w).1 = activeCount s + 1 := by
  have hnone := firstSlot_match_none_of_exact freq band s hno
  obtain ⟨k, hk⟩ := hfree
  cases hf : firstSlot (fun i => !(s.signals i).active) with
  | none =>
    have := (firstSlot_free_none_iff s).mp hf k
    rw [hk] at this
    exact absurd this (by simp)
  | some i =>
    obtain ⟨h1, h2⟩ := (firstSlot_eq_some_iff _ i).mp hf
    have hi : (s.signals i).active = false := by simpa using h1
    rw [addSignal_of_free env freq rssi mod band s w i hnone hf]
    refine ⟨i, hi, fun j hj => by simpa using h2 j hj, by simp, ?_, rfl, rfl, rfl, rfl,
      rfl, ?_⟩
    · intro j hj
      simp [Function.update_noteq hj]
    · apply activeCount_activate _ _ i hi (by simp)
      intro j hj
      simp [Function.update_noteq hj]

/-- C2, at an instance: 950.0 MHz is inserted into the registry that holds only
905.0 MHz. -/
theorem addSignal_insert_free_witness :
    ∃ i : Fin MAX_DETECTED_SIGNALS,
      (RFScanner.one.signals i).active = false ∧
      (∀ j, j < i → (RFScanner.one.signals j).active = true) ∧
      (addSignal Env.sample 950 (-60) MOD_LORA 0 RFScanner.one World.zero).1.signals i =
        { frequency := 950, rssi := -60, modType := MOD_LORA, band := 0,
          timestamp := millis Env.sample World.zero, active := true } ∧
      (∀ j, j ≠ i →
        (addSignal Env.sample 950 (-60) MOD_LORA 0 RFScanner.one World.zero).1.signals j
          = RFScanner.one.signals j) ∧
      (addSignal Env.sample 950 (-60) MOD_LORA 0 RFScanner.one World.zero).1.signalCount
        = RFScanner.one.signalCount + 1 ∧
      (addSignal Env.sample 950 (-60) MOD_LORA 0 RFScanner.one World.zero).1.currentFreq
        = RFScanner.one.currentFreq ∧
      (addSignal Env.sample 950 (-60) MOD_LORA 0 RFScanner.one World.zero).1.sx1262Available
        = RFScanner.one.sx1262Available ∧
      (addSignal Env.sample 950 (-60) MOD_LORA 0 RFScanner.one World.zero).1.sx1280Available
        = RFScanner.one.sx1280Available ∧
      (addSignal Env.sample 950 (-60) MOD_LORA 0 RFScanner.one World.zero).2 = tick World.zero ∧
      activeCount (addSignal Env.sample 950 (-60) MOD_LORA 0 RFScanner.one World.zero).1
        = activeCount RFScanner.one + 1 :=
  addSignal_insert_free Env.sample 950 (-60) MOD_LORA 0 RFScanner.one World.zero
    (by
      intro k hk
      obtain ⟨h1, _, h3⟩ := hk
      by_cases h0 : k = 0
      · subst h0
        norm_num [RFScanner.one, abs_lt] at h3
      · simp [RFScanner.one, RFScanner.new, Function.update_noteq h0] at h1)
    ⟨1, by simp [RFScanner.one, RFScanner.new]⟩

/-- C3. Eviction when full: when all 10 slots are active, none matches the new
detection and no stored timestamp exceeds the clock value read first, `addSignal`
overwrites the slot with the smallest timestamp (the lowest-index one on ties)
with the new frequency, rssi, modulation, band and the clock value read second,
leaves the other nine slots, `signalCount` and the other members unchanged, and
leaves exactly 10 active entries. Only this branch reads the clock twice, and it
is reached only when all 10 slots are active (and none passes the match test of
the code). -/
theorem addSignal_evict_oldest (env : Env) (freq rssi : ℚ) (mod : ModulationType)
    (band : Nat) (s : RFScanner) (w : World) :
    ((∀ k, (s.signals k).active = true) →
      (∀ k, ¬ Matches freq band (s.signals k)) →
      (∀ k, (s.signals k).timestamp ≤ millis env w) →
      ∃ i : Fin MAX_DETECTED_SIGNALS,
        (∀ j, (s.signals i).timestamp ≤ (s.signals j).timestamp) ∧
        (∀ j, j < i → (s.signals i).timestamp < (s.signals j).timestamp) ∧
        (addSignal env freq rssi mod band s w).1.signals i =
          { frequency := freq, rssi := rssi, modType := mod, band := band,
            timestamp := millis env (tick w), active := true } ∧
        (∀ j, j ≠ i → (addSignal env freq rssi mod band s w).1.signals j = s.signals j) ∧
        (addSignal env freq rssi mod band s w).1.signalCount = s.signalCount ∧
        (addSignal env freq rssi mod band s w).1.currentFreq = s.currentFreq ∧
        (addSignal env freq rssi mod band s w).1.sx1262Available = s.sx1262Available ∧
        (addSignal env freq rssi mod band s w).1.sx1280Available = s.sx1280Available ∧
        (addSignal env freq rssi mod band s w).2 = tick (tick w) ∧
        activeCount (addSignal env freq rssi mod band s w).1 = 10) ∧
    ((addSignal env freq rssi mod band s w).2 = tick (tick w) →
      (∀ k, (s.signals k).active = true) ∧
        ∀ k, ¬ MatchesRounded freq band (s.signals k)) := by
  constructor
  · intro hall hno hmono
    have hnone := firstSlot_match_none_of_exact freq band s hno
    have hfull := (firstSlot_free_none_iff s).mpr hall
    rw [addSignal_of_full env freq rssi mod band s w hnone hfull]
    obtain ⟨h1, h2⟩ := oldestLoop_spec s.signals MAX_DETECTED_SIGNALS 0 (millis env w) 0
      (by omega) (fun j hj => absurd hj (Nat.not_lt_zero _)) (Or.inr ⟨rfl, rfl, hmono⟩)
    refine ⟨_, h1, h2, by simp, ?_, rfl, rfl, rfl, rfl, rfl, ?_⟩
    · intro j hj
      simp [Function.update_noteq hj]
    · apply activeCount_eq_max
      intro j
      by_cases hj : j = oldestLoop s.signals MAX_DETECTED_SIGNALS 0 (millis env w) 0
      · subst hj
        simp
      · simp [Function.update_noteq hj, hall j]
  · intro h
    have hne : tick w ≠ tick (tick w) := by
      intro heq
      have := congrArg World.millisCalls heq
      simp [tick] at this
    cases hf : firstSlot (fun i => sameSignal freq band (s.signals i)) with
    | some i =>
      rw [addSignal_of_match env freq rssi mod band s w i hf] at h
      exact absurd h hne
    | none =>
      cases hg : firstSlot (fun i => !(s.signals i).active) with
      | some i =>
        rw [addSignal_of_free env freq rssi mod band s w i hf hg] at h
        exact absurd h hne
      | none =>
        exact ⟨(firstSlot_free_none_iff s).mp hg, (firstSlot_match_none_iff freq band s).mp hf⟩

/-- C3, at an instance: 950.0 MHz evicts slot 0 of the full registry, whose
timestamps are all equal. -/
theorem addSignal_evict_oldest_witness :
    ∃ i : Fin MAX_DETECTED_SIGNALS,
      (∀ j, (RFScanner.full.signals i).timestamp ≤ (RFScanner.full.signals j).timestamp) ∧
      (∀ j, j < i →
        (RFScanner.full.signals i).timestamp < (RFScanner.full.signals j).timestamp) ∧
      (addSignal Env.sample 950 (-60) MOD_LORA 0 RFScanner.full World.zero).1.signals i =
        { frequency := 950, rssi := -60, modType := MOD_LORA, band := 0,
          timestamp := millis Env.sample (tick World.zero), active := true } ∧
      (∀ j, j ≠ i →
        (addSignal Env.sample 950 (-60) MOD_LORA 0 RFScanner.full World.zero).1.signals j
          = RFScanner.full.signals j) ∧
      (addSignal Env.sample 950 (-60) MOD_LORA 0 RFScanner.full World.zero).1.signalCount
        = RFScanner.full.signalCount ∧
      (addSignal Env.sample 950 (-60) MOD_LORA 0 RFScanner.full World.zero).1.currentFreq
        = RFScanner.full.currentFreq ∧
      (addSignal Env.sample 950 (-60) MOD_LORA 0 RFScanner.full World.zero).1.sx1262Available
        = RFScanner.full.sx1262Available ∧
      (addSignal Env.sample 950 (-60) MOD_LORA 0 RFScanner.full World.zero).1.sx1280Available
        = RFScanner.full.sx1280Available ∧
      (addSignal Env.sample 950 (-60) MOD_LORA 0 RFScanner.full World.zero).2
        = tick (tick World.zero) ∧
      activeCount (addSignal Env.sample 950 (-60) MOD_LORA 0 RFScanner.full World.zero).1 = 10 :=
  (addSignal_evict_oldest Env.sample 950 (-60) MOD_LORA 0 RFScanner.full World.zero).1
    (by intro k; simp [RFScanner.full])
    (by
      intro k hk
      have h3 := hk.2.2
      have hk9 : (k.val : ℚ) ≤ 9 := by
        have := k.isLt
        exact_mod_cast Nat.le_of_lt_succ this
      simp only [RFScanner.full, abs_lt] at h3
      linarith [h3.1])
    (by intro k; simp [RFScanner.full])

/-- C4 as stated fails: the state reached from the constructor by
`addSignal(1.0, .., 0)` then `addSignal(2^-30, .., 0)` has slots 0 and 1 active,
in the same band, at an exact distance `1 - 2^-30 < 1.0`: the `float` difference
is 1.0, so the second call found no match. -/
theorem dedup_invariant_counterexample :
    Reachable (addSignal Env.sample (1 / 1073741824) (-60) MOD_LORA 0
      (addSignal Env.sample 1 (-70) MOD_FSK 0 RFScanner.new World.zero).1
      (addSignal Env.sample 1 (-70) MOD_FSK 0 RFScanner.new World.zero).2).1 ∧
    ¬ Dedup (addSignal Env.sample (1 / 1073741824) (-60) MOD_LORA 0
      (addSignal Env.sample 1 (-70) MOD_FSK 0 RFScanner.new World.zero).1
      (addSignal Env.sample 1 (-70) MOD_FSK 0 RFScanner.new World.zero).2).1 := by
  have hempty : ∀ k, (RFScanner.new.signals k).active = false := fun _ => rfl
  have h01 : (1 : Fin MAX_DETECTED_SIGNALS) ≠ 0 := by decide
  have hc : ¬ ((0 : Nat) = 0 ∧ |floatSub 1 (1 / 1073741824)| < 1) := by
    rw [abs_floatSub_lt_one_iff]
    norm_num [abs_lt]
  have h2 := addSignal_second_distinct Env.sample 1 (-70) MOD_FSK 0 (1 / 1073741824) (-60)
    MOD_LORA 0 RFScanner.new World.zero hempty hc
  refine ⟨Reachable.add _ _ _ _ _ _ (Reachable.add _ _ _ _ _ _ Reachable.init), ?_⟩
  rw [h2]
  intro hd
  refine hd 0 1 h01.symm ?_ ?_ ?_
  · simp [Function.update_noteq h01.symm]
  · simp
  · simp only [Function.update_same, Function.update_noteq h01.symm]
    refine ⟨trivial, ?_⟩
    norm_num [abs_lt]

/-- C4, amended. Dedup invariant: in every state reachable from the constructor
by calls of `addSignal`, `cleanupSignals` and `clearSignals`, no two distinct
active slots have the same band and frequencies whose single-precision
difference is less than 1.0 in absolute value; that is, two distinct active
slots of the same band are at an exact distance of at least `1 - 2^-25`. -/
theorem dedup_invariant (s : RFScanner) (h : Reachable s) :
    DedupRounded s ∧
    ∀ i j : Fin MAX_DETECTED_SIGNALS, i ≠ j →
      (s.signals i).active = true → (s.signals j).active = true →
      (s.signals i).band = (s.signals j).band →
      1 - 1 / 33554432 ≤ |(s.signals i).frequency - (s.signals j).frequency| := by
  have hd : DedupRounded s := by
    induction h with
    | init =>
      intro i j _ hi
      simp [RFScanner.new] at hi
    | add env w freq rssi mod band _ ih =>
      exact DedupRounded.addSignal_step env freq rssi mod band _ w ih
    | @cleanup env w s0 _ ih =>
      apply DedupRounded.of_same_keys _ _ _ ih
      intro j hj
      rw [cleanupSignals_signals] at hj ⊢
      by_cases hc : (s0.signals j).active = true ∧
          u32sub (millis env w) (s0.signals j).timestamp > SIGNAL_HOLD_TIME_MS
      · rw [if_pos hc] at hj
        simp at hj
      · rw [if_neg hc] at hj ⊢
        exact ⟨hj, rfl, rfl⟩
    | clear _ ih =>
      apply DedupRounded.of_same_keys _ _ _ ih
      intro j hj
      rw [clearSignals_signals] at hj
      simp at hj
  refine ⟨hd, ?_⟩
  intro i j hij hi hj hb
  by_contra hlt
  exact hd i j hij hi hj ⟨hb, (abs_floatSub_lt_one_iff _ _).mpr (not_le.mp hlt)⟩

/-- C4, amended, at an instance: the state after 905.0 MHz then 906.5 MHz are
added to the fresh registry, which has two active slots. -/
theorem dedup_invariant_witness :
    activeCount (addSignal Env.sample (1813 / 2) (-60) MOD_LORA 0
      (addSignal Env.sample 905 (-70) MOD_FSK 0 RFScanner.new World.zero).1
      (addSignal Env.sample 905 (-70) MOD_FSK 0 RFScanner.new World.zero).2).1 = 2 ∧
    DedupRounded (addSignal Env.sample (1813 / 2) (-60) MOD_LORA 0
      (addSignal Env.sample 905 (-70) MOD_FSK 0 RFScanner.new World.zero).1
      (addSignal Env.sample 905 (-70) MOD_FSK 0 RFScanner.new World.zero).2).1 :=
  ⟨by
    rw [addSignal_second_distinct Env.sample 905 (-70) MOD_FSK 0 (1813 / 2) (-60) MOD_LORA 0
      RFScanner.new World.zero (fun _ => rfl)
      (by rw [abs_floatSub_lt_one_iff]; norm_num [abs_lt])]
    exact activeCount_first_two RFScanner.new _ _ _ (fun _ => rfl) rfl rfl,
   (dedup_invariant _
    (Reachable.add _ _ _ _ _ _ (Reachable.add _ _ _ _ _ _ Reachable.init))).1⟩

/-! ## The registry: `cleanupSignals` -/

/-- C5. Expiry boundary: after `cleanupSignals` a slot is active if and only if
it was active before and `now - timestamp <= 3000`, where `now` is the clock
value read and the difference is the one of `uint32_t` (it is the ordinary
difference whenever `timestamp <= now`); an active entry with timestamp `T` stays
active at `now = T + 3000` and becomes inactive at `now = T + 3001`;
`cleanupSignals` never activates a slot and never changes a frequency, rssi,
modulation, band or timestamp, nor the cursor or the availability flags. -/
theorem cleanupSignals_expiry (env : Env) (s : RFScanner) (w : World) :
    (∀ i, ((cleanupSignals env s w).1.signals i).active = true ↔
      ((s.signals i).active = true ∧
        u32sub (millis env w) (s.signals i).timestamp ≤ SIGNAL_HOLD_TIME_MS)) ∧
    (∀ i, (s.signals i).timestamp ≤ millis env w →
      u32sub (millis env w) (s.signals i).timestamp
        = millis env w - (s.signals i).timestamp) ∧
    (∀ i, (s.signals i).active = true →
      millis env w = ((s.signals i).timestamp + 3000) % 4294967296 →
      ((cleanupSignals env s w).1.signals i).active = true) ∧
    (∀ i, (s.signals i).active = true →
      millis env w = ((s.signals i).timestamp + 3001) % 4294967296 →
      ((cleanupSignals env s w).1.signals i).active = false) ∧
    (∀ i, ((cleanupSignals env s w).1.signals i).active = true →
      (s.signals i).active = true) ∧
    (∀ i, ((cleanupSignals env s w).1.signals i).frequency = (s.signals i).frequency ∧
      ((cleanupSignals env s w).1.signals i).rssi = (s.signals i).rssi ∧
      ((cleanupSignals env s w).1.signals i).modType = (s.signals i).modType ∧
      ((cleanupSignals env s w).1.signals i).band = (s.signals i).band ∧
      ((cleanupSignals env s w).1.signals i).timestamp = (s.signals i).timestamp) ∧
    (cleanupSignals env s w).1.currentFreq = s.currentFreq ∧
    (cleanupSignals env s w).1.sx1262Available = s.sx1262Available ∧
    (cleanupSignals env s w).1.sx1280Available = s.sx1280Available ∧
    (cleanupSignals env s w).2 = tick w := by
  have hiff : ∀ i, ((cleanupSignals env s w).1.signals i).active = true ↔
      ((s.signals i).active = true ∧
        u32sub (millis env w) (s.signals i).timestamp ≤ SIGNAL_HOLD_TIME_MS) := by
    intro i
    rw [cleanupSignals_signals]
    by_cases hc : (s.signals i).active = true ∧
        u32sub (millis env w) (s.signals i).timestamp > SIGNAL_HOLD_TIME_MS
    · rw [if_pos hc]
      constructor
      · intro h
        simp at h
      · rintro ⟨_, h⟩
        omega
    · rw [if_neg hc]
      constructor
      · intro h
        exact ⟨h, by by_contra hgt; exact hc ⟨h, by omega⟩⟩
      · exact fun h => h.1
  have hlt : millis env w < 4294967296 := Nat.mod_lt _ (by norm_num)
  refine ⟨hiff, ?_, ?_, ?_, fun i h => ((hiff i).mp h).1, ?_, rfl, rfl, rfl, rfl⟩
  · intro i hle
    unfold u32sub
    omega
  · intro i ha hnow
    refine (hiff i).mpr ⟨ha, ?_⟩
    rw [hnow]
    unfold u32sub SIGNAL_HOLD_TIME_MS
    omega
  · intro i ha hnow
    have hn : ¬ ((cleanupSignals env s w).1.signals i).active = true := by
      rw [hiff i, hnow]
      unfold u32sub SIGNAL_HOLD_TIME_MS
      omega
    simpa using hn
  · intro i
    rw [cleanupSignals_signals]
    split_ifs <;> simp

/-- C5, at an instance: the entry of timestamp 0 is kept by a cleanup at
3000 ms and dropped by a cleanup at 3001 ms. -/
theorem cleanupSignals_expiry_witness :
    ((cleanupSignals Env.sample RFScanner.one
        { World.zero with millisCalls := 3000 }).1.signals 0).active = true ∧
    ((cleanupSignals Env.sample RFScanner.one
        { World.zero with millisCalls := 3001 }).1.signals 0).active = false :=
  ⟨(cleanupSignals_expiry Env.sample RFScanner.one
      { World.zero with millisCalls := 3000 }).2.2.1 0
      (by simp [RFScanner.one])
      (by simp [RFScanner.one, millis, Env.sample, World.zero]),
   (cleanupSignals_expiry Env.sample RFScanner.one
      { World.zero with millisCalls := 3001 }).2.2.2.1 0
      (by simp [RFScanner.one])
      (by simp [RFScanner.one, millis, Env.sample, World.zero])⟩

/-! ## The registry: two detections on an empty registry -/

/-- C6 as stated fails: on the fresh registry, `addSignal(1.0, .., 0)` then
`addSignal(2^-30, .., 0)` are in the same band at an exact distance
`1 - 2^-30 < 1.0`, yet two entries are active afterwards: the `float` difference
is 1.0. -/
theorem addSignal_twice_on_empty_counterexample :
    ((0 : Nat) = 0 ∧ |(1 : ℚ) - 1 / 1073741824| < 1) ∧
    activeCount (addSignal Env.sample (1 / 1073741824) (-60) MOD_LORA 0
      (addSignal Env.sample 1 (-70) MOD_FSK 0 RFScanner.new World.zero).1
      (addSignal Env.sample 1 (-70) MOD_FSK 0 RFScanner.new World.zero).2).1 = 2 := by
  have hempty : ∀ k, (RFScanner.new.signals k).active = false := fun _ => rfl
  have hc : ¬ ((0 : Nat) = 0 ∧ |floatSub 1 (1 / 1073741824)| < 1) := by
    rw [abs_floatSub_lt_one_iff]
    norm_num [abs_lt]
  refine ⟨⟨rfl, by norm_num [abs_lt]⟩, ?_⟩
  rw [addSignal_second_distinct Env.sample 1 (-70) MOD_FSK 0 (1 / 1073741824) (-60)
    MOD_LORA 0 RFScanner.new World.zero hempty hc]
  exact activeCount_first_two RFScanner.new _ _ _ hempty rfl rfl

/-- C6, amended. Distinctness by tolerance: on a registry with no active slot
(freshly constructed or cleared), `addSignal(f1, .., b1)` then
`addSignal(f2, .., b2)` leaves exactly one active entry when `b1 = b2` and the
single-precision difference of `f1` and `f2` is less than 1.0 in absolute value
(that is, `|f1 - f2| < 1 - 2^-25`), in slot 0, with frequency `f1` and the rssi
and modulation of the second call, and exactly two active entries otherwise, in
slots 0 and 1. -/
theorem addSignal_twice_on_empty (env : Env) (f1 r1 : ℚ) (m1 : ModulationType) (b1 : Nat)
    (f2 r2 : ℚ) (m2 : ModulationType) (b2 : Nat) (s : RFScanner) (w : World)
    (hempty : ∀ k, (s.signals k).active = false) :
    (|floatSub f1 f2| < 1 ↔ |f1 - f2| < 1 - 1 / 33554432) ∧
    ((b1 = b2 ∧ |floatSub f1 f2| < 1) →
      activeCount (addSignal env f2 r2 m2 b2 (addSignal env f1 r1 m1 b1 s w).1
        (addSignal env f1 r1 m1 b1 s w).2).1 = 1 ∧
      (addSignal env f2 r2 m2 b2 (addSignal env f1 r1 m1 b1 s w).1
        (addSignal env f1 r1 m1 b1 s w).2).1.signals 0 =
        { frequency := f1, rssi := r2, modType := m2, band := b1,
          timestamp := millis env (tick w), active := true } ∧
      (addSignal env f2 r2 m2 b2 (addSignal env f1 r1 m1 b1 s w).1
        (addSignal env f1 r1 m1 b1 s w).2).1.signalCount = s.signalCount + 1) ∧
    (¬ (b1 = b2 ∧ |floatSub f1 f2| < 1) →
      activeCount (addSignal env f2 r2 m2 b2 (addSignal env f1 r1 m1 b1 s w).1
        (addSignal env f1 r1 m1 b1 s w).2).1 = 2 ∧
      (addSignal env f2 r2 m2 b2 (addSignal env f1 r1 m1 b1 s w).1
        (addSignal env f1 r1 m1 b1 s w).2).1.signals 0 =
        { frequency := f1, rssi := r1, modType := m1, band := b1,
          timestamp := millis env w, active := true } ∧
      (addSignal env f2 r2 m2 b2 (addSignal env f1 r1 m1 b1 s w).1
        (addSignal env f1 r1 m1 b1 s w).2).1.signals 1 =
        { frequency := f2, rssi := r2, modType := m2, band := b2,
          timestamp := millis env (tick w), active := true } ∧
      (addSignal env f2 r2 m2 b2 (addSignal env f1 r1 m1 b1 s w).1
        (addSignal env f1 r1 m1 b1 s w).2).1.signalCount = s.signalCount + 2) := by
  have h01 : (1 : Fin MAX_DETECTED_SIGNALS) ≠ 0 := by decide
  refine ⟨abs_floatSub_lt_one_iff f1 f2, ?_, ?_⟩
  · intro hc
    rw [addSignal_second_same env f1 r1 m1 b1 f2 r2 m2 b2 s w hempty hc]
    refine ⟨activeCount_first s _ _ hempty rfl, ?_, rfl⟩
    simp only [Function.update_same]
  · intro hc
    rw [addSignal_second_distinct env f1 r1 m1 b1 f2 r2 m2 b2 s w hempty hc]
    refine ⟨activeCount_first_two s _ _ _ hempty rfl rfl, ?_, ?_, ?_⟩
    · simp only [Function.update_noteq h01.symm, Function.update_same]
    · simp only [Function.update_same]
    · simp only
      ring

/-- C6, amended, at the instances of the specification, on the fresh registry:
905.0 then 906.5 MHz gives two active entries, 905.0 then 905.9 MHz (as a
`float`, `7421133 / 8192`) gives one, and 905.0 then 906.0 MHz (a difference of
exactly 1.0) gives two. -/
theorem addSignal_twice_on_empty_witness :
    activeCount (addSignal Env.sample (1813 / 2) (-60) MOD_LORA 0
      (addSignal Env.sample 905 (-70) MOD_FSK 0 RFScanner.new World.zero).1
      (addSignal Env.sample 905 (-70) MOD_FSK 0 RFScanner.new World.zero).2).1 = 2 ∧
    activeCount (addSignal Env.sample (7421133 / 8192) (-60) MOD_LORA 0
      (addSignal Env.sample 905 (-70) MOD_FSK 0 RFScanner.new World.zero).1
      (addSignal Env.sample 905 (-70) MOD_FSK 0 RFScanner.new World.zero).2).1 = 1 ∧
    activeCount (addSignal Env.sample 906 (-60) MOD_LORA 0
      (addSignal Env.sample 905 (-70) MOD_FSK 0 RFScanner.new World.zero).1
      (addSignal Env.sample 905 (-70) MOD_FSK 0 RFScanner.new World.zero).2).1 = 2 :=
  ⟨((addSignal_twice_on_empty Env.sample 905 (-70) MOD_FSK 0 (1813 / 2) (-60) MOD_LORA 0
      RFScanner.new World.zero (fun _ => rfl)).2.2
      (by rw [abs_floatSub_lt_one_iff]; norm_num [abs_lt])).1,
   ((addSignal_twice_on_empty Env.sample 905 (-70) MOD_FSK 0 (7421133 / 8192) (-60) MOD_LORA 0
      RFScanner.new World.zero (fun _ => rfl)).2.1
      (by rw [abs_floatSub_lt_one_iff]; norm_num [abs_lt])).1,
   ((addSignal_twice_on_empty Env.sample 905 (-70) MOD_FSK 0 906 (-60) MOD_LORA 0
      RFScanner.new World.zero (fun _ => rfl)).2.2
      (by rw [abs_floatSub_lt_one_iff]; norm_num [abs_lt])).1⟩

/-! ## The classifier -/

/-- C10 as stated fails, in two ways. In the state left by the constructor (the
SX1262 is not available) `analyzeModulation(915.0, 0)` takes no sample and
returns `MOD_UNKNOWN`, which is none of FHSS, LoRa, GFSK. And with the SX1262
available and the two samples `r1 = -(20 + 2^-19)`, `r2 = -3 * 2^-21` (both
`float` values), `|r1 - r2| > 20` but the answer is LoRa, not FHSS: the `float`
difference is 20. -/
theorem analyzeModulation_900_counterexample :
    ((902 : ℚ) ≤ 915 ∧ (915 : ℚ) ≤ 928 ∧
      analyzeModulation Env.sample 915 0 RFScanner.new World.zero = (MOD_UNKNOWN, World.zero) ∧
      ¬ ((analyzeModulation Env.sample 915 0 RFScanner.new World.zero).1 = MOD_FHSS ∨
          (analyzeModulation Env.sample 915 0 RFScanner.new World.zero).1 = MOD_LORA ∨
          (analyzeModulation Env.sample 915 0 RFScanner.new World.zero).1 = MOD_GFSK)) ∧
    ((measureRSSI Env.nearTwenty 915 0 RFScanner.ready World.zero).1 = -(20 + 1 / 524288) ∧
      (measureRSSI Env.nearTwenty 915 0 RFScanner.ready
        (measureRSSI Env.nearTwenty 915 0 RFScanner.ready World.zero).2).1 = -(3 / 2097152) ∧
      roundF32 (-(20 + 1 / 524288)) = -(20 + 1 / 524288) ∧
      roundF32 (-(3 / 2097152)) = -(3 / 2097152) ∧
      |(-(20 + 1 / 524288) : ℚ) - -(3 / 2097152)| > 20 ∧
      (analyzeModulation Env.nearTwenty 915 0 RFScanner.ready World.zero).1 = MOD_LORA) := by
  have h : analyzeModulation Env.sample 915 0 RFScanner.new World.zero
      = (MOD_UNKNOWN, World.zero) := by
    unfold analyzeModulation
    norm_num [RFScanner.new]
  have hr1 : (measureRSSI Env.nearTwenty 915 0 RFScanner.ready World.zero).1
      = -(20 + 1 / 524288) := by
    simp [measureRSSI, Env.nearTwenty, RFScanner.ready, RFScanner.new, World.zero]
  have hr2 : (measureRSSI Env.nearTwenty 915 0 RFScanner.ready
      (measureRSSI Env.nearTwenty 915 0 RFScanner.ready World.zero).2).1 = -(3 / 2097152) := by
    simp [measureRSSI, Env.nearTwenty, RFScanner.ready, RFScanner.new, World.zero]
  refine ⟨⟨by norm_num, by norm_num, h, ?_⟩, hr1, hr2, ?_, ?_, ?_, ?_⟩
  · rw [h]
    simp
  · rw [roundF32_neg, roundF32_of_float _ 4 10485761 (by norm_num) (by norm_num)
      (by norm_num) (by norm_num) (by norm_num)]
  · rw [roundF32_neg, roundF32_of_float _ (-20) 12582912 (by norm_num) (by norm_num)
      (by norm_num) (by norm_num) (by norm_num)]
  · norm_num [lt_abs]
  · rw [analyzeModulation_900_eq Env.nearTwenty 915 RFScanner.ready World.zero (by norm_num)
      (by norm_num) rfl, hr1, hr2]
    have hn : ¬ |floatSub (-(20 + 1 / 524288)) (-(3 / 2097152))| > 20 := by
      rw [abs_floatSub_gt_twenty_iff]
      norm_num [lt_abs]
    simp only [if_neg hn]
    norm_num

/-- C10, amended. For every frequency with `902.0 <= freq <= 928.0`: in a state
where the SX1262 is available, `analyzeModulation(freq, 0)` calls `measureRSSI`
twice at that frequency, giving `r1` then `r2`, and returns FHSS if the
single-precision difference of `r1` and `r2` exceeds 20 in absolute value (that
is, `|r1 - r2| > 20 + 2^-20`), otherwise LoRa if `r1 > -60`, otherwise GFSK, hence
always one of the three; in a state where the SX1262 is not available it takes
no sample and returns Unknown. -/
theorem analyzeModulation_900_sampled (env : Env) (freq : ℚ) (s : RFScanner) (w : World)
    (hlo : 902 ≤ freq) (hhi : freq ≤ 928) :
    (s.sx1262Available = true →
      (analyzeModulation env freq 0 s w).2
        = (measureRSSI env freq 0 s (measureRSSI env freq 0 s w).2).2 ∧
      (|floatSub (measureRSSI env freq 0 s w).1
          (measureRSSI env freq 0 s (measureRSSI env freq 0 s w).2).1| > 20 ↔
        |(measureRSSI env freq 0 s w).1
          - (measureRSSI env freq 0 s (measureRSSI env freq 0 s w).2).1|
            > 20 + 1 / 1048576) ∧
      (|floatSub (measureRSSI env freq 0 s w).1
          (measureRSSI env freq 0 s (measureRSSI env freq 0 s w).2).1| > 20 →
        (analyzeModulation env freq 0 s w).1 = MOD_FHSS) ∧
      (¬ |floatSub (measureRSSI env freq 0 s w).1
          (measureRSSI env freq 0 s (measureRSSI env freq 0 s w).2).1| > 20 →
        (measureRSSI env freq 0 s w).1 > -60 →
        (analyzeModulation env freq 0 s w).1 = MOD_LORA) ∧
      (¬ |floatSub (measureRSSI env freq 0 s w).1
          (measureRSSI env freq 0 s (measureRSSI env freq 0 s w).2).1| > 20 →
        ¬ (measureRSSI env freq 0 s w).1 > -60 →
        (analyzeModulation env freq 0 s w).1 = MOD_GFSK) ∧
      ((analyzeModulation env freq 0 s w).1 = MOD_FHSS ∨
        (analyzeModulation env freq 0 s w).1 = MOD_LORA ∨
        (analyzeModulation env freq 0 s w).1 = MOD_GFSK) ∧
      (analyzeModulation env freq 0 s w).2.setFrequency900Calls
        = w.setFrequency900Calls + 2) ∧
    (s.sx1262Available = false → analyzeModulation env freq 0 s w = (MOD_UNKNOWN, w)) := by
  constructor
  · intro ha
    have hm : ∀ w0 : World, (measureRSSI env freq 0 s w0).2.setFrequency900Calls
        = w0.setFrequency900Calls + 1 := by
      intro w0
      unfold measureRSSI
      simp only [ha, and_self, if_true]
      split_ifs <;> rfl
    have hcalls : (measureRSSI env freq 0 s (measureRSSI env freq 0 s w).2).2.setFrequency900Calls
        = w.setFrequency900Calls + 2 := by
      rw [hm, hm]
    rw [analyzeModulation_900_eq env freq s w hlo hhi ha]
    refine ⟨rfl, abs_floatSub_gt_twenty_iff _ _, fun h => if_pos h, fun h1 h2 => ?_,
      fun h1 h2 => ?_, ?_, hcalls⟩
    · simp only [if_neg h1, if_pos h2]
    · simp only [if_neg h1, if_neg h2]
    · simp only
      split_ifs <;> simp
  · intro ha
    unfold analyzeModulation
    simp [hlo, hhi, ha]

/-- C10, amended, at an instance: at 915.0 MHz with two steady samples of -50 dBm
the classifier answers LoRa. -/
theorem analyzeModulation_900_sampled_witness :
    (analyzeModulation Env.sample 915 0 RFScanner.ready World.zero).1 = MOD_LORA :=
  ((analyzeModulation_900_sampled Env.sample 915 RFScanner.ready World.zero
      (by norm_num) (by norm_num)).1 rfl).2.2.2.1
    (by
      rw [abs_floatSub_gt_twenty_iff]
      norm_num [measureRSSI, Env.sample, RFScanner.ready, RFScanner.new])
    (by norm_num [measureRSSI, Env.sample, RFScanner.ready, RFScanner.new])

/-! ## The sweeps -/

/-- C7. Sweep return value and strict threshold: on an available band, with
enough fuel, `scan900MHz` (resp. `scan2400MHz`) returns the number of visited
frequencies (141, resp. 101) whose sweep measurement is strictly greater than
-100 dBm; the value and the measurements are the same whatever the contents of
the registry; at each frequency a measurement above -100 is counted and upserted,
any other is neither: -100 itself is not, -99.9 is. -/
theorem sweep_return_value (env : Env) (fuel : Nat) (s : RFScanner) (w : World) :
    (s.sx1262Available = true → 142 ≤ fuel →
      ∃ r, scan900MHz env fuel s w = some r ∧ r.observed.length = 141 ∧
        r.detected = ((r.observed.filter (fun o => decide (o.2 > -100))).length : Int) ∧
        ∀ (signals : Fin MAX_DETECTED_SIGNALS → DetectedSignal) (signalCount : Int),
          ∃ r', scan900MHz env fuel
              { s with signals := signals, signalCount := signalCount } w = some r' ∧
            r'.detected = r.detected ∧ r'.observed = r.observed) ∧
    (s.sx1280Available = true → 102 ≤ fuel →
      ∃ r, scan2400MHz env fuel s w = some r ∧ r.observed.length = 101 ∧
        r.detected = ((r.observed.filter (fun o => decide (o.2 > -100))).length : Int) ∧
        ∀ (signals : Fin MAX_DETECTED_SIGNALS → DetectedSignal) (signalCount : Int),
          ∃ r', scan2400MHz env fuel
              { s with signals := signals, signalCount := signalCount } w = some r' ∧
            r'.detected = r.detected ∧ r'.observed = r.observed) ∧
    (∀ (band : Nat) (freq : ℚ) (st : Sweep),
      ((measureRSSI env freq band { st.scanner with currentFreq := freq } st.world).1 > -100 →
        (scanStep env band freq st).detected = st.detected + 1 ∧
        (scanStep env band freq st).scanner =
          (addSignal env freq
            (measureRSSI env freq band { st.scanner with currentFreq := freq } st.world).1
            (analyzeModulation env freq band { st.scanner with currentFreq := freq }
              (measureRSSI env freq band { st.scanner with currentFreq := freq } st.world).2).1
            band { st.scanner with currentFreq := freq }
            (analyzeModulation env freq band { st.scanner with currentFreq := freq }
              (measureRSSI env freq band
                { st.scanner with currentFreq := freq } st.world).2).2).1) ∧
      (¬ (measureRSSI env freq band { st.scanner with currentFreq := freq } st.world).1 > -100 →
        (scanStep env band freq st).detected = st.detected ∧
        (scanStep env band freq st).scanner = { st.scanner with currentFreq := freq } ∧
        (scanStep env band freq st).world.millisCalls = st.world.millisCalls) ∧
      ((measureRSSI env freq band { st.scanner with currentFreq := freq } st.world).1 = -100 →
        (scanStep env band freq st).detected = st.detected ∧
        (scanStep env band freq st).scanner.signals = st.scanner.signals ∧
        (scanStep env band freq st).scanner.signalCount = st.scanner.signalCount) ∧
      ((measureRSSI env freq band { st.scanner with currentFreq := freq } st.world).1
          = -999 / 10 →
        (scanStep env band freq st).detected = st.detected + 1)) := by
  have hstep : ∀ (band : Nat) (freq : ℚ) (st : Sweep),
      ((measureRSSI env freq band { st.scanner with currentFreq := freq } st.world).1 > -100 →
        (scanStep env band freq st).detected = st.detected + 1 ∧
        (scanStep env band freq st).scanner =
          (addSignal env freq
            (measureRSSI env freq band { st.scanner with currentFreq := freq } st.world).1
            (analyzeModulation env freq band { st.scanner with currentFreq := freq }
              (measureRSSI env freq band { st.scanner with currentFreq := freq } st.world).2).1
            band { st.scanner with currentFreq := freq }
            (analyzeModulation env freq band { st.scanner with currentFreq := freq }
              (measureRSSI env freq band
                { st.scanner with currentFreq := freq } st.world).2).2).1) ∧
      (¬ (measureRSSI env freq band { st.scanner with currentFreq := freq } st.world).1 > -100 →
        (scanStep env band freq st).detected = st.detected ∧
        (scanStep env band freq st).scanner = { st.scanner with currentFreq := freq } ∧
        (scanStep env band freq st).world.millisCalls = st.world.millisCalls) := by
    intro band freq st
    constructor
    · intro h
      unfold scanStep
      simp only [RSSI_THRESHOLD, if_pos h, and_self]
    · intro h
      unfold scanStep
      simp only [RSSI_THRESHOLD, if_neg h, true_and]
      unfold measureRSSI
      split_ifs <;> rfl
  have hagree : ∀ (band : Nat) (fs : List ℚ)
      (signals : Fin MAX_DETECTED_SIGNALS → DetectedSignal) (signalCount : Int),
      Sweep.Agree
        (scanFinish env (fs.foldl (fun acc f => scanStep env band f acc)
          (Sweep.start { s with signals := signals, signalCount := signalCount } w)))
        (scanFinish env (fs.foldl (fun acc f => scanStep env band f acc) (Sweep.start s w))) := by
    intro band fs signals signalCount
    apply scanFinish_agree
    apply foldl_scanStep_agree
    exact ⟨rfl, rfl, rfl, rfl, World.SameRadio.refl w⟩
  have hcount : ∀ (band : Nat) (fs : List ℚ),
      (scanFinish env (fs.foldl (fun acc f => scanStep env band f acc)
          (Sweep.start s w))).detected =
        (((scanFinish env (fs.foldl (fun acc f => scanStep env band f acc)
          (Sweep.start s w))).observed.filter (fun o => decide (o.2 > -100))).length : Int) := by
    intro band fs
    exact foldl_scanStep_detected env band fs (Sweep.start s w) rfl
  have hlen : ∀ (band : Nat) (fs : List ℚ),
      (scanFinish env (fs.foldl (fun acc f => scanStep env band f acc)
          (Sweep.start s w))).observed.length = fs.length := by
    intro band fs
    have := congrArg List.length (foldl_scanStep_observed env band fs (Sweep.start s w))
    simpa [Sweep.start, scanFinish] using this
  refine ⟨?_, ?_, ?_⟩
  · intro ha hfuel
    refine ⟨_, scan900MHz_eq env fuel s w ha hfuel, ?_, hcount 0 _, ?_⟩
    · rw [hlen, sweepFreqs_length]
    · intro signals signalCount
      refine ⟨_, scan900MHz_eq env fuel _ w ha hfuel, ?_, ?_⟩
      · exact (hagree 0 _ signals signalCount).1
      · exact (hagree 0 _ signals signalCount).2.1
  · intro ha hfuel
    refine ⟨_, scan2400MHz_eq env fuel s w ha hfuel, ?_, hcount 1 _, ?_⟩
    · rw [hlen, sweepFreqs_length]
    · intro signals signalCount
      refine ⟨_, scan2400MHz_eq env fuel _ w ha hfuel, ?_, ?_⟩
      · exact (hagree 1 _ signals signalCount).1
      · exact (hagree 1 _ signals signalCount).2.1
  · intro band freq st
    refine ⟨(hstep band freq st).1, (hstep band freq st).2, ?_, ?_⟩
    · intro h
      have hn : ¬ (measureRSSI env freq band
          { st.scanner with currentFreq := freq } st.world).1 > -100 := by
        rw [h]
        norm_num
      obtain ⟨h1, h2, _⟩ := (hstep band freq st).2 hn
      rw [h2]
      exact ⟨h1, rfl, rfl⟩
    · intro h
      have hp : (measureRSSI env freq band
          { st.scanner with currentFreq := freq } st.world).1 > -100 := by
        rw [h]
        norm_num
      exact ((hstep band freq st).1 hp).1

/-- C7, at an instance: a 900 MHz sweep of the fresh, ready scanner with 142
units of fuel. -/
theorem sweep_return_value_witness :
    ∃ r, scan900MHz Env.sample 142 RFScanner.ready World.zero = some r ∧
      r.observed.length = 141 ∧
      r.detected = ((r.observed.filter (fun o => decide (o.2 > -100))).length : Int) ∧
      ∀ (signals : Fin MAX_DETECTED_SIGNALS → DetectedSignal) (signalCount : Int),
        ∃ r', scan900MHz Env.sample 142
            { RFScanner.ready with signals := signals, signalCount := signalCount }
            World.zero = some r' ∧
          r'.detected = r.detected ∧ r'.observed = r.observed :=
  (sweep_return_value Env.sample 142 RFScanner.ready World.zero).1 rfl (le_refl _)

/-- C8. Sweep range, inclusive ends and termination: when the SX1262 is
available, `scan900MHz` returns for every fuel of at least 142 after measuring at
exactly the 141 frequencies `860.0 + 0.5 k`, `k = 0..140`, in strictly increasing
order, from 860.0 to 930.0 inclusive, and the cursor then reads 930.0; when the
SX1280 is available `scan2400MHz` returns for every fuel of at least 102 after
exactly the 101 frequencies `2400.0 + k`, `k = 0..100`, from 2400.0 to 2500.0,
and the cursor reads 2500.0; each iteration sets the cursor to its frequency and
records one measurement at it. -/
theorem sweep_range_and_termination (env : Env) (fuel : Nat) (s : RFScanner) (w : World) :
    (s.sx1262Available = true → 142 ≤ fuel →
      ∃ r, scan900MHz env fuel s w = some r ∧
        r.observed.map Prod.fst = sweepFreqs 860 (1 / 2) 141 ∧
        r.scanner.currentFreq = 930) ∧
    (s.sx1280Available = true → 102 ≤ fuel →
      ∃ r, scan2400MHz env fuel s w = some r ∧
        r.observed.map Prod.fst = sweepFreqs 2400 1 101 ∧
        r.scanner.currentFreq = 2500) ∧
    ((sweepFreqs 860 (1 / 2) 141).length = 141 ∧
      (sweepFreqs 860 (1 / 2) 141).Pairwise (fun a b => a < b) ∧
      (sweepFreqs 860 (1 / 2) 141).head? = some 860 ∧
      (sweepFreqs 860 (1 / 2) 141).getLast? = some 930 ∧
      ∀ f, f ∈ sweepFreqs 860 (1 / 2) 141 ↔
        ∃ k : Nat, k ≤ 140 ∧ f = 860 + (1 / 2) * (k : ℚ)) ∧
    ((sweepFreqs 2400 1 101).length = 101 ∧
      (sweepFreqs 2400 1 101).Pairwise (fun a b => a < b) ∧
      (sweepFreqs 2400 1 101).head? = some 2400 ∧
      (sweepFreqs 2400 1 101).getLast? = some 2500 ∧
      ∀ f, f ∈ sweepFreqs 2400 1 101 ↔ ∃ k : Nat, k ≤ 100 ∧ f = 2400 + 1 * (k : ℚ)) ∧
    (∀ (band : Nat) (freq : ℚ) (st : Sweep),
      (scanStep env band freq st).scanner.currentFreq = freq ∧
      (scanStep env band freq st).observed =
        st.observed ++ [(freq, (measureRSSI env freq band
          { st.scanner with currentFreq := freq } st.world).1)]) := by
  have hobs : ∀ (band : Nat) (fs : List ℚ),
      (scanFinish env (fs.foldl (fun acc f => scanStep env band f acc)
          (Sweep.start s w))).observed.map Prod.fst = fs := by
    intro band fs
    have := foldl_scanStep_observed env band fs (Sweep.start s w)
    simpa [Sweep.start, scanFinish] using this
  have hcur : ∀ (band : Nat) (fs : List ℚ) (last : ℚ),
      (scanFinish env ((fs ++ [last]).foldl (fun acc f => scanStep env band f acc)
          (Sweep.start s w))).scanner.currentFreq = last := by
    intro band fs last
    exact foldl_scanStep_currentFreq env band fs last (Sweep.start s w)
  refine ⟨?_, ?_, ⟨sweepFreqs_length _ _ _, sweepFreqs_increasing _ _ (by norm_num) _, ?_, ?_, ?_⟩,
    ⟨sweepFreqs_length _ _ _, sweepFreqs_increasing _ _ (by norm_num) _, ?_, ?_, ?_⟩, ?_⟩
  · intro ha hfuel
    refine ⟨_, scan900MHz_eq env fuel s w ha hfuel, hobs 0 _, ?_⟩
    rw [sweepFreqs_succ_last, hcur]
    norm_num [FREQ_900_START, FREQ_900_STEP]
  · intro ha hfuel
    refine ⟨_, scan2400MHz_eq env fuel s w ha hfuel, hobs 1 _, ?_⟩
    rw [sweepFreqs_succ_last, hcur]
    norm_num [FREQ_2400_START, FREQ_2400_STEP]
  · rw [sweepFreqs_succ]
    rfl
  · rw [sweepFreqs_succ_last, List.getLast?_append]
    norm_num
  · intro f
    rw [mem_sweepFreqs]
    constructor
    · rintro ⟨k, hk, rfl⟩
      exact ⟨k, by omega, rfl⟩
    · rintro ⟨k, hk, rfl⟩
      exact ⟨k, by omega, rfl⟩
  · rw [sweepFreqs_succ]
    rfl
  · rw [sweepFreqs_succ_last, List.getLast?_append]
    norm_num
  · intro f
    rw [mem_sweepFreqs]
    constructor
    · rintro ⟨k, hk, rfl⟩
      exact ⟨k, by omega, rfl⟩
    · rintro ⟨k, hk, rfl⟩
      exact ⟨k, by omega, rfl⟩
  · intro band freq st
    exact ⟨scanStep_currentFreq env band freq st, scanStep_observed env band freq st⟩

/-- C8, at an instance: both sweeps of the fresh, ready scanner, with exactly the
fuel needed. -/
theorem sweep_range_and_termination_witness :
    (∃ r, scan900MHz Env.sample 142 RFScanner.ready World.zero = some r ∧
        r.observed.map Prod.fst = sweepFreqs 860 (1 / 2) 141 ∧
        r.scanner.currentFreq = 930) ∧
    (∃ r, scan2400MHz Env.sample 102 RFScanner.ready World.zero = some r ∧
        r.observed.map Prod.fst = sweepFreqs 2400 1 101 ∧
        r.scanner.currentFreq = 2500) :=
  ⟨(sweep_range_and_termination Env.sample 142 RFScanner.ready World.zero).1 rfl (le_refl _),
   (sweep_range_and_termination Env.sample 102 RFScanner.ready World.zero).2.1 rfl
     (le_refl _)⟩

/-- C9. Unavailable band is a no-op: when `sx1262Available` is false
`scan900MHz` returns 0 and leaves the scanner (slots, `signalCount`, cursor,
both flags) and the world unchanged, so that it made no measurement, no upsert
and no expiry pass, and recorded no observation; likewise `scan2400MHz` when
`sx1280Available` is false; and the availability flag of one band changes
nothing in a sweep of the other band, but that flag in the result. -/
theorem sweep_unavailable_noop (env : Env) (fuel : Nat) (s : RFScanner) (w : World) :
    (s.sx1262Available = false →
      scan900MHz env fuel s w =
        some { scanner := s, world := w, detected := 0, observed := [] }) ∧
    (s.sx1280Available = false →
      scan2400MHz env fuel s w =
        some { scanner := s, world := w, detected := 0, observed := [] }) ∧
    (∀ b : Bool,
      scan900MHz env fuel { s with sx1280Available := b } w =
        (scan900MHz env fuel s w).map
          (fun r => { r with scanner := { r.scanner with sx1280Available := b } })) ∧
    (∀ b : Bool,
      scan2400MHz env fuel { s with sx1262Available := b } w =
        (scan2400MHz env fuel s w).map
          (fun r => { r with scanner := { r.scanner with sx1262Available := b } })) := by
  refine ⟨?_, ?_, ?_, ?_⟩
  · intro h
    unfold scan900MHz
    rw [if_pos h]
    rfl
  · intro h
    unfold scan2400MHz
    rw [if_pos h]
    rfl
  · intro b
    unfold scan900MHz
    by_cases h : s.sx1262Available = false
    · rw [if_pos h, if_pos h]
      rfl
    · rw [if_neg h, if_neg h]
      have := scanLoop_band0_set1280 env FREQ_900_END FREQ_900_STEP b fuel FREQ_900_START
        (Sweep.start s w)
      simp only [Sweep.start] at this ⊢
      rw [this, Option.map_map, Option.map_map]
      rfl
  · intro b
    unfold scan2400MHz
    by_cases h : s.sx1280Available = false
    · rw [if_pos h, if_pos h]
      rfl
    · rw [if_neg h, if_neg h]
      have := scanLoop_band1_set1262 env FREQ_2400_END FREQ_2400_STEP b fuel FREQ_2400_START
        (Sweep.start s w)
      simp only [Sweep.start] at this ⊢
      rw [this, Option.map_map, Option.map_map]
      rfl

/-- C9, at an instance: sweeping either band in the state left by the
constructor, where no radio is available. -/
theorem sweep_unavailable_noop_witness :
    scan900MHz Env.sample 142 RFScanner.new World.zero =
        some { scanner := RFScanner.new, world := World.zero, detected := 0, observed := [] } ∧
    scan2400MHz Env.sample 102 RFScanner.new World.zero =
        some { scanner := RFScanner.new, world := World.zero, detected := 0, observed := [] } :=
  ⟨(sweep_unavailable_noop Env.sample 142 RFScanner.new World.zero).1 rfl,
   (sweep_unavailable_noop Env.sample 102 RFScanner.new World.zero).2.1 rfl⟩

/-! ## The classifier: 2.4 GHz and the fixed branches -/

/-- C11 as stated fails: with the two samples `r1 = -(15 + 2^-20)`,
`r2 = -3 * 2^-22` (both `float` values) at 2440.0 MHz, `|r1 - r2| > 15` but the
answer is DSSS, not FHSS: the `float` difference is 15. -/
theorem analyzeModulation_2400_counterexample :
    (2400 : ℚ) ≤ 2440 ∧ (2440 : ℚ) ≤ 2483 ∧
    (measureRSSI Env.nearFifteen 2440 1 RFScanner.ready World.zero).1
      = -(15 + 1 / 1048576) ∧
    (measureRSSI Env.nearFifteen 2440 1 RFScanner.ready
      (measureRSSI Env.nearFifteen 2440 1 RFScanner.ready World.zero).2).1 = -(3 / 4194304) ∧
    roundF32 (-(15 + 1 / 1048576)) = -(15 + 1 / 1048576) ∧
    roundF32 (-(3 / 4194304)) = -(3 / 4194304) ∧
    |(-(15 + 1 / 1048576) : ℚ) - -(3 / 4194304)| > 15 ∧
    (analyzeModulation Env.nearFifteen 2440 1 RFScanner.ready World.zero).1 = MOD_DSSS := by
  have hr1 : (measureRSSI Env.nearFifteen 2440 1 RFScanner.ready World.zero).1
      = -(15 + 1 / 1048576) := by
    simp [measureRSSI, Env.nearFifteen, RFScanner.ready, RFScanner.new, World.zero]
  have hr2 : (measureRSSI Env.nearFifteen 2440 1 RFScanner.ready
      (measureRSSI Env.nearFifteen 2440 1 RFScanner.ready World.zero).2).1
      = -(3 / 4194304) := by
    simp [measureRSSI, Env.nearFifteen, RFScanner.ready, RFScanner.new, World.zero]
  refine ⟨by norm_num, by norm_num, hr1, hr2, ?_, ?_, ?_, ?_⟩
  · rw [roundF32_neg, roundF32_of_float _ 3 15728641 (by norm_num) (by norm_num)
      (by norm_num) (by norm_num) (by norm_num)]
  · rw [roundF32_neg, roundF32_of_float _ (-21) 12582912 (by norm_num) (by norm_num)
      (by norm_num) (by norm_num) (by norm_num)]
  · norm_num [lt_abs]
  · rw [analyzeModulation_2400_eq Env.nearFifteen 2440 RFScanner.ready World.zero
      (by norm_num) (by norm_num), hr1, hr2]
    have hn : ¬ |floatSub (-(15 + 1 / 1048576)) (-(3 / 4194304))| > 15 := by
      rw [abs_floatSub_gt_fifteen_iff]
      norm_num [lt_abs]
    simp only [if_neg hn]
    norm_num

/-- C11, amended. Classifier, 2.4 GHz sampled range: for every scanner state and
every frequency with `2400.0 <= freq <= 2483.0`, `analyzeModulation(freq, 1)`
calls `measureRSSI` twice at that frequency, giving `r1` then `r2`, and returns
FHSS if the single-precision difference of `r1` and `r2` exceeds 15 in absolute
value (that is, `|r1 - r2| > 15 + 2^-21`), otherwise DSSS if `r1 > -50`,
otherwise GFSK; the result is one of FHSS, DSSS, GFSK and never OFDM. -/
theorem analyzeModulation_2400_sampled (env : Env) (freq : ℚ) (s : RFScanner) (w : World)
    (hlo : 2400 ≤ freq) (hhi : freq ≤ 2483) :
    (analyzeModulation env freq 1 s w).2
      = (measureRSSI env freq 1 s (measureRSSI env freq 1 s w).2).2 ∧
    (|floatSub (measureRSSI env freq 1 s w).1
        (measureRSSI env freq 1 s (measureRSSI env freq 1 s w).2).1| > 15 ↔
      |(measureRSSI env freq 1 s w).1
        - (measureRSSI env freq 1 s (measureRSSI env freq 1 s w).2).1|
          > 15 + 1 / 2097152) ∧
    (|floatSub (measureRSSI env freq 1 s w).1
        (measureRSSI env freq 1 s (measureRSSI env freq 1 s w).2).1| > 15 →
      (analyzeModulation env freq 1 s w).1 = MOD_FHSS) ∧
    (¬ |floatSub (measureRSSI env freq 1 s w).1
        (measureRSSI env freq 1 s (measureRSSI env freq 1 s w).2).1| > 15 →
      (measureRSSI env freq 1 s w).1 > -50 →
      (analyzeModulation env freq 1 s w).1 = MOD_DSSS) ∧
    (¬ |floatSub (measureRSSI env freq 1 s w).1
        (measureRSSI env freq 1 s (measureRSSI env freq 1 s w).2).1| > 15 →
      ¬ (measureRSSI env freq 1 s w).1 > -50 →
      (analyzeModulation env freq 1 s w).1 = MOD_GFSK) ∧
    ((analyzeModulation env freq 1 s w).1 = MOD_FHSS ∨
      (analyzeModulation env freq 1 s w).1 = MOD_DSSS ∨
      (analyzeModulation env freq 1 s w).1 = MOD_GFSK) ∧
    (analyzeModulation env freq 1 s w).1 ≠ MOD_OFDM := by
  rw [analyzeModulation_2400_eq env freq s w hlo hhi]
  refine ⟨rfl, abs_floatSub_gt_fifteen_iff _ _, fun h => if_pos h, fun h1 h2 => ?_,
    fun h1 h2 => ?_, ?_, ?_⟩
  · simp only [if_neg h1, if_pos h2]
  · simp only [if_neg h1, if_neg h2]
  · simp only
    split_ifs <;> simp
  · simp only
    split_ifs <;> simp

/-- C11, amended, at an instance: at 2440.0 MHz with two steady samples of
-50 dBm the classifier answers GFSK (-50 is not above -50). -/
theorem analyzeModulation_2400_sampled_witness :
    (analyzeModulation Env.sample 2440 1 RFScanner.ready World.zero).1 = MOD_GFSK :=
  (analyzeModulation_2400_sampled Env.sample 2440 RFScanner.ready World.zero
      (by norm_num) (by norm_num)).2.2.2.2.1
    (by
      rw [abs_floatSub_gt_fifteen_iff]
      norm_num [measureRSSI, Env.sample, RFScanner.ready, RFScanner.new])
    (by norm_num [measureRSSI, Env.sample, RFScanner.ready, RFScanner.new])

/-- C12. Classifier, fixed branches: for every scanner state and every answer of
the radios, `analyzeModulation` returns LoRa for band 0 with
`868.0 <= freq <= 870.0`, FSK for band 0 with `freq` outside both
`[902.0, 928.0]` and `[868.0, 870.0]`, and Unknown for band 1 with `freq` outside
`[2400.0, 2483.0]`; in these cases the world is unchanged: no RSSI sample is
taken. -/
theorem analyzeModulation_fixed_branches (env : Env) (freq : ℚ) (s : RFScanner) (w : World) :
    (868 ≤ freq → freq ≤ 870 → analyzeModulation env freq 0 s w = (MOD_LORA, w)) ∧
    (¬ (902 ≤ freq ∧ freq ≤ 928) → ¬ (868 ≤ freq ∧ freq ≤ 870) →
      analyzeModulation env freq 0 s w = (MOD_FSK, w)) ∧
    (¬ (2400 ≤ freq ∧ freq ≤ 2483) → analyzeModulation env freq 1 s w = (MOD_UNKNOWN, w)) := by
  refine ⟨?_, ?_, ?_⟩
  · intro h1 h2
    have hn : ¬ (902 ≤ freq ∧ freq ≤ 928) := by
      rintro ⟨h, _⟩
      linarith
    unfold analyzeModulation
    simp only [if_true, if_neg hn, if_pos (And.intro h1 h2)]
  · intro h1 h2
    unfold analyzeModulation
    simp only [if_true, if_neg h1, if_neg h2]
  · intro h
    unfold analyzeModulation
    simp only [if_neg (show ¬ (1 : Nat) = 0 by decide), if_neg h]

/-- C12, at the instances of the specification: 868.5 MHz gives LoRa and
950.0 MHz gives FSK in band 0, 2490.0 MHz gives Unknown in band 1, with the world
unchanged. -/
theorem analyzeModulation_fixed_branches_witness :
    analyzeModulation Env.sample (1737 / 2) 0 RFScanner.ready World.zero
      = (MOD_LORA, World.zero) ∧
    analyzeModulation Env.sample 950 0 RFScanner.ready World.zero = (MOD_FSK, World.zero) ∧
    analyzeModulation Env.sample 2490 1 RFScanner.ready World.zero
      = (MOD_UNKNOWN, World.zero) :=
  ⟨(analyzeModulation_fixed_branches Env.sample (1737 / 2) RFScanner.ready World.zero).1
      (by norm_num) (by norm_num),
   (analyzeModulation_fixed_branches Env.sample 950 RFScanner.ready World.zero).2.1
      (by norm_num) (by norm_num),
   (analyzeModulation_fixed_branches Env.sample 2490 RFScanner.ready World.zero).2.2
      (by norm_num)⟩

/-! ## The registry: `clearSignals` -/

/-- C14. `clearSignals`: afterwards every one of the 10 slots is inactive (its
other fields are kept) and `getSignalCount` returns 0; an `addSignal` of any
signal that follows fills slot 0, leaves the other slots inactive, and makes the
count 1. -/
theorem clearSignals_then_add (s : RFScanner) :
    (∀ i, ((clearSignals s).signals i).active = false) ∧
    (∀ i, (clearSignals s).signals i = { s.signals i with active := false }) ∧
    getSignalCount (clearSignals s) = 0 ∧
    activeCount (clearSignals s) = 0 ∧
    ∀ (env : Env) (freq rssi : ℚ) (mod : ModulationType) (band : Nat) (w : World),
      (addSignal env freq rssi mod band (clearSignals s) w).1.signals 0 =
        { frequency := freq, rssi := rssi, modType := mod, band := band,
          timestamp := millis env w, active := true } ∧
      (∀ j, j ≠ 0 →
        ((addSignal env freq rssi mod band (clearSignals s) w).1.signals j).active = false) ∧
      getSignalCount (addSignal env freq rssi mod band (clearSignals s) w).1 = 1 ∧
      activeCount (addSignal env freq rssi mod band (clearSignals s) w).1 = 1 := by
  have hin : ∀ i, ((clearSignals s).signals i).active = false := by
    intro i
    rw [clearSignals_signals]
  refine ⟨hin, clearSignals_signals s, rfl, activeCount_eq_zero _ hin, ?_⟩
  intro env freq rssi mod band w
  rw [addSignal_of_empty env freq rssi mod band (clearSignals s) w hin]
  refine ⟨by simp, ?_, ?_, ?_⟩
  · intro j hj
    simp only [Function.update_noteq hj]
    exact hin j
  · simp [getSignalCount, clearSignals]
  · rw [← Nat.zero_add 1, ← activeCount_eq_zero _ hin]
    apply activeCount_activate (clearSignals s) _ 0 (hin 0) (by simp)
    intro j hj
    simp [Function.update_noteq hj]

/-! ## The registry: expiry across the wraparound of the clock -/

/-- C17. Expiry across wraparound: for every timestamp `T` of an active slot (a
32-bit value in the code) and every elapsed time `d < 2^32`, when the clock reads
`(T + d) mod 2^32` the age computed by `cleanupSignals` is `d`, and the slot stays
active if and only if `d <= 3000`, also when the reading is smaller than `T`. -/
theorem cleanupSignals_wraparound (env : Env) (s : RFScanner) (w : World)
    (i : Fin MAX_DETECTED_SIGNALS) (T d : Nat)
    (hd : d < 4294967296)
    (hact : (s.signals i).active = true) (hts : (s.signals i).timestamp = T)
    (hnow : millis env w = (T + d) % 4294967296) :
    u32sub (millis env w) (s.signals i).timestamp = d ∧
    (((cleanupSignals env s w).1.signals i).active = true ↔ d ≤ 3000) := by
  have hage : u32sub (millis env w) (s.signals i).timestamp = d := by
    rw [hnow, hts]
    unfold u32sub
    omega
  refine ⟨hage, ?_⟩
  rw [cleanupSignals_signals, hage]
  unfold SIGNAL_HOLD_TIME_MS
  by_cases h : d ≤ 3000
  · rw [if_neg (by omega)]
    simp [hact, h]
  · rw [if_pos ⟨hact, by omega⟩]
    simp [h]

/-- C17, at an instance: last seen 1000 ms before the counter wraps, the entry
is still active when the counter reads 1000, that is 2000 ms later. -/
theorem cleanupSignals_wraparound_witness :
    millis Env.sample { World.zero with millisCalls := 1000 }
        < (RFScanner.late.signals 0).timestamp ∧
    u32sub (millis Env.sample { World.zero with millisCalls := 1000 })
        (RFScanner.late.signals 0).timestamp = 2000 ∧
    (((cleanupSignals Env.sample RFScanner.late
        { World.zero with millisCalls := 1000 }).1.signals 0).active = true ↔ 2000 ≤ 3000) :=
  ⟨by simp [millis, Env.sample, World.zero, RFScanner.late],
   cleanupSignals_wraparound Env.sample RFScanner.late { World.zero with millisCalls := 1000 }
     0 4294966296 2000 (by norm_num)
     (by simp [RFScanner.late]) (by simp [RFScanner.late])
     (by simp [millis, Env.sample, World.zero])⟩

/-! ## The sweeps: rejected frequencies -/

theorem scanStep_flags (env : Env) (band : Nat) (freq : ℚ) (st : Sweep) :
    (scanStep env band freq st).scanner.sx1262Available = st.scanner.sx1262Available ∧
    (scanStep env band freq st).scanner.sx1280Available = st.scanner.sx1280Available := by
  unfold scanStep
  simp only
  split_ifs
  · exact ⟨(addSignal_frame _ _ _ _ _ _ _).2.1, (addSignal_frame _ _ _ _ _ _ _).2.2.1⟩
  · exact ⟨rfl, rfl⟩

theorem foldl_scanStep_flags (env : Env) (band : Nat) (fs : List ℚ) :
    ∀ st : Sweep,
      (fs.foldl (fun acc f => scanStep env band f acc) st).scanner.sx1262Available
        = st.scanner.sx1262Available ∧
      (fs.foldl (fun acc f => scanStep env band f acc) st).scanner.sx1280Available
        = st.scanner.sx1280Available := by
  induction fs with
  | nil => intro st; exact ⟨rfl, rfl⟩
  | cons f fs ih =>
    intro st
    rw [List.foldl_cons]
    exact ⟨(ih _).1.trans (scanStep_flags env band f st).1,
      (ih _).2.trans (scanStep_flags env band f st).2⟩

theorem scanFinish_flags (env : Env) (st : Sweep) :
    (scanFinish env st).scanner.sx1262Available = st.scanner.sx1262Available ∧
    (scanFinish env st).scanner.sx1280Available = st.scanner.sx1280Available :=
  ⟨rfl, rfl⟩

/-- C13. Transient measurement failure is treated as no signal: when the radio
of an available band rejects `setFrequency`, `measureRSSI` returns -120 after
that one call, without calling `getRSSI`; the iteration of the sweep at that
frequency then counts nothing, upserts nothing and records -120; whatever the
radio answers, a sweep with enough fuel visits every frequency of the band and
leaves both availability flags unchanged. -/
theorem measurement_failure_is_no_signal (env : Env) (fuel : Nat) (s : RFScanner)
    (w : World) :
    (∀ freq : ℚ, s.sx1262Available = true →
      env.setFrequency900 w.setFrequency900Calls freq = false →
      measureRSSI env freq 0 s w =
        (-120, { w with setFrequency900Calls := w.setFrequency900Calls + 1 }) ∧
      (measureRSSI env freq 0 s w).2.getRSSI900Calls = w.getRSSI900Calls) ∧
    (∀ freq : ℚ, s.sx1280Available = true →
      env.setFrequency2400 w.setFrequency2400Calls freq = false →
      measureRSSI env freq 1 s w =
        (-120, { w with setFrequency2400Calls := w.setFrequency2400Calls + 1 }) ∧
      (measureRSSI env freq 1 s w).2.getRSSI2400Calls = w.getRSSI2400Calls) ∧
    (∀ (freq : ℚ) (st : Sweep), st.scanner.sx1262Available = true →
      env.setFrequency900 st.world.setFrequency900Calls freq = false →
      scanStep env 0 freq st =
        { scanner := { st.scanner with currentFreq := freq }
          world := { st.world with
            setFrequency900Calls := st.world.setFrequency900Calls + 1 }
          detected := st.detected
          observed := st.observed ++ [(freq, -120)] }) ∧
    (∀ (freq : ℚ) (st : Sweep), st.scanner.sx1280Available = true →
      env.setFrequency2400 st.world.setFrequency2400Calls freq = false →
      scanStep env 1 freq st =
        { scanner := { st.scanner with currentFreq := freq }
          world := { st.world with
            setFrequency2400Calls := st.world.setFrequency2400Calls + 1 }
          detected := st.detected
          observed := st.observed ++ [(freq, -120)] }) ∧
    (s.sx1262Available = true → 142 ≤ fuel →
      ∃ r, scan900MHz env fuel s w = some r ∧
        r.observed.map Prod.fst = sweepFreqs 860 (1 / 2) 141 ∧
        r.scanner.sx1262Available = true ∧
        r.scanner.sx1280Available = s.sx1280Available) ∧
    (s.sx1280Available = true → 102 ≤ fuel →
      ∃ r, scan2400MHz env fuel s w = some r ∧
        r.observed.map Prod.fst = sweepFreqs 2400 1 101 ∧
        r.scanner.sx1280Available = true ∧
        r.scanner.sx1262Available = s.sx1262Available) := by
  have hm0 : ∀ (freq : ℚ) (s0 : RFScanner) (w0 : World), s0.sx1262Available = true →
      env.setFrequency900 w0.setFrequency900Calls freq = false →
      measureRSSI env freq 0 s0 w0 =
        (-120, { w0 with setFrequency900Calls := w0.setFrequency900Calls + 1 }) := by
    intro freq s0 w0 ha hrej
    unfold measureRSSI
    simp [ha, hrej]
  have hm1 : ∀ (freq : ℚ) (s0 : RFScanner) (w0 : World), s0.sx1280Available = true →
      env.setFrequency2400 w0.setFrequency2400Calls freq = false →
      measureRSSI env freq 1 s0 w0 =
        (-120, { w0 with setFrequency2400Calls := w0.setFrequency2400Calls + 1 }) := by
    intro freq s0 w0 ha hrej
    unfold measureRSSI
    simp [ha, hrej]
  have hobs : ∀ (band : Nat) (fs : List ℚ),
      (scanFinish env (fs.foldl (fun acc f => scanStep env band f acc)
          (Sweep.start s w))).observed.map Prod.fst = fs := by
    intro band fs
    have := foldl_scanStep_observed env band fs (Sweep.start s w)
    simpa [Sweep.start, scanFinish] using this
  refine ⟨?_, ?_, ?_, ?_, ?_, ?_⟩
  · intro freq ha hrej
    rw [hm0 freq s w ha hrej]
    exact ⟨rfl, rfl⟩
  · intro freq ha hrej
    rw [hm1 freq s w ha hrej]
    exact ⟨rfl, rfl⟩
  · intro freq st ha hrej
    have h := hm0 freq { st.scanner with currentFreq := freq } st.world ha hrej
    unfold scanStep
    simp only [h, RSSI_THRESHOLD]
    rw [if_neg (by norm_num)]
  · intro freq st ha hrej
    have h := hm1 freq { st.scanner with currentFreq := freq } st.world ha hrej
    unfold scanStep
    simp only [h, RSSI_THRESHOLD]
    rw [if_neg (by norm_num)]
  · intro ha hfuel
    have hfl := foldl_scanStep_flags env 0 (sweepFreqs FREQ_900_START FREQ_900_STEP 141)
      (Sweep.start s w)
    refine ⟨_, scan900MHz_eq env fuel s w ha hfuel, hobs 0 _, ?_, ?_⟩
    · rw [(scanFinish_flags env _).1, hfl.1]
      exact ha
    · rw [(scanFinish_flags env _).2, hfl.2]
      rfl
  · intro ha hfuel
    have hfl := foldl_scanStep_flags env 1 (sweepFreqs FREQ_2400_START FREQ_2400_STEP 101)
      (Sweep.start s w)
    refine ⟨_, scan2400MHz_eq env fuel s w ha hfuel, hobs 1 _, ?_, ?_⟩
    · rw [(scanFinish_flags env _).2, hfl.2]
      exact ha
    · rw [(scanFinish_flags env _).1, hfl.1]
      rfl

/-- C13, at an instance: the SX1262 rejects 860.0 MHz at the start of a sweep of
the ready scanner; the sweep still visits the 141 frequencies. -/
theorem measurement_failure_is_no_signal_witness :
    scanStep Env.rejecting 0 860 (Sweep.start RFScanner.ready World.zero) =
      { scanner := { RFScanner.ready with currentFreq := 860 }
        world := { World.zero with setFrequency900Calls := 0 + 1 }
        detected := 0
        observed := [] ++ [(860, -120)] } ∧
    ∃ r, scan900MHz Env.rejecting 142 RFScanner.ready World.zero = some r ∧
      r.observed.map Prod.fst = sweepFreqs 860 (1 / 2) 141 ∧
      r.scanner.sx1262Available = true ∧
      r.scanner.sx1280Available = RFScanner.ready.sx1280Available :=
  ⟨(measurement_failure_is_no_signal Env.rejecting 142 RFScanner.ready World.zero).2.2.1
      860 (Sweep.start RFScanner.ready World.zero) rfl rfl,
   (measurement_failure_is_no_signal Env.rejecting 142 RFScanner.ready World.zero).2.2.2.2.1
      rfl (le_refl _)⟩

/-! ## The count of active signals -/

theorem cleanupLoop_count (now : Nat) :
    ∀ (n i : Nat) (signals : Fin MAX_DETECTED_SIGNALS → DetectedSignal) (c : Int),
      (cleanupLoop now n i signals c).2 =
        c + ((Finset.univ.filter (fun j : Fin MAX_DETECTED_SIGNALS =>
          i ≤ j.val ∧ j.val < i + n ∧ (signals j).active = true ∧
            ¬ u32sub now (signals j).timestamp > SIGNAL_HOLD_TIME_MS)).card : Int) := by
  intro n
  induction n with
  | zero =>
    intro i signals c
    have hempty : Finset.univ.filter (fun j : Fin MAX_DETECTED_SIGNALS =>
        i ≤ j.val ∧ j.val < i + 0 ∧ (signals j).active = true ∧
          ¬ u32sub now (signals j).timestamp > SIGNAL_HOLD_TIME_MS) = ∅ := by
      rw [Finset.filter_eq_empty_iff]
      intro j _ h
      omega
    rw [hempty]
    simp [cleanupLoop]
  | succ n ih =>
    intro i signals c
    unfold cleanupLoop
    by_cases hi : i < MAX_DETECTED_SIGNALS
    · rw [dif_pos hi]
      by_cases ha : (signals ⟨i, hi⟩).active = true
      · rw [if_pos ha]
        by_cases hx : u32sub now (signals ⟨i, hi⟩).timestamp > SIGNAL_HOLD_TIME_MS
        · rw [if_pos hx, ih]
          congr 2
          congr 1
          ext j
          simp only [Finset.mem_filter, Finset.mem_univ, true_and]
          by_cases hji : j = ⟨i, hi⟩
          · subst hji
            constructor
            · rintro ⟨h1, _⟩
              simp at h1
            · rintro ⟨_, _, _, h4⟩
              exact absurd hx h4
          · have hne : j.val ≠ i := fun h => hji (Fin.ext h)
            rw [Function.update_noteq hji]
            constructor
            · rintro ⟨h1, h2, h3, h4⟩
              exact ⟨by omega, by omega, h3, h4⟩
            · rintro ⟨h1, h2, h3, h4⟩
              exact ⟨by omega, by omega, h3, h4⟩
        · rw [if_neg hx, ih]
          have hset : Finset.univ.filter (fun j : Fin MAX_DETECTED_SIGNALS =>
              i ≤ j.val ∧ j.val < i + (n + 1) ∧ (signals j).active = true ∧
                ¬ u32sub now (signals j).timestamp > SIGNAL_HOLD_TIME_MS)
              = insert ⟨i, hi⟩ (Finset.univ.filter (fun j : Fin MAX_DETECTED_SIGNALS =>
                i + 1 ≤ j.val ∧ j.val < i + 1 + n ∧ (signals j).active = true ∧
                  ¬ u32sub now (signals j).timestamp > SIGNAL_HOLD_TIME_MS)) := by
            ext j
            simp only [Finset.mem_filter, Finset.mem_univ, true_and, Finset.mem_insert]
            by_cases hji : j = ⟨i, hi⟩
            · subst hji
              constructor
              · intro _
                exact Or.inl rfl
              · intro _
                exact ⟨le_refl _, by simp, ha, hx⟩
            · have hne : j.val ≠ i := fun h => hji (Fin.ext h)
              constructor
              · rintro ⟨h1, h2, h3, h4⟩
                exact Or.inr ⟨by omega, by omega, h3, h4⟩
              · rintro (h | ⟨h1, h2, h3, h4⟩)
                · exact absurd h hji
                · exact ⟨by omega, by omega, h3, h4⟩
          have hnot : (⟨i, hi⟩ : Fin MAX_DETECTED_SIGNALS) ∉
              Finset.univ.filter (fun j : Fin MAX_DETECTED_SIGNALS =>
                i + 1 ≤ j.val ∧ j.val < i + 1 + n ∧ (signals j).active = true ∧
                  ¬ u32sub now (signals j).timestamp > SIGNAL_HOLD_TIME_MS) := by
            simp
          rw [hset, Finset.card_insert_of_not_mem hnot]
          push_cast
          ring
      · rw [if_neg ha, ih]
        congr 2
        congr 1
        ext j
        simp only [Finset.mem_filter, Finset.mem_univ, true_and]
        by_cases hji : j = ⟨i, hi⟩
        · subst hji
          constructor
          · rintro ⟨h1, _⟩
            simp at h1
          · rintro ⟨_, _, h3, _⟩
            exact absurd h3 ha
        · have hne : j.val ≠ i := fun h => hji (Fin.ext h)
          constructor
          · rintro ⟨h1, h2, h3, h4⟩
            exact ⟨by omega, by omega, h3, h4⟩
          · rintro ⟨h1, h2, h3, h4⟩
            exact ⟨by omega, by omega, h3, h4⟩
    · rw [dif_neg hi]
      have hempty : Finset.univ.filter (fun j : Fin MAX_DETECTED_SIGNALS =>
          i ≤ j.val ∧ j.val < i + (n + 1) ∧ (signals j).active = true ∧
            ¬ u32sub now (signals j).timestamp > SIGNAL_HOLD_TIME_MS) = ∅ := by
        rw [Finset.filter_eq_empty_iff]
        intro j _ h
        have := j.isLt
        omega
      rw [hempty]
      simp

theorem countExact_cleanupSignals (env : Env) (s : RFScanner) (w : World) :
    CountExact (cleanupSignals env s w).1 := by
  unfold CountExact activeCount
  have hc : (cleanupSignals env s w).1.signalCount =
      (cleanupLoop (millis env w) MAX_DETECTED_SIGNALS 0 s.signals 0).2 := rfl
  rw [hc, cleanupLoop_count, zero_add]
  congr 2
  ext j
  simp only [Finset.mem_filter, Finset.mem_univ, true_and]
  rw [cleanupSignals_signals]
  have := j.isLt
  by_cases hx : (s.signals j).active = true ∧
      u32sub (millis env w) (s.signals j).timestamp > SIGNAL_HOLD_TIME_MS
  · rw [if_pos hx]
    simp [hx.2]
  · rw [if_neg hx]
    constructor
    · rintro ⟨_, _, h3, _⟩
      exact h3
    · intro h3
      exact ⟨Nat.zero_le _, by omega, h3, fun h4 => hx ⟨h3, h4⟩⟩

theorem countExact_addSignal (env : Env) (freq rssi : ℚ) (mod : ModulationType) (band : Nat)
    (s : RFScanner) (w : World) (hs : CountExact s) :
    CountExact (addSignal env freq rssi mod band s w).1 := by
  unfold CountExact at hs ⊢
  cases hf : firstSlot (fun i => sameSignal freq band (s.signals i)) with
  | some i =>
    rw [addSignal_of_match env freq rssi mod band s w i hf]
    have : activeCount
        { s with
          signals := Function.update s.signals i
            { s.signals i with rssi := rssi, modType := mod, timestamp := millis env w } }
        = activeCount s := by
      apply activeCount_congr
      intro j
      by_cases hj : j = i
      · subst hj
        simp
      · simp [Function.update_noteq hj]
    simp only [this]
    exact hs
  | none =>
    cases hg : firstSlot (fun i => !(s.signals i).active) with
    | some i =>
      rw [addSignal_of_free env freq rssi mod band s w i hf hg]
      have hi : (s.signals i).active = false := by
        simpa using ((firstSlot_eq_some_iff _ i).mp hg).1
      have : activeCount
          { s with
            signals := Function.update s.signals i
              { frequency := freq, rssi := rssi, modType := mod, band := band,
                timestamp := millis env w, active := true }
            signalCount := s.signalCount + 1 }
          = activeCount s + 1 := by
        apply activeCount_activate s _ i hi (by simp)
        intro j hj
        simp [Function.update_noteq hj]
      simp only [this]
      rw [hs]
      push_cast
      rfl
    | none =>
      rw [addSignal_of_full env freq rssi mod band s w hf hg]
      have hall := (firstSlot_free_none_iff s).mp hg
      have h1 := activeCount_eq_max s hall
      have h2 : activeCount
          { s with
            signals := Function.update s.signals
              (oldestLoop s.signals MAX_DETECTED_SIGNALS 0 (millis env w) 0)
              { frequency := freq, rssi := rssi, modType := mod, band := band,
                timestamp := millis env (tick w), active := true } }
          = MAX_DETECTED_SIGNALS := by
        apply activeCount_eq_max
        intro j
        by_cases hj : j = oldestLoop s.signals MAX_DETECTED_SIGNALS 0 (millis env w) 0
        · subst hj
          simp
        · simp [Function.update_noteq hj, hall j]
      simp only [h2]
      rw [hs, h1]

theorem activeCount_le (s : RFScanner) : activeCount s ≤ MAX_DETECTED_SIGNALS := by
  unfold activeCount
  calc (Finset.univ.filter (fun i => (s.signals i).active = true)).card
      ≤ (Finset.univ : Finset (Fin MAX_DETECTED_SIGNALS)).card := Finset.card_filter_le _ _
    _ = MAX_DETECTED_SIGNALS := by simp

theorem countExact_of_scan (env : Env) (o : Option Sweep) (r : Sweep)
    (h : o.map (scanFinish env) = some r) : CountExact r.scanner := by
  cases o with
  | none => simp at h
  | some st =>
    simp only [Option.map_some', Option.some.injEq] at h
    subst h
    exact countExact_cleanupSignals env st.scanner st.world

/-- C16. Count invariant: in every scanner state reachable from the constructor
by calls of `begin`, `addSignal`, `cleanupSignals`, `clearSignals` and the two
sweeps, `signalCount` equals the number of slots whose active flag is set, and
lies between 0 and 10. -/
theorem signalCount_invariant (s : RFScanner) (h : ReachableBySweeps s) :
    s.signalCount = (activeCount s : Int) ∧ 0 ≤ s.signalCount ∧ s.signalCount ≤ 10 := by
  have hexact : CountExact s := by
    induction h with
    | init =>
      unfold CountExact
      rw [activeCount_eq_zero RFScanner.new (fun _ => rfl)]
      rfl
    | begin ok900 ok2400 _ ih => exact ih
    | add env w freq rssi mod band _ ih => exact countExact_addSignal env freq rssi mod band _ w ih
    | cleanup env w _ ih => exact countExact_cleanupSignals env _ w
    | @clear s0 _ ih =>
      unfold CountExact
      rw [activeCount_eq_zero (clearSignals s0)
        (fun i => by rw [clearSignals_signals])]
      rfl
    | @sweep900 env fuel w s0 r _ hr ih =>
      unfold scan900MHz at hr
      by_cases ha : s0.sx1262Available = false
      · rw [if_pos ha] at hr
        have : r = Sweep.start s0 w := (Option.some.inj hr).symm
        subst this
        exact ih
      · rw [if_neg ha] at hr
        exact countExact_of_scan env _ r hr
    | @sweep2400 env fuel w s0 r _ hr ih =>
      unfold scan2400MHz at hr
      by_cases ha : s0.sx1280Available = false
      · rw [if_pos ha] at hr
        have : r = Sweep.start s0 w := (Option.some.inj hr).symm
        subst this
        exact ih
      · rw [if_neg ha] at hr
        exact countExact_of_scan env _ r hr
  unfold CountExact at hexact
  have hle := activeCount_le s
  refine ⟨hexact, ?_, ?_⟩
  · rw [hexact]
    exact Int.natCast_nonneg _
  · rw [hexact]
    exact_mod_cast hle

/-- C16, at an instance: the state left by a 900 MHz sweep with 142 units of
fuel, after a `begin` in which both radios initialised. -/
theorem signalCount_invariant_witness :
    ∃ r, scan900MHz Env.sample 142 (begin true true RFScanner.new).2 World.zero = some r ∧
      (r.scanner.signalCount = (activeCount r.scanner : Int) ∧
        0 ≤ r.scanner.signalCount ∧ r.scanner.signalCount ≤ 10) :=
  ⟨_, scan900MHz_eq Env.sample 142 (begin true true RFScanner.new).2 World.zero rfl
      (le_refl _),
    signalCount_invariant _
      (ReachableBySweeps.sweep900 Env.sample 142 World.zero _
        (ReachableBySweeps.begin true true ReachableBySweeps.init)
        (scan900MHz_eq Env.sample 142 (begin true true RFScanner.new).2 World.zero rfl
          (le_refl _)))⟩

/-! ## The sweep against its specification -/

theorem measureRSSI_cursor (env : Env) (freq : ℚ) (band : Nat) (s : RFScanner) (w : World)
    (c : ℚ) :
    measureRSSI env freq band { s with currentFreq := c } w = measureRSSI env freq band s w :=
  rfl

theorem analyzeModulation_cursor (env : Env) (freq : ℚ) (band : Nat) (s : RFScanner)
    (w : World) (c : ℚ) :
    analyzeModulation env freq band { s with currentFreq := c } w
      = analyzeModulation env freq band s w :=
  rfl

theorem measureRSSI_millisCalls (env : Env) (freq : ℚ) (band : Nat) (s : RFScanner)
    (w : World) : (measureRSSI env freq band s w).2.millisCalls = w.millisCalls := by
  unfold measureRSSI
  split_ifs <;> rfl

theorem analyzeModulation_millisCalls (env : Env) (freq : ℚ) (band : Nat) (s : RFScanner)
    (w : World) : (analyzeModulation env freq band s w).2.millisCalls = w.millisCalls := by
  unfold analyzeModulation
  simp only
  split_ifs <;> simp only [measureRSSI_millisCalls]

theorem scanStep_hit (env : Env) (band : Nat) (freq : ℚ) (st : Sweep)
    (h : (measureRSSI env freq band st.scanner st.world).1 > RSSI_THRESHOLD) :
    scanStep env band freq st =
      { scanner := (addSignal env freq (measureRSSI env freq band st.scanner st.world).1
          (analyzeModulation env freq band st.scanner
            (measureRSSI env freq band st.scanner st.world).2).1 band
          { st.scanner with currentFreq := freq }
          (analyzeModulation env freq band st.scanner
            (measureRSSI env freq band st.scanner st.world).2).2).1
        world := (addSignal env freq (measureRSSI env freq band st.scanner st.world).1
          (analyzeModulation env freq band st.scanner
            (measureRSSI env freq band st.scanner st.world).2).1 band
          { st.scanner with currentFreq := freq }
          (analyzeModulation env freq band st.scanner
            (measureRSSI env freq band st.scanner st.world).2).2).2
        detected := st.detected + 1
        observed := st.observed ++ [(freq, (measureRSSI env freq band st.scanner st.world).1)] } := by
  unfold scanStep
  simp only [measureRSSI_cursor, analyzeModulation_cursor, if_pos h]

theorem scanStep_miss (env : Env) (band : Nat) (freq : ℚ) (st : Sweep)
    (h : ¬ (measureRSSI env freq band st.scanner st.world).1 > RSSI_THRESHOLD) :
    scanStep env band freq st =
      { scanner := { st.scanner with currentFreq := freq }
        world := (measureRSSI env freq band st.scanner st.world).2
        detected := st.detected
        observed := st.observed ++ [(freq, (measureRSSI env freq band st.scanner st.world).1)] } := by
  unfold scanStep
  simp only [measureRSSI_cursor, if_neg h]

theorem sweepHits_cons_hit (env : Env) (band : Nat) (s : RFScanner) (w : World) (freq : ℚ)
    (fs : List ℚ) (h : (measureRSSI env freq band s w).1 > RSSI_THRESHOLD) :
    sweepHits env band s w (freq :: fs) =
      (freq, (measureRSSI env freq band s w).1,
          (analyzeModulation env freq band s (measureRSSI env freq band s w).2).1) ::
        sweepHits env band s
          (analyzeModulation env freq band s (measureRSSI env freq band s w).2).2 fs := by
  simp only [sweepHits, if_pos h]

theorem sweepHits_cons_miss (env : Env) (band : Nat) (s : RFScanner) (w : World) (freq : ℚ)
    (fs : List ℚ) (h : ¬ (measureRSSI env freq band s w).1 > RSSI_THRESHOLD) :
    sweepHits env band s w (freq :: fs) =
      sweepHits env band s (measureRSSI env freq band s w).2 fs := by
  simp only [sweepHits, if_neg h]

theorem sweepHits_congr (env : Env) (band : Nat) (s s' : RFScanner)
    (h62 : s.sx1262Available = s'.sx1262Available)
    (h80 : s.sx1280Available = s'.sx1280Available) (fs : List ℚ) :
    ∀ w w' : World, World.SameRadio w w' →
      sweepHits env band s w fs = sweepHits env band s' w' fs := by
  induction fs with
  | nil => intro w w' _; rfl
  | cons f fs ih =>
    intro w w' hw
    have hm := measureRSSI_sameRadio env f band s s' w w' h62 h80 hw
    have ha := analyzeModulation_sameRadio env f band s s' _ _ h62 h80 hm.2
    by_cases hit : (measureRSSI env f band s w).1 > RSSI_THRESHOLD
    · have hit' : (measureRSSI env f band s' w').1 > RSSI_THRESHOLD := by
        rw [← hm.1]
        exact hit
      rw [sweepHits_cons_hit env band s w f fs hit, sweepHits_cons_hit env band s' w' f fs hit',
        ih _ _ ha.2, hm.1, ha.1]
    · have hit' : ¬ (measureRSSI env f band s' w').1 > RSSI_THRESHOLD := by
        rw [← hm.1]
        exact hit
      rw [sweepHits_cons_miss env band s w f fs hit,
        sweepHits_cons_miss env band s' w' f fs hit', ih _ _ hm.2]

theorem sweepHits_sublist (env : Env) (band : Nat) (s : RFScanner) (fs : List ℚ) :
    ∀ w : World, List.Sublist ((sweepHits env band s w fs).map (fun h => h.1)) fs := by
  induction fs with
  | nil => intro w; exact List.Sublist.slnil
  | cons f fs ih =>
    intro w
    by_cases hit : (measureRSSI env f band s w).1 > RSSI_THRESHOLD
    · rw [sweepHits_cons_hit env band s w f fs hit, List.map_cons]
      exact List.Sublist.cons₂ f (ih _)
    · rw [sweepHits_cons_miss env band s w f fs hit]
      exact List.Sublist.cons f (ih _)

theorem addSignal_registry_congr (env : Env) (freq rssi : ℚ) (mod : ModulationType)
    (band : Nat) (s s' : RFScanner) (w w' : World)
    (hsig : s.signals = s'.signals) (hcount : s.signalCount = s'.signalCount)
    (hclock : w.millisCalls = w'.millisCalls) :
    (addSignal env freq rssi mod band s w).1.signals
        = (addSignal env freq rssi mod band s' w').1.signals ∧
    (addSignal env freq rssi mod band s w).1.signalCount
        = (addSignal env freq rssi mod band s' w').1.signalCount ∧
    (addSignal env freq rssi mod band s w).2.millisCalls
        = (addSignal env freq rssi mod band s' w').2.millisCalls := by
  have hm : millis env w = millis env w' := by
    unfold millis
    rw [hclock]
  have hm2 : millis env (tick w) = millis env (tick w') := by
    unfold millis tick
    simp only [hclock]
  have ht : (tick w).millisCalls = (tick w').millisCalls := by
    unfold tick
    simp only [hclock]
  have ht2 : (tick (tick w)).millisCalls = (tick (tick w')).millisCalls := by
    unfold tick
    simp only [hclock]
  cases hf : firstSlot (fun i => sameSignal freq band (s.signals i)) with
  | some i =>
    have hf' : firstSlot (fun i => sameSignal freq band (s'.signals i)) = some i := by
      rw [← hsig]
      exact hf
    rw [addSignal_of_match env freq rssi mod band s w i hf,
      addSignal_of_match env freq rssi mod band s' w' i hf']
    simp only [hsig, hm, hcount, ht, and_self]
  | none =>
    have hf' : firstSlot (fun i => sameSignal freq band (s'.signals i)) = none := by
      rw [← hsig]
      exact hf
    cases hg : firstSlot (fun i => !(s.signals i).active) with
    | some i =>
      have hg' : firstSlot (fun i => !(s'.signals i).active) = some i := by
        rw [← hsig]
        exact hg
      rw [addSignal_of_free env freq rssi mod band s w i hf hg,
        addSignal_of_free env freq rssi mod band s' w' i hf' hg']
      simp only [hsig, hm, hcount, ht, and_self]
    | none =>
      have hg' : firstSlot (fun i => !(s'.signals i).active) = none := by
        rw [← hsig]
        exact hg
      rw [addSignal_of_full env freq rssi mod band s w hf hg,
        addSignal_of_full env freq rssi mod band s' w' hf' hg']
      simp only [hsig, hm, hm2, hcount, ht2, and_self]

theorem cleanupSignals_registry_congr (env : Env) (s s' : RFScanner) (w w' : World)
    (hsig : s.signals = s'.signals) (hclock : w.millisCalls = w'.millisCalls) :
    (cleanupSignals env s w).1.signals = (cleanupSignals env s' w').1.signals ∧
    (cleanupSignals env s w).1.signalCount = (cleanupSignals env s' w').1.signalCount ∧
    (cleanupSignals env s w).2.millisCalls = (cleanupSignals env s' w').2.millisCalls := by
  have hm : millis env w = millis env w' := by
    unfold millis
    rw [hclock]
  unfold cleanupSignals tick
  simp only [hsig, hm, hclock, and_self]

theorem foldl_scanStep_refines (env : Env) (band : Nat) (fs : List ℚ) :
    ∀ (st : Sweep) (s0 : RFScanner) (w0 : World),
      st.scanner.signals = s0.signals → st.scanner.signalCount = s0.signalCount →
      st.world.millisCalls = w0.millisCalls →
      (fs.foldl (fun acc f => scanStep env band f acc) st).scanner.signals
        = (upsertAll env band (sweepHits env band st.scanner st.world fs) s0 w0).1.signals ∧
      (fs.foldl (fun acc f => scanStep env band f acc) st).scanner.signalCount
        = (upsertAll env band (sweepHits env band st.scanner st.world fs) s0 w0).1.signalCount ∧
      (fs.foldl (fun acc f => scanStep env band f acc) st).world.millisCalls
        = (upsertAll env band (sweepHits env band st.scanner st.world fs) s0 w0).2.millisCalls ∧
      (fs.foldl (fun acc f => scanStep env band f acc) st).observed.filter
          (fun o => decide (o.2 > RSSI_THRESHOLD))
        = st.observed.filter (fun o => decide (o.2 > RSSI_THRESHOLD)) ++
          (sweepHits env band st.scanner st.world fs).map (fun h => (h.1, h.2.1)) := by
  induction fs with
  | nil =>
    intro st s0 w0 h1 h2 h3
    simp [sweepHits, upsertAll, h1, h2, h3]
  | cons f fs ih =>
    intro st s0 w0 h1 h2 h3
    rw [List.foldl_cons]
    by_cases hit : (measureRSSI env f band st.scanner st.world).1 > RSSI_THRESHOLD
    · have hst := scanStep_hit env band f st hit
      have hreg := addSignal_registry_congr env f
        (measureRSSI env f band st.scanner st.world).1
        (analyzeModulation env f band st.scanner
          (measureRSSI env f band st.scanner st.world).2).1 band
        { st.scanner with currentFreq := f } s0
        (analyzeModulation env f band st.scanner
          (measureRSSI env f band st.scanner st.world).2).2 w0
        h1 h2
        (by rw [analyzeModulation_millisCalls, measureRSSI_millisCalls]; exact h3)
      have hfr := addSignal_frame env f
        (measureRSSI env f band st.scanner st.world).1
        (analyzeModulation env f band st.scanner
          (measureRSSI env f band st.scanner st.world).2).1 band
        { st.scanner with currentFreq := f }
        (analyzeModulation env f band st.scanner
          (measureRSSI env f band st.scanner st.world).2).2
      have hrad := addSignal_sameRadio env f
        (measureRSSI env f band st.scanner st.world).1
        (analyzeModulation env f band st.scanner
          (measureRSSI env f band st.scanner st.world).2).1 band
        { st.scanner with currentFreq := f }
        (analyzeModulation env f band st.scanner
          (measureRSSI env f band st.scanner st.world).2).2
      have hcong : sweepHits env band (scanStep env band f st).scanner
          (scanStep env band f st).world fs
          = sweepHits env band st.scanner
            (analyzeModulation env f band st.scanner
              (measureRSSI env f band st.scanner st.world).2).2 fs := by
        apply sweepHits_congr
        · rw [hst]
          exact hfr.2.1
        · rw [hst]
          exact hfr.2.2.1
        · rw [hst]
          exact hrad.symm
      have key := ih (scanStep env band f st)
        (addSignal env f (measureRSSI env f band st.scanner st.world).1
          (analyzeModulation env f band st.scanner
            (measureRSSI env f band st.scanner st.world).2).1 band s0 w0).1
        (addSignal env f (measureRSSI env f band st.scanner st.world).1
          (analyzeModulation env f band st.scanner
            (measureRSSI env f band st.scanner st.world).2).1 band s0 w0).2
        (by rw [hst]; exact hreg.1) (by rw [hst]; exact hreg.2.1) (by rw [hst]; exact hreg.2.2)
      rw [hcong] at key
      rw [sweepHits_cons_hit env band st.scanner st.world f fs hit]
      refine ⟨key.1, key.2.1, key.2.2.1, ?_⟩
      rw [key.2.2.2, hst]
      simp only [List.filter_append, List.map_cons, List.append_assoc]
      congr 1
      simp [hit]
    · have hst := scanStep_miss env band f st hit
      have hcong : sweepHits env band (scanStep env band f st).scanner
          (scanStep env band f st).world fs
          = sweepHits env band st.scanner (measureRSSI env f band st.scanner st.world).2 fs := by
        apply sweepHits_congr
        · rw [hst]
        · rw [hst]
        · rw [hst]
          exact World.SameRadio.refl _
      have key := ih (scanStep env band f st) s0 w0
        (by rw [hst]; exact h1) (by rw [hst]; exact h2)
        (by rw [hst]; exact (measureRSSI_millisCalls env f band st.scanner st.world).trans h3)
      rw [hcong] at key
      rw [sweepHits_cons_miss env band st.scanner st.world f fs hit]
      refine ⟨key.1, key.2.1, key.2.2.1, ?_⟩
      rw [key.2.2.2, hst]
      simp only [List.filter_append]
      congr 1
      simp [hit]

theorem scanFinish_refines (env : Env) (band : Nat) (fs : List ℚ) (s : RFScanner) (w : World) :
    (scanFinish env (fs.foldl (fun acc f => scanStep env band f acc)
        (Sweep.start s w))).scanner.signals = (sweepSpec env band fs s w).1.signals ∧
    (scanFinish env (fs.foldl (fun acc f => scanStep env band f acc)
        (Sweep.start s w))).scanner.signalCount = (sweepSpec env band fs s w).1.signalCount ∧
    (scanFinish env (fs.foldl (fun acc f => scanStep env band f acc)
        (Sweep.start s w))).world.millisCalls = (sweepSpec env band fs s w).2.millisCalls ∧
    (scanFinish env (fs.foldl (fun acc f => scanStep env band f acc)
        (Sweep.start s w))).observed.filter (fun o => decide (o.2 > RSSI_THRESHOLD))
      = (sweepHits env band s w fs).map (fun h => (h.1, h.2.1)) := by
  obtain ⟨h1, _, h3, h4⟩ := foldl_scanStep_refines env band fs (Sweep.start s w) s w rfl rfl rfl
  have hc := cleanupSignals_registry_congr env _ _ _ _ h1 h3
  refine ⟨hc.1, hc.2.1, hc.2.2, ?_⟩
  have : (Sweep.start s w).observed = [] := rfl
  rw [this] at h4
  simpa using h4

/-- C15. Sweep ordering: on an available band, with enough fuel, the registry
(slots and `signalCount`) left by `scan900MHz` (resp. `scan2400MHz`) is the one
obtained by taking the above-threshold observations of the sweep in strictly
increasing order of frequency, each classified by `analyzeModulation` right after
its measurement, calling `addSignal` on each in turn with the rssi measured by
the sweep, and applying `cleanupSignals` once after the last; the clock is read
the same number of times, so no expiry pass runs between two upserts. -/
theorem sweep_refines_spec (env : Env) (fuel : Nat) (s : RFScanner) (w : World) :
    (s.sx1262Available = true → 142 ≤ fuel →
      ∃ r, scan900MHz env fuel s w = some r ∧
        r.scanner.signals
          = (sweepSpec env 0 (sweepFreqs 860 (1 / 2) 141) s w).1.signals ∧
        r.scanner.signalCount
          = (sweepSpec env 0 (sweepFreqs 860 (1 / 2) 141) s w).1.signalCount ∧
        r.world.millisCalls
          = (sweepSpec env 0 (sweepFreqs 860 (1 / 2) 141) s w).2.millisCalls ∧
        r.observed.filter (fun o => decide (o.2 > -100))
          = (sweepHits env 0 s w (sweepFreqs 860 (1 / 2) 141)).map (fun h => (h.1, h.2.1)) ∧
        ((sweepHits env 0 s w (sweepFreqs 860 (1 / 2) 141)).map (fun h => h.1)).Pairwise
          (fun a b => a < b)) ∧
    (s.sx1280Available = true → 102 ≤ fuel →
      ∃ r, scan2400MHz env fuel s w = some r ∧
        r.scanner.signals = (sweepSpec env 1 (sweepFreqs 2400 1 101) s w).1.signals ∧
        r.scanner.signalCount = (sweepSpec env 1 (sweepFreqs 2400 1 101) s w).1.signalCount ∧
        r.world.millisCalls = (sweepSpec env 1 (sweepFreqs 2400 1 101) s w).2.millisCalls ∧
        r.observed.filter (fun o => decide (o.2 > -100))
          = (sweepHits env 1 s w (sweepFreqs 2400 1 101)).map (fun h => (h.1, h.2.1)) ∧
        ((sweepHits env 1 s w (sweepFreqs 2400 1 101)).map (fun h => h.1)).Pairwise
          (fun a b => a < b)) ∧
    (∀ (band : Nat) (fs : List ℚ),
      sweepSpec env band fs s w =
        cleanupSignals env (upsertAll env band (sweepHits env band s w fs) s w).1
          (upsertAll env band (sweepHits env band s w fs) s w).2) := by
  refine ⟨?_, ?_, fun _ _ => rfl⟩
  · intro ha hfuel
    obtain ⟨h1, h2, h3, h4⟩ := scanFinish_refines env 0
      (sweepFreqs FREQ_900_START FREQ_900_STEP 141) s w
    refine ⟨_, scan900MHz_eq env fuel s w ha hfuel, h1, h2, h3, h4, ?_⟩
    exact List.Pairwise.sublist (sweepHits_sublist env 0 s _ w)
      (sweepFreqs_increasing _ _ (by norm_num) _)
  · intro ha hfuel
    obtain ⟨h1, h2, h3, h4⟩ := scanFinish_refines env 1
      (sweepFreqs FREQ_2400_START FREQ_2400_STEP 101) s w
    refine ⟨_, scan2400MHz_eq env fuel s w ha hfuel, h1, h2, h3, h4, ?_⟩
    exact List.Pairwise.sublist (sweepHits_sublist env 1 s _ w)
      (sweepFreqs_increasing _ _ (by norm_num) _)

/-- C15, at an instance: the 900 MHz sweep of the fresh, ready scanner with 142
units of fuel. -/
theorem sweep_refines_spec_witness :
    ∃ r, scan900MHz Env.sample 142 RFScanner.ready World.zero = some r ∧
      r.scanner.signals
        = (sweepSpec Env.sample 0 (sweepFreqs 860 (1 / 2) 141) RFScanner.ready
            World.zero).1.signals ∧
      r.scanner.signalCount
        = (sweepSpec Env.sample 0 (sweepFreqs 860 (1 / 2) 141) RFScanner.ready
            World.zero).1.signalCount ∧
      r.world.millisCalls
        = (sweepSpec Env.sample 0 (sweepFreqs 860 (1 / 2) 141) RFScanner.ready
            World.zero).2.millisCalls ∧
      r.observed.filter (fun o => decide (o.2 > -100))
        = (sweepHits Env.sample 0 RFScanner.ready World.zero
            (sweepFreqs 860 (1 / 2) 141)).map (fun h => (h.1, h.2.1)) ∧
      ((sweepHits Env.sample 0 RFScanner.ready World.zero
          (sweepFreqs 860 (1 / 2) 141)).map (fun h => h.1)).Pairwise (fun a b => a < b) :=
  (sweep_refines_spec Env.sample 142 RFScanner.ready World.zero).1 rfl (le_refl _)

end Spur
